import Mathlib

/-!
Formal model of the `eq1_pulse` pulse-program IR and its builder
(`src/eq1_pulse/models/*.py`, `src/eq1_pulse/builder/core.py`), written as a
shallow embedding: pydantic models become inductive types, the module-level
builder state becomes an explicit `BuilderState` value threaded through the
translated builder functions, and Python exceptions become explicit error
results.  Numeric field payloads are modelled as `Int` (the claims under
check exercise the structural behaviour of serialization and of the builder,
not float arithmetic).  Python `str.isidentifier` is modelled for the ASCII
fragment.
-/

set_option maxRecDepth 4000

namespace EqPulse

mutual
/-- Wire values: the JSON-compatible tree produced by `model_dump`.  The
array and object payloads are dedicated list types of the same mutual
family, so that recursion over wire values is structural. -/
inductive Json where
| num (n : Int)
| str (s : String)
| bool (b : Bool)
| null
| arr (xs : JsonList)
| obj (fields : JsonFields)
/-- Elements of a JSON array. -/
inductive JsonList where
| nil
| cons (head : Json) (tail : JsonList)
/-- Key-value fields of a JSON object, in order of appearance. -/
inductive JsonFields where
| nil
| cons (key : String) (value : Json) (rest : JsonFields)
end

/-- Conversion from a Lean list of wire values. -/
def JsonList.ofList : List Json → JsonList
| [] => .nil
| x :: xs => .cons x (JsonList.ofList xs)

/-- Conversion from a Lean list of key-value pairs. -/
def JsonFields.ofList : List (String × Json) → JsonFields
| [] => .nil
| (k, v) :: xs => .cons k v (JsonFields.ofList xs)

/-- Array constructor taking a Lean list. -/
def Json.arrL (xs : List Json) : Json :=
  .arr (JsonList.ofList xs)

/-- Object constructor taking a Lean list of key-value pairs. -/
def Json.objL (fields : List (String × Json)) : Json :=
  .obj (JsonFields.ofList fields)

/-- Keys of a JSON object field list in order of appearance. -/
def JsonFields.keys : JsonFields → List String
| .nil => []
| .cons k _ rest => k :: rest.keys

/-- Field lookup in a JSON object field list (first match). -/
def JsonFields.get : JsonFields → String → Option Json
| .nil, _ => none
| .cons k v rest, key => if k = key then some v else rest.get key

/-- Keys of a JSON object in order of appearance; empty for non-objects. -/
def Json.keys : Json → List String
| .obj fields => fields.keys
| _ => []

/-- Field lookup in a JSON object (first match). -/
def Json.get : Json → String → Option Json
| .obj fields, k => fields.get k
| _, _ => none

mutual
/-- Structural weight of a wire value, used as the fuel bound of the
deserializers. -/
def Json.size : Json → Nat
| .num _ => 1
| .str _ => 1
| .bool _ => 1
| .null => 1
| .arr xs => xs.size + 1
| .obj fields => fields.size + 1
/-- Structural weight of a JSON array payload. -/
def JsonList.size : JsonList → Nat
| .nil => 1
| .cons x xs => x.size + xs.size + 1
/-- Structural weight of a JSON object payload. -/
def JsonFields.size : JsonFields → Nat
| .nil => 1
| .cons _ v rest => v.size + rest.size + 1
end

/-- ASCII fragment of Python `str.isidentifier`: first char a letter or
underscore, rest letters, digits or underscores, nonempty. -/
def isPyIdentifier (s : String) : Bool :=
  match s.toList with
  | [] => false
  | c :: cs => (c.isAlpha || c = '_') && cs.all (fun d => d.isAlphanum || d = '_')

/-- The dot separator character. -/
def dotChar : Char := Char.ofNat 46

/-- Split a character list at the dots (Python `str.split` with a `"."`
separator): always at least one part, empty parts kept. -/
def splitDots : List Char → List (List Char)
| [] => [[]]
| c :: rest =>
  match splitDots rest with
  | [] => if c = dotChar then [[], []] else [[c]]
  | h :: t => if c = dotChar then [] :: h :: t else (c :: h) :: t

/-- ASCII fragment of the `FullyQualifiedIdentifier` check in
`identifier_str.py`: dot-separated parts, each a valid identifier. -/
def isFullyQualifiedIdentifier (s : String) : Bool :=
  (splitDots s.toList).all (fun part => isPyIdentifier (String.mk part))

/-- Time quantity (`Time` / `Duration` / `RelTime` in `basic_types.py`): the
wrapped value is stored in exactly one of the four supported units. -/
inductive TimeValue where
| s (v : Int)
| ms (v : Int)
| us (v : Int)
| ns (v : Int)

/-- Raw stored value of a time quantity (the `_raw` property of the unit
models in `units.py`). -/
def TimeValue.raw : TimeValue → Int
| .s v => v
| .ms v => v
| .us v => v
| .ns v => v

/-- Name of the stored unit field of a time quantity. -/
def TimeValue.unitName : TimeValue → String
| .s _ => "s"
| .ms _ => "ms"
| .us _ => "us"
| .ns _ => "ns"

/-- Serialization of a time quantity: `WrappedValueModel` dumps the wrapped
unit model, which dumps as a one-field record. -/
def TimeValue.serialize (t : TimeValue) : Json :=
  .objL [(t.unitName, .num t.raw)]

/-- Deserialization of a time quantity: a one-key record selects the unit
model of the wrapped union; the literal `0` is accepted and constructs the
zero of the registered unit-of-zero `s`. -/
def parseTimeValue : Json → Option TimeValue
| .obj (.cons k (.num v) .nil) =>
    if k = "s" then some (.s v)
    else if k = "ms" then some (.ms v)
    else if k = "us" then some (.us v)
    else if k = "ns" then some (.ns v)
    else none
| .num 0 => some (.s 0)
| _ => none

/-- Angle quantity (`Angle` / `Phase`): one of four supported units. -/
inductive AngleValue where
| deg (v : Int)
| rad (v : Int)
| turns (v : Int)
| half_turns (v : Int)

/-- Raw stored value of an angle quantity. -/
def AngleValue.raw : AngleValue → Int
| .deg v => v
| .rad v => v
| .turns v => v
| .half_turns v => v

/-- Name of the stored unit field of an angle quantity. -/
def AngleValue.unitName : AngleValue → String
| .deg _ => "deg"
| .rad _ => "rad"
| .turns _ => "turns"
| .half_turns _ => "half_turns"

/-- Serialization of an angle quantity as a one-field record. -/
def AngleValue.serialize (a : AngleValue) : Json :=
  .objL [(a.unitName, .num a.raw)]

/-- Deserialization of an angle quantity; the literal `0` constructs the zero
of the registered unit-of-zero `deg`. -/
def parseAngleValue : Json → Option AngleValue
| .obj (.cons k (.num v) .nil) =>
    if k = "deg" then some (.deg v)
    else if k = "rad" then some (.rad v)
    else if k = "turns" then some (.turns v)
    else if k = "half_turns" then some (.half_turns v)
    else none
| .num 0 => some (.deg 0)
| _ => none

/-- Real voltage quantity (`Voltage` / `Threshold` / `Magnitude`). -/
inductive VoltValue where
| V (v : Int)
| mV (v : Int)

/-- Raw stored value of a real voltage quantity. -/
def VoltValue.raw : VoltValue → Int
| .V v => v
| .mV v => v

/-- Name of the stored unit field of a real voltage quantity. -/
def VoltValue.unitName : VoltValue → String
| .V _ => "V"
| .mV _ => "mV"

/-- Serialization of a real voltage quantity as a one-field record. -/
def VoltValue.serialize (a : VoltValue) : Json :=
  .objL [(a.unitName, .num a.raw)]

/-- Deserialization of a real voltage quantity; the literal `0` constructs
the zero of the registered unit-of-zero `V`. -/
def parseVoltValue : Json → Option VoltValue
| .obj (.cons k (.num v) .nil) =>
    if k = "V" then some (.V v)
    else if k = "mV" then some (.mV v)
    else none
| .num 0 => some (.V 0)
| _ => none

/-- Stored payload of a complex voltage: the field type of `ComplexVolts` is
`int | float | complex_from_tuple`, so the stored value is either a scalar
or a complex number (which serializes as a two-element pair). -/
inductive Scalar where
| int (n : Int)
| cplx (re im : Int)

/-- Serialization of a stored scalar-or-complex payload. -/
def Scalar.serialize : Scalar → Json
| .int n => .num n
| .cplx re im => .arrL [.num re, .num im]

/-- Deserialization of a scalar-or-complex payload: a number stays scalar, a
two-element numeric pair becomes a complex value. -/
def parseScalar : Json → Option Scalar
| .num n => some (.int n)
| .arr (.cons (.num re) (.cons (.num im) .nil)) => some (.cplx re im)
| _ => none

/-- Complex voltage quantity (`ComplexVoltage` / `Amplitude`). -/
inductive CVoltValue where
| V (v : Scalar)
| mV (v : Scalar)

/-- Name of the stored unit field of a complex voltage quantity. -/
def CVoltValue.unitName : CVoltValue → String
| .V _ => "V"
| .mV _ => "mV"

/-- Stored payload of a complex voltage quantity. -/
def CVoltValue.payload : CVoltValue → Scalar
| .V v => v
| .mV v => v

/-- Serialization of a complex voltage quantity as a one-field record. -/
def CVoltValue.serialize (a : CVoltValue) : Json :=
  .objL [(a.unitName, a.payload.serialize)]

/-- Deserialization of a complex voltage quantity. -/
def parseCVoltValue : Json → Option CVoltValue
| .obj (.cons k v .nil) => do
    let sc ← parseScalar v
    if k = "V" then some (.V sc)
    else if k = "mV" then some (.mV sc)
    else none
| .num 0 => some (.V (.int 0))
| _ => none

/-- Frequency quantity (`Frequency`). -/
inductive FreqValue where
| Hz (v : Int)
| kHz (v : Int)
| MHz (v : Int)
| GHz (v : Int)

/-- Raw stored value of a frequency quantity. -/
def FreqValue.raw : FreqValue → Int
| .Hz v => v
| .kHz v => v
| .MHz v => v
| .GHz v => v

/-- Name of the stored unit field of a frequency quantity. -/
def FreqValue.unitName : FreqValue → String
| .Hz _ => "Hz"
| .kHz _ => "kHz"
| .MHz _ => "MHz"
| .GHz _ => "GHz"

/-- Serialization of a frequency quantity as a one-field record. -/
def FreqValue.serialize (a : FreqValue) : Json :=
  .objL [(a.unitName, .num a.raw)]

/-- Deserialization of a frequency quantity; the literal `0` constructs the
zero of the registered unit-of-zero `Hz`. -/
def parseFreqValue : Json → Option FreqValue
| .obj (.cons k (.num v) .nil) =>
    if k = "Hz" then some (.Hz v)
    else if k = "kHz" then some (.kHz v)
    else if k = "MHz" then some (.MHz v)
    else if k = "GHz" then some (.GHz v)
    else none
| .num 0 => some (.Hz 0)
| _ => none

/-- Reference points for schedulables (`RefPt` in `schedule.py`). -/
inductive RefPt where
| Start
| End
| Center

/-- String value of a reference point, as used on the wire. -/
def RefPt.toStr : RefPt → String
| .Start => "start"
| .End => "end"
| .Center => "center"

/-- Deserialization of a reference point. -/
def parseRefPt : Json → Option RefPt
| .str s =>
    if s = "start" then some .Start
    else if s = "end" then some .End
    else if s = "center" then some .Center
    else none
| _ => none

/-- Comparison operators of `Discriminate` (`ComparisonMode` in
`data_ops.py`). -/
inductive ComparisonMode where
| GreaterEqual
| Greater
| LessEqual
| Less

/-- String value of a comparison operator, as used on the wire. -/
def ComparisonMode.toStr : ComparisonMode → String
| .GreaterEqual => ">="
| .Greater => ">"
| .LessEqual => "<="
| .Less => "<"

/-- Deserialization of a comparison operator. -/
def parseComparisonMode : Json → Option ComparisonMode
| .str s =>
    if s = ">=" then some .GreaterEqual
    else if s = ">" then some .Greater
    else if s = "<=" then some .LessEqual
    else if s = "<" then some .Less
    else none
| _ => none

/-- Projection modes of `Discriminate` (`ComplexToRealProjectionMode`). -/
inductive ProjectionMode where
| RealPart
| ImaginaryPart
| Magnitude
| Phase

/-- String value of a projection mode, as used on the wire. -/
def ProjectionMode.toStr : ProjectionMode → String
| .RealPart => "real"
| .ImaginaryPart => "imag"
| .Magnitude => "abs"
| .Phase => "phase"

/-- Deserialization of a projection mode. -/
def parseProjectionMode : Json → Option ProjectionMode
| .str s =>
    if s = "real" then some .RealPart
    else if s = "imag" then some .ImaginaryPart
    else if s = "abs" then some .Magnitude
    else if s = "phase" then some .Phase
    else none
| _ => none

/-- Storage modes of `Store` (`StoreMode` in `data_ops.py`). -/
inductive StoreMode where
| Last
| Average
| Count
| Trace

/-- String value of a storage mode, as used on the wire. -/
def StoreMode.toStr : StoreMode → String
| .Last => "last"
| .Average => "average"
| .Count => "count"
| .Trace => "trace"

/-- Deserialization of a storage mode. -/
def parseStoreMode : Json → Option StoreMode
| .str s =>
    if s = "last" then some .Last
    else if s = "average" then some .Average
    else if s = "count" then some .Count
    else if s = "trace" then some .Trace
    else none
| _ => none

/-- Data types of `VariableDecl` (`VariableDTypeType`). -/
inductive VarDType where
| bool
| int
| float
| complex

/-- String value of a variable data type, as used on the wire. -/
def VarDType.toStr : VarDType → String
| .bool => "bool"
| .int => "int"
| .float => "float"
| .complex => "complex"

/-- Deserialization of a variable data type. -/
def parseVarDType : Json → Option VarDType
| .str s =>
    if s = "bool" then some .bool
    else if s = "int" then some .int
    else if s = "float" then some .float
    else if s = "complex" then some .complex
    else none
| _ => none

/-- Two-case field union `Quantity | VariableRef` used by many operation
fields; a `VariableRef` wraps one identifier and serializes as that bare
string (`Reference` in `reference_types.py`). -/
inductive OrVar (Q : Type) where
| val (q : Q)
| var (name : String)

/-- Serialization of a quantity-or-variable field given the serializer of
the quantity side. -/
def OrVar.serialize (sq : Q → Json) : OrVar Q → Json
| .val q => sq q
| .var name => .str name

/-- Deserialization of a quantity-or-variable field: records deserialize the
quantity, a bare string must be a valid identifier and deserializes the
variable reference. -/
def parseOrVar (pq : Json → Option Q) : Json → Option (OrVar Q)
| .str s => if isPyIdentifier s then some (.var s) else none
| j => (pq j).map .val

/-- Optional serialized field: contributes one key when the value is kept,
nothing when suppressed (the `LeanModel` wrap serializer drops fields whose
value equals the field default). -/
def optField (k : String) : Option Json → List (String × Json)
| none => []
| some j => [(k, j)]

/-- Membership check used to model the `NoExtrasModel` configuration, which
rejects extra input fields: every present key must be an allowed field
name. -/
def keysAllowed (j : Json) (allowed : List String) : Bool :=
  (j.keys).all (fun k => allowed.contains k)

/-- Numeric-array helper: a JSON list of numbers as a list of integers. -/
def parseNumList : JsonList → Option (List Int)
| .nil => some []
| .cons (.num n) rest => (parseNumList rest).map (n :: ·)
| _ => none

/-- Complex-array helper: a JSON list of two-element numeric pairs. -/
def parsePairList : JsonList → Option (List (Int × Int))
| .nil => some []
| .cons (.arr (.cons (.num re) (.cons (.num im) .nil))) rest => (parsePairList rest).map ((re, im) :: ·)
| _ => none

/-- String-list helper: a JSON list of strings. -/
def parseStrList : JsonList → Option (List String)
| .nil => some []
| .cons (.str s) rest => (parseStrList rest).map (s :: ·)
| _ => none

/-- Parameter values of `ExternalPulse.params` (`PulseParamValue` in
`pulse_types.py`): a dimensioned quantity, a variable reference, or a plain
scalar/string. -/
inductive PulseParamValue where
| amplitude (a : CVoltValue)
| duration (d : TimeValue)
| frequency (f : FreqValue)
| varRef (v : String)
| num (n : Int)
| text (s : String)

/-- Serialization of a pulse parameter value. -/
def PulseParamValue.serialize : PulseParamValue → Json
| .amplitude a => a.serialize
| .duration d => d.serialize
| .frequency f => f.serialize
| .varRef v => .str v
| .num n => .num n
| .text s => .str s

/-- Deserialization of a pulse parameter value, trying the union members in
declaration order (`Amplitude | Duration | Frequency | VariableRef |
scalar`); a bare identifier string resolves to a variable reference before
the plain-string fallback. -/
def parsePulseParamValue (j : Json) : Option PulseParamValue :=
  match parseCVoltValue j with
  | some a => some (.amplitude a)
  | none =>
  match parseTimeValue j with
  | some d => some (.duration d)
  | none =>
  match parseFreqValue j with
  | some f => some (.frequency f)
  | none =>
  match j with
  | .str s => if isPyIdentifier s then some (.varRef s) else some (.text s)
  | .num n => some (.num n)
  | _ => none

/-- Parameter-record helper: parse each entry of a params object. -/
def parseParamEntries : JsonFields → Option (List (String × PulseParamValue))
| .nil => some []
| .cons k v rest => do
    let pv ← parsePulseParamValue v
    let tail ← parseParamEntries rest
    some ((k, pv) :: tail)

/-- Sample data of `ArbitrarySampledPulse.samples`: a real or a complex
one-dimensional array. -/
inductive Samples where
| real (xs : List Int)
| cplx (xs : List (Int × Int))

/-- Serialization of sample data: real arrays as number lists, complex
arrays as lists of two-element pairs. -/
def Samples.serialize : Samples → Json
| .real xs => .arrL (xs.map Json.num)
| .cplx xs => .arrL (xs.map (fun p => .arrL [.num p.1, .num p.2]))

/-- Deserialization of sample data, trying the float-array validator before
the complex-array validator as in the declared union. -/
def parseSamples : Json → Option Samples
| .arr xs =>
    match parseNumList xs with
    | some ns => some (.real ns)
    | none => (parsePairList xs).map .cplx
| _ => none

/-- Pulse shapes (`PulseType` union in `pulse_types.py`), discriminated by
`pulse_type`. -/
inductive PulseType where
| square (duration : OrVar TimeValue) (amplitude : OrVar CVoltValue)
    (rise_time fall_time : Option (OrVar TimeValue))
| sine (duration : OrVar TimeValue) (amplitude : OrVar CVoltValue)
    (frequency : OrVar FreqValue) (to_frequency : Option (OrVar FreqValue))
| external (duration : OrVar TimeValue) (amplitude : OrVar CVoltValue)
    (function : String) (params : Option (List (String × PulseParamValue)))
| arbitrary (duration : OrVar TimeValue) (amplitude : OrVar CVoltValue)
    (samples : Samples) (interpolation : Option String)
    (time_points : Option (List Int))

/-- Serialization of a pulse: the discriminator and the required fields are
always present, optional fields only when not equal to their `None`
default.  Field order follows the pydantic field order (base-class fields
first). -/
def PulseType.serialize : PulseType → Json
| .square d a rt ft =>
    .objL ([("pulse_type", .str "square"), ("duration", d.serialize TimeValue.serialize),
      ("amplitude", a.serialize CVoltValue.serialize)]
      ++ optField "rise_time" (rt.map (·.serialize TimeValue.serialize))
      ++ optField "fall_time" (ft.map (·.serialize TimeValue.serialize)))
| .sine d a f tf =>
    .objL ([("pulse_type", .str "sine"), ("duration", d.serialize TimeValue.serialize),
      ("amplitude", a.serialize CVoltValue.serialize),
      ("frequency", f.serialize FreqValue.serialize)]
      ++ optField "to_frequency" (tf.map (·.serialize FreqValue.serialize)))
| .external d a fn ps =>
    .objL ([("pulse_type", .str "external"), ("duration", d.serialize TimeValue.serialize),
      ("amplitude", a.serialize CVoltValue.serialize), ("function", .str fn)]
      ++ optField "params" (ps.map (fun entries =>
            .objL (entries.map (fun e => (e.1, e.2.serialize))))))
| .arbitrary d a smp interp tp =>
    .objL ([("pulse_type", .str "arbitrary"), ("duration", d.serialize TimeValue.serialize),
      ("amplitude", a.serialize CVoltValue.serialize), ("samples", smp.serialize)]
      ++ optField "interpolation" (interp.map Json.str)
      ++ optField "time_points" (tp.map (fun xs => .arrL (xs.map Json.num))))

/-- Deserialization of a pulse, discriminated by `pulse_type`; unknown or
extra keys are rejected (`extra` is forbidden on all models). -/
def parsePulseType (j : Json) : Option PulseType := do
  let dur ← j.get "duration"
  let d ← parseOrVar parseTimeValue dur
  let amp ← j.get "amplitude"
  let a ← parseOrVar parseCVoltValue amp
  match j.get "pulse_type" with
  | some (.str "square") => do
      if keysAllowed j ["pulse_type", "duration", "amplitude", "rise_time", "fall_time"] then
        let rt ← match j.get "rise_time" with
          | none => some none
          | some v => (parseOrVar parseTimeValue v).map some
        let ft ← match j.get "fall_time" with
          | none => some none
          | some v => (parseOrVar parseTimeValue v).map some
        some (.square d a rt ft)
      else none
  | some (.str "sine") => do
      if keysAllowed j ["pulse_type", "duration", "amplitude", "frequency", "to_frequency"] then
        let fv ← j.get "frequency"
        let f ← parseOrVar parseFreqValue fv
        let tf ← match j.get "to_frequency" with
          | none => some none
          | some v => (parseOrVar parseFreqValue v).map some
        some (.sine d a f tf)
      else none
  | some (.str "external") => do
      if keysAllowed j ["pulse_type", "duration", "amplitude", "function", "params"] then
        match j.get "function" with
        | some (.str fn) =>
            if isFullyQualifiedIdentifier fn then do
              let ps ← match j.get "params" with
                | none => some none
                | some (.obj entries) => (parseParamEntries entries).map some
                | some _ => none
              some (.external d a fn ps)
            else none
        | _ => none
      else none
  | some (.str "arbitrary") => do
      if keysAllowed j ["pulse_type", "duration", "amplitude", "samples", "interpolation",
          "time_points"] then
        let sv ← j.get "samples"
        let smp ← parseSamples sv
        let interp ← match j.get "interpolation" with
          | none => some none
          | some (.str s) => some (some s)
          | some _ => none
        let tp ← match j.get "time_points" with
          | none => some none
          | some (.arr xs) => (parseNumList xs).map some
          | some _ => none
        some (.arbitrary d a smp interp tp)
      else none
  | _ => none

/-- Integration operations of `Record`/`Trace` (`IntegrationType` union in
`channel_ops.py`), discriminated by `integration_type`. -/
inductive IntegrationType where
| full
| demod (phase : Option AngleValue) (scale_cos scale_sin : Int)

/-- Serialization of an integration record: the discriminator is kept, the
demodulation parameters only when different from their defaults
(`phase = None`, `scale_cos = 1`, `scale_sin = 1`). -/
def IntegrationType.serialize : IntegrationType → Json
| .full => .objL [("integration_type", .str "full")]
| .demod ph sc ss =>
    .objL ([("integration_type", .str "demod")]
      ++ optField "phase" (ph.map AngleValue.serialize)
      ++ optField "scale_cos" (if sc = 1 then none else some (.num sc))
      ++ optField "scale_sin" (if ss = 1 then none else some (.num ss)))

/-- Deserialization of an integration record, discriminated by
`integration_type`, with absent demodulation parameters defaulting. -/
def parseIntegrationType (j : Json) : Option IntegrationType :=
  match j.get "integration_type" with
  | some (.str "full") =>
      if keysAllowed j ["integration_type"] then some .full else none
  | some (.str "demod") =>
      if keysAllowed j ["integration_type", "phase", "scale_cos", "scale_sin"] then do
        let ph ← match j.get "phase" with
          | none => some none
          | some v => (parseAngleValue v).map some
        let sc ← match j.get "scale_cos" with
          | none => some (1 : Int)
          | some (.num n) => some n
          | some _ => none
        let ss ← match j.get "scale_sin" with
          | none => some (1 : Int)
          | some (.num n) => some n
          | some _ => none
        some (.demod ph sc ss)
      else none
  | _ => none

/-- Reference field helper: a reference serializes as its bare identifier
string, and deserializes from a valid identifier string only. -/
def parseRefName : Json → Option String
| .str s => if isPyIdentifier s then some s else none
| _ => none

/-- Amplitude-scaling field of `Play` (`float | complex | VariableRef |
None`); the scalar side is modelled by `Int`. -/
inductive ScaleAmp where
| num (n : Int)
| varRef (v : String)

/-- Serialization of an amplitude-scaling value. -/
def ScaleAmp.serialize : ScaleAmp → Json
| .num n => .num n
| .varRef v => .str v

/-- Deserialization of an amplitude-scaling value. -/
def parseScaleAmp : Json → Option ScaleAmp
| .num n => some (.num n)
| .str s => if isPyIdentifier s then some (.varRef s) else none
| _ => none

/-- Pulse field of `Play` (`PulseType | PulseRef`): an inline pulse record
or a bare pulse-name reference. -/
inductive PulseOrRef where
| pulse (p : PulseType)
| ref (name : String)

/-- Serialization of a pulse-or-reference field. -/
def PulseOrRef.serialize : PulseOrRef → Json
| .pulse p => p.serialize
| .ref name => .str name

/-- Deserialization of a pulse-or-reference field. -/
def parsePulseOrRef : Json → Option PulseOrRef
| .str s => if isPyIdentifier s then some (.ref s) else none
| j => (parsePulseType j).map .pulse

/-- Closed set of leaf operations (`ChannelOp` and `DataOp` unions), each
variant carrying the `op_type` discriminator on the wire.  References are
modelled by their identifier strings. -/
inductive Op where
| play (channel : String) (pulse : PulseOrRef) (scale_amp : Option ScaleAmp)
    (cond : Option String)
| wait (channels : List String) (duration : TimeValue)
| barrier (channels : List String)
| set_frequency (channel : String) (frequency : OrVar FreqValue)
| shift_frequency (channel : String) (frequency : OrVar FreqValue)
| set_phase (channel : String) (phase : OrVar AngleValue)
| shift_phase (channel : String) (phase : OrVar AngleValue)
| record (channel : String) (var : String) (duration : TimeValue)
    (integration : IntegrationType) (time_of_flight : Option TimeValue)
| trace (channel : String) (var : String) (duration : TimeValue)
    (integration : Option IntegrationType) (time_of_flight : Option TimeValue)
| dc_comp (channel : String) (duration : Option (OrVar TimeValue))
    (max_amp : Option VoltValue) (rise_time fall_time : Option (OrVar TimeValue))
| var_decl (name : String) (dtype : VarDType) (shape : Option (List Int))
    (unit : Option String)
| pulse_decl (name : String) (pulse : PulseType)
| discriminate (target source : String) (threshold : VoltValue)
    (rotation : AngleValue) (compare : ComparisonMode) (project : ProjectionMode)
| store (key : String) (source : String) (mode : StoreMode)

/-- Discriminator string of a leaf operation. -/
def Op.opType : Op → String
| .play .. => "play"
| .wait .. => "wait"
| .barrier .. => "barrier"
| .set_frequency .. => "set_frequency"
| .shift_frequency .. => "shift_frequency"
| .set_phase .. => "set_phase"
| .shift_phase .. => "shift_phase"
| .record .. => "record"
| .trace .. => "trace"
| .dc_comp .. => "dc_comp"
| .var_decl .. => "var_decl"
| .pulse_decl .. => "pulse_decl"
| .discriminate .. => "discriminate"
| .store .. => "store"

/-- Serialization of a leaf operation, following the `LeanModel` wrap
serializer: the discriminator and the required fields always appear (a
required nullable field appears as `null`), optional fields only when their
value differs from the field default.  The default comparison for the
`rotation` field of `Discriminate` follows the quantity equality: a phase
equals the default `Phase(0)` exactly when its raw stored value is zero. -/
def Op.serialize : Op → Json
| .play ch p sa cond =>
    .objL ([("op_type", .str "play"), ("channel", .str ch), ("pulse", p.serialize)]
      ++ optField "scale_amp" (sa.map ScaleAmp.serialize)
      ++ optField "cond" (cond.map Json.str))
| .wait chs d =>
    .objL [("op_type", .str "wait"), ("channels", .arrL (chs.map Json.str)),
      ("duration", d.serialize)]
| .barrier chs =>
    .objL [("op_type", .str "barrier"), ("channels", .arrL (chs.map Json.str))]
| .set_frequency ch f =>
    .objL [("op_type", .str "set_frequency"), ("channel", .str ch),
      ("frequency", f.serialize FreqValue.serialize)]
| .shift_frequency ch f =>
    .objL [("op_type", .str "shift_frequency"), ("channel", .str ch),
      ("frequency", f.serialize FreqValue.serialize)]
| .set_phase ch p =>
    .objL [("op_type", .str "set_phase"), ("channel", .str ch),
      ("phase", p.serialize AngleValue.serialize)]
| .shift_phase ch p =>
    .objL [("op_type", .str "shift_phase"), ("channel", .str ch),
      ("phase", p.serialize AngleValue.serialize)]
| .record ch v d intg tof =>
    .objL ([("op_type", .str "record"), ("channel", .str ch), ("var", .str v),
      ("duration", d.serialize), ("integration", intg.serialize)]
      ++ optField "time_of_flight" (tof.map TimeValue.serialize))
| .trace ch v d intg tof =>
    .objL ([("op_type", .str "trace"), ("channel", .str ch), ("var", .str v),
      ("duration", d.serialize)]
      ++ optField "integration" (intg.map IntegrationType.serialize)
      ++ optField "time_of_flight" (tof.map TimeValue.serialize))
| .dc_comp ch d ma rt ft =>
    .objL ([("op_type", .str "dc_comp"), ("channel", .str ch),
      ("duration", match d with
        | none => .null
        | some dv => dv.serialize TimeValue.serialize)]
      ++ optField "max_amp" (ma.map VoltValue.serialize)
      ++ optField "rise_time" (rt.map (·.serialize TimeValue.serialize))
      ++ optField "fall_time" (ft.map (·.serialize TimeValue.serialize)))
| .var_decl n dt shp unit =>
    .objL ([("op_type", .str "var_decl"), ("name", .str n), ("dtype", .str dt.toStr)]
      ++ optField "shape" (shp.map (fun xs => .arrL (xs.map Json.num)))
      ++ optField "unit" (unit.map Json.str))
| .pulse_decl n p =>
    .objL [("op_type", .str "pulse_decl"), ("name", .str n), ("pulse", p.serialize)]
| .discriminate tgt src thr rot cmp prj =>
    .objL ([("op_type", .str "discriminate"), ("target", .str tgt), ("source", .str src),
      ("threshold", thr.serialize)]
      ++ optField "rotation" (if rot.raw = 0 then none else some rot.serialize)
      ++ optField "compare" (match cmp with
        | .GreaterEqual => none
        | c => some (.str c.toStr))
      ++ optField "project" (match prj with
        | .RealPart => none
        | p => some (.str p.toStr)))
| .store k src m =>
    .objL [("op_type", .str "store"), ("key", .str k), ("source", .str src),
      ("mode", .str m.toStr)]

/-- Optional-field helper for deserialization: an absent key yields the
default, a present key must parse. -/
def parseOptField (j : Json) (k : String) (p : Json → Option Q) : Option (Option Q) :=
  match j.get k with
  | none => some none
  | some v => (p v).map some

/-- Deserialization of a leaf operation, discriminated by `op_type`; key
sets are validated against the variant fields, required fields must be
present, optional fields default when absent. -/
def parseOp (j : Json) : Option Op :=
  match j.get "op_type" with
  | some (.str t) =>
    if t = "play" then
      if keysAllowed j ["op_type", "channel", "pulse", "scale_amp", "cond"] then do
        let ch ← (j.get "channel").bind parseRefName
        let p ← (j.get "pulse").bind parsePulseOrRef
        let sa ← parseOptField j "scale_amp" parseScaleAmp
        let cond ← parseOptField j "cond" parseRefName
        some (.play ch p sa cond)
      else none
    else if t = "wait" then
      if keysAllowed j ["op_type", "channels", "duration"] then do
        let chs ← match j.get "channels" with
          | some (.arr xs) => parseStrList xs
          | _ => none
        if chs.all isPyIdentifier then do
          let d ← (j.get "duration").bind parseTimeValue
          some (.wait chs d)
        else none
      else none
    else if t = "barrier" then
      if keysAllowed j ["op_type", "channels"] then do
        let chs ← match j.get "channels" with
          | some (.arr xs) => parseStrList xs
          | _ => none
        if chs.all isPyIdentifier then some (.barrier chs) else none
      else none
    else if t = "set_frequency" then
      if keysAllowed j ["op_type", "channel", "frequency"] then do
        let ch ← (j.get "channel").bind parseRefName
        let f ← (j.get "frequency").bind (parseOrVar parseFreqValue)
        some (.set_frequency ch f)
      else none
    else if t = "shift_frequency" then
      if keysAllowed j ["op_type", "channel", "frequency"] then do
        let ch ← (j.get "channel").bind parseRefName
        let f ← (j.get "frequency").bind (parseOrVar parseFreqValue)
        some (.shift_frequency ch f)
      else none
    else if t = "set_phase" then
      if keysAllowed j ["op_type", "channel", "phase"] then do
        let ch ← (j.get "channel").bind parseRefName
        let p ← (j.get "phase").bind (parseOrVar parseAngleValue)
        some (.set_phase ch p)
      else none
    else if t = "shift_phase" then
      if keysAllowed j ["op_type", "channel", "phase"] then do
        let ch ← (j.get "channel").bind parseRefName
        let p ← (j.get "phase").bind (parseOrVar parseAngleValue)
        some (.shift_phase ch p)
      else none
    else if t = "record" then
      if keysAllowed j ["op_type", "channel", "var", "duration", "integration",
          "time_of_flight"] then do
        let ch ← (j.get "channel").bind parseRefName
        let v ← (j.get "var").bind parseRefName
        let d ← (j.get "duration").bind parseTimeValue
        let intg ← (j.get "integration").bind parseIntegrationType
        let tof ← parseOptField j "time_of_flight" parseTimeValue
        some (.record ch v d intg tof)
      else none
    else if t = "trace" then
      if keysAllowed j ["op_type", "channel", "var", "duration", "integration",
          "time_of_flight"] then do
        let ch ← (j.get "channel").bind parseRefName
        let v ← (j.get "var").bind parseRefName
        let d ← (j.get "duration").bind parseTimeValue
        let intg ← parseOptField j "integration" parseIntegrationType
        let tof ← parseOptField j "time_of_flight" parseTimeValue
        some (.trace ch v d intg tof)
      else none
    else if t = "dc_comp" then
      if keysAllowed j ["op_type", "channel", "duration", "max_amp", "rise_time",
          "fall_time"] then do
        let ch ← (j.get "channel").bind parseRefName
        let d ← match j.get "duration" with
          | some .null => some none
          | some v => (parseOrVar parseTimeValue v).map some
          | none => none
        let ma ← parseOptField j "max_amp" parseVoltValue
        let rt ← parseOptField j "rise_time" (parseOrVar parseTimeValue)
        let ft ← parseOptField j "fall_time" (parseOrVar parseTimeValue)
        some (.dc_comp ch d ma rt ft)
      else none
    else if t = "var_decl" then
      if keysAllowed j ["op_type", "name", "dtype", "shape", "unit"] then do
        let n ← (j.get "name").bind parseRefName
        let dt ← (j.get "dtype").bind parseVarDType
        let shp ← match j.get "shape" with
          | none => some none
          | some (.arr xs) => (parseNumList xs).map some
          | some _ => none
        let unit ← match j.get "unit" with
          | none => some none
          | some (.str s) => some (some s)
          | some _ => none
        some (.var_decl n dt shp unit)
      else none
    else if t = "pulse_decl" then
      if keysAllowed j ["op_type", "name", "pulse"] then do
        let n ← (j.get "name").bind parseRefName
        let p ← (j.get "pulse").bind parsePulseType
        some (.pulse_decl n p)
      else none
    else if t = "discriminate" then
      if keysAllowed j ["op_type", "target", "source", "threshold", "rotation",
          "compare", "project"] then do
        let tgt ← (j.get "target").bind parseRefName
        let src ← (j.get "source").bind parseRefName
        let thr ← (j.get "threshold").bind parseVoltValue
        let rot ← match j.get "rotation" with
          | none => some (.deg 0)
          | some v => parseAngleValue v
        let cmp ← match j.get "compare" with
          | none => some .GreaterEqual
          | some v => parseComparisonMode v
        let prj ← match j.get "project" with
          | none => some .RealPart
          | some v => parseProjectionMode v
        some (.discriminate tgt src thr rot cmp prj)
      else none
    else if t = "store" then
      if keysAllowed j ["op_type", "key", "source", "mode"] then do
        let k ← match j.get "key" with
          | some (.str s) => some s
          | _ => none
        let src ← (j.get "source").bind parseRefName
        let m ← (j.get "mode").bind parseStoreMode
        some (.store k src m)
      else none
    else none
  | _ => none

/-- Loop-variable field of an iteration (`var: list[VariableRef] |
VariableRef`). -/
inductive IterVars where
| single (v : String)
| list (vs : List String)

/-- Serialization of the loop-variable field: one bare string or a list of
bare strings. -/
def IterVars.serialize : IterVars → Json
| .single v => .str v
| .list vs => .arrL (vs.map Json.str)

/-- Python `round` (banker rounding, round half to even) on rationals. -/
def pyRound (q : ℚ) : ℤ :=
  let f := ⌊q⌋
  let r := q - (f : ℚ)
  if r < 1 / 2 then f
  else if 1 / 2 < r then f + 1
  else if Even f then f else f + 1

/-- Iterable specifications that are not Python lists: `LinSpace`, `Range`
and numeric arrays. -/
inductive IterScalarSeq where
| linspace (start stop : Int) (num : Int)
| range (start stop step : Int)
| array (xs : List Int)

/-- Number of divisions of a `Range` (the `_ndivs` cached property):
`round((stop - start) / step)` for a nonzero step, zero otherwise. -/
def rangeNdivs (start stop step : Int) : Int :=
  if step = 0 then 0 else pyRound (((stop : ℚ) - start) / step)

/-- Length of a non-list iterable: `num` for a linear space, the division
count plus one for a range, the element count for an array. -/
def IterScalarSeq.len : IterScalarSeq → Int
| .linspace _ _ num => num
| .range start stop step => (rangeNdivs start stop step).natAbs + 1
| .array xs => xs.length

/-- Serialization of a non-list iterable. -/
def IterScalarSeq.serialize : IterScalarSeq → Json
| .linspace start stop num =>
    .objL [("start", .num start), ("stop", .num stop), ("num", .num num)]
| .range start stop step =>
    .objL [("start", .num start), ("stop", .num stop), ("step", .num step)]
| .array xs => .arrL (xs.map Json.num)

/-- Element of a list-form iterable field: a string element, a nested
string list, or a non-list iterable. -/
inductive IterElem where
| seq (q : IterScalarSeq)
| strs (ss : List String)

/-- Length of a list-form iterable element (`len(item)` in the arity
validator). -/
def IterElem.len : IterElem → Int
| .seq q => q.len
| .strs ss => ss.length

/-- Serialization of a list-form iterable element. -/
def IterElem.serialize : IterElem → Json
| .seq q => q.serialize
| .strs ss => .arrL (ss.map Json.str)

/-- Iterable field of an iteration after validation (`items:
list[IterableSequence] | IterableSequence`), viewed as the Python runtime
value: a non-list iterable, a bare list of strings (a single `list[str]`
iterable, which IS a Python list), or a Python list of iterables. -/
inductive IterItems where
| scalar (q : IterScalarSeq)
| strList (ss : List String)
| listOf (es : List IterElem)

/-- Python `isinstance(items, list)` on the iterable field: true for both
list forms. -/
def IterItems.isPyList : IterItems → Bool
| .scalar _ => false
| .strList _ => true
| .listOf _ => true

/-- Python `all(isinstance(item, str) for item in items)` on the iterable
field: true for every bare string list, and vacuously true for an empty
list of iterables. -/
def IterItems.allElemsStr : IterItems → Bool
| .scalar _ => false
| .strList _ => true
| .listOf es => es.isEmpty

/-- Serialization of the iterable field. -/
def IterItems.serialize : IterItems → Json
| .scalar q => q.serialize
| .strList ss => .arrL (ss.map Json.str)
| .listOf es => .arrL (es.map IterElem.serialize)

/-- Deserialization of a non-list iterable: a record with `start`, `stop`
and `num` is a linear space, with `start`, `stop` and `step` a range, and a
numeric list an array. -/
def parseIterScalarSeq (j : Json) : Option IterScalarSeq :=
  match j with
  | .obj _ =>
    if keysAllowed j ["start", "stop", "num"] then do
      let s ← match j.get "start" with | some (.num n) => some n | _ => none
      let e ← match j.get "stop" with | some (.num n) => some n | _ => none
      let num ← match j.get "num" with | some (.num n) => some n | _ => none
      some (.linspace s e num)
    else if keysAllowed j ["start", "stop", "step"] then do
      let s ← match j.get "start" with | some (.num n) => some n | _ => none
      let e ← match j.get "stop" with | some (.num n) => some n | _ => none
      let st ← match j.get "step" with | some (.num n) => some n | _ => none
      some (.range s e st)
    else none
  | .arr xs => (parseNumList xs).map .array
  | _ => none

/-- Deserialization of a list-form iterable element. -/
def parseIterElem (j : Json) : Option IterElem :=
  match j with
  | .arr xs =>
    match parseStrList xs with
    | some ss => some (.strs ss)
    | none => (parseIterScalarSeq j).map .seq
  | _ => (parseIterScalarSeq j).map .seq

/-- Element-list helper for the iterable field. -/
def parseIterElems : JsonList → Option (List IterElem)
| .nil => some []
| .cons x rest => do
    let e ← parseIterElem x
    let es ← parseIterElems rest
    some (e :: es)

/-- Deserialization of the iterable field: a JSON list is first tried as a
list of iterables, then as a bare string list; anything else must be a
non-list iterable. -/
def parseIterItems (j : Json) : Option IterItems :=
  match j with
  | .arr xs =>
    match parseIterElems xs with
    | some es => some (.listOf es)
    | none =>
      match parseStrList xs with
      | some ss => some (.strList ss)
      | none => (parseNumList xs).map (fun ns => .scalar (.array ns))
  | _ => (parseIterScalarSeq j).map .scalar

mutual
/-- Item of an implicitly-timed operation sequence (`OpSequenceItem`): a
leaf operation, a nested sequence, or a sequence-flavored control-flow
node. -/
inductive SeqItem where
| op (o : Op)
| subSeq (items : SeqItemList)
| repetition (count : Int) (body : SeqItemList)
| iteration (var : IterVars) (items : IterItems) (body : SeqItemList)
| conditional (v : String) (body : SeqItemList)
/-- Item list of an operation sequence (`OpSequence.items`), kept inside the
mutual family so that recursion over the tree is structural. -/
inductive SeqItemList where
| nil
| cons (head : SeqItem) (tail : SeqItemList)
end

/-- Conversion from a Lean list of sequence items. -/
def SeqItemList.ofList : List SeqItem → SeqItemList
| [] => .nil
| x :: xs => .cons x (SeqItemList.ofList xs)

mutual
/-- Serialization of a sequence item: leaf operations and control-flow nodes
as discriminated records, nested sequences as bare arrays. -/
def SeqItem.serialize : SeqItem → Json
| .op o => o.serialize
| .subSeq items => .arr items.serializeList
| .repetition c body =>
    .objL [("op_type", .str "repeat"), ("count", .num c),
      ("body", .arr body.serializeList)]
| .iteration var items body =>
    .objL [("op_type", .str "for"), ("var", var.serialize),
      ("items", items.serialize), ("body", .arr body.serializeList)]
| .conditional v body =>
    .objL [("op_type", .str "if"), ("var", .str v),
      ("body", .arr body.serializeList)]
/-- Serialization of a sequence item list (`SequenceBase` wrap serializer:
a bare array, not an `items` record). -/
def SeqItemList.serializeList : SeqItemList → JsonList
| .nil => .nil
| .cons x xs => .cons x.serialize xs.serializeList
end

mutual
/-- Schedulable payloads of a `ScheduledOperation` (`Schedulable` union in
`schedule.py`): a leaf operation, a nested schedule, or a schedule-flavored
control-flow node. -/
inductive Schedulable where
| op (o : Op)
| sched (items : SchedOpList)
| srep (count : Int) (body : SchedOpList)
| siter (var : IterVars) (items : IterItems) (body : SchedOpList)
| scond (v : String) (body : SchedOpList)
/-- Scheduled-operation wrapper (`ScheduledOperation`): an optional name,
optional timing-reference fields, and the wrapped schedulable. -/
inductive ScheduledOperation where
| mk (name : Option String) (rel_time : Option TimeValue) (ref_op : Option String)
    (ref_pt : Option RefPt) (ref_pt_new : Option RefPt) (op : Schedulable)
/-- Item list of a schedule (`Schedule.items`), kept inside the mutual
family so that recursion over the tree is structural. -/
inductive SchedOpList where
| nil
| cons (head : ScheduledOperation) (tail : SchedOpList)
end

/-- Name field of a scheduled operation. -/
def ScheduledOperation.name : ScheduledOperation → Option String
| .mk name _ _ _ _ _ => name

/-- Wrapped payload of a scheduled operation. -/
def ScheduledOperation.op : ScheduledOperation → Schedulable
| .mk _ _ _ _ _ op => op

/-- Conversion from a Lean list of scheduled operations. -/
def SchedOpList.ofList : List ScheduledOperation → SchedOpList
| [] => .nil
| x :: xs => .cons x (SchedOpList.ofList xs)

mutual
/-- Serialization of a schedulable payload. -/
def Schedulable.serialize : Schedulable → Json
| .op o => o.serialize
| .sched items => .arr items.serializeList
| .srep c body =>
    .objL [("op_type", .str "repeat"), ("count", .num c),
      ("body", .arr body.serializeList)]
| .siter var items body =>
    .objL [("op_type", .str "for"), ("var", var.serialize),
      ("items", items.serialize), ("body", .arr body.serializeList)]
| .scond v body =>
    .objL [("op_type", .str "if"), ("var", .str v),
      ("body", .arr body.serializeList)]
/-- Serialization of a scheduled operation: the optional name and timing
fields only when set, then the wrapped payload under `op`. -/
def ScheduledOperation.serialize : ScheduledOperation → Json
| .mk name rel_time ref_op ref_pt ref_pt_new op =>
    .objL (optField "name" (name.map Json.str)
      ++ optField "rel_time" (rel_time.map TimeValue.serialize)
      ++ optField "ref_op" (ref_op.map Json.str)
      ++ optField "ref_pt" (ref_pt.map (fun p => Json.str p.toStr))
      ++ optField "ref_pt_new" (ref_pt_new.map (fun p => Json.str p.toStr))
      ++ [("op", op.serialize)])
/-- Serialization of a schedule item list as a bare array. -/
def SchedOpList.serializeList : SchedOpList → JsonList
| .nil => .nil
| .cons x xs => .cons x.serialize xs.serializeList
end

/-- Arity validator of iterations (`IterationBase._validate_vars_vs_items`),
run after field validation both at construction and at deserialization.
With a list of loop variables, the iterable field must be a Python list
that is not all strings (an empty list counts as all strings, since the
Python `all` of an empty generator is true), must match the variable count,
and all its iterables must share one length.  With a single loop variable,
the iterable field must not be a non-string list. -/
def iterationValidate (var : IterVars) (items : IterItems) : Except String Unit :=
  match var with
  | .list vs =>
    match items with
    | .scalar _ => .error "Both var and items must be lists or both must be single values."
    | .strList _ => .error "Both var and items must be lists or both must be single values."
    | .listOf [] => .error "Both var and items must be lists or both must be single values."
    | .listOf (e :: rest) =>
      if vs.length ≠ rest.length + 1 then
        .error "Both var and items must have the same length."
      else if rest.all (fun x => x.len = e.len) then .ok ()
      else .error "All items must have the same length."
  | .single _ =>
    match items with
    | .listOf (_ :: _) => .error "Both var and items must be lists or both must be single values."
    | _ => .ok ()

/-- Loop-variable field deserialization: a bare identifier string or a list
of identifier strings. -/
def parseIterVars : Json → Option IterVars
| .str s => if isPyIdentifier s then some (.single s) else none
| .arr xs => do
    let ss ← parseStrList xs
    if ss.all isPyIdentifier then some (.list ss) else none
| _ => none

mutual
/-- Deserialization of a sequence item: arrays are nested sequences,
records are dispatched on `op_type` with `repeat`, `for` and `if` mapping
to the control-flow nodes (re-running their construction validators) and
every other discriminator to a leaf operation.  The fuel argument is a
termination measure only; any value at least the nesting depth of the input
gives the same result. -/
def parseSeqItemF : Nat → Json → Option SeqItem
| 0, _ => none
| fuel+1, .arr xs => (parseSeqListF fuel xs).map .subSeq
| fuel+1, j =>
  match j.get "op_type" with
  | some (.str "repeat") =>
    if keysAllowed j ["op_type", "count", "body"] then do
      let c ← match j.get "count" with | some (.num n) => some n | _ => none
      if 0 ≤ c then do
        let bodyv ← j.get "body"
        let body ← parseSeqBodyF fuel bodyv
        some (.repetition c body)
      else none
    else none
  | some (.str "for") =>
    if keysAllowed j ["op_type", "var", "items", "body"] then do
      let v ← (j.get "var").bind parseIterVars
      let its ← (j.get "items").bind parseIterItems
      match iterationValidate v its with
      | .error _ => none
      | .ok _ => do
        let bodyv ← j.get "body"
        let body ← parseSeqBodyF fuel bodyv
        some (.iteration v its body)
    else none
  | some (.str "if") =>
    if keysAllowed j ["op_type", "var", "body"] then do
      let v ← (j.get "var").bind parseRefName
      let bodyv ← j.get "body"
      let body ← parseSeqBodyF fuel bodyv
      some (.conditional v body)
    else none
  | _ => (parseOp j).map .op
/-- Deserialization of an operation-sequence body: `SequenceBase` accepts a
bare array or a record carrying an `items` field. -/
def parseSeqBodyF : Nat → Json → Option SeqItemList
| 0, _ => none
| fuel+1, .arr xs => parseSeqListF fuel xs
| fuel+1, .obj (.cons "items" (.arr xs) .nil) => parseSeqListF fuel xs
| _+1, _ => none
/-- Deserialization of a list of sequence items. -/
def parseSeqListF : Nat → JsonList → Option SeqItemList
| 0, _ => none
| _+1, .nil => some .nil
| fuel+1, .cons x rest => do
    let i ← parseSeqItemF fuel x
    let is ← parseSeqListF fuel rest
    some (.cons i is)
end

mutual
/-- Deserialization of a schedulable payload: arrays are nested schedules,
records are dispatched on `op_type` with `repeat`, `for` and `if` mapping
to the schedule-flavored control-flow nodes. -/
def parseSchedulableF : Nat → Json → Option Schedulable
| 0, _ => none
| fuel+1, .arr xs => (parseSchedListF fuel xs).map .sched
| fuel+1, j =>
  match j.get "op_type" with
  | some (.str "repeat") =>
    if keysAllowed j ["op_type", "count", "body"] then do
      let c ← match j.get "count" with | some (.num n) => some n | _ => none
      if 0 ≤ c then do
        let bodyv ← j.get "body"
        let body ← parseSchedBodyF fuel bodyv
        some (.srep c body)
      else none
    else none
  | some (.str "for") =>
    if keysAllowed j ["op_type", "var", "items", "body"] then do
      let v ← (j.get "var").bind parseIterVars
      let its ← (j.get "items").bind parseIterItems
      match iterationValidate v its with
      | .error _ => none
      | .ok _ => do
        let bodyv ← j.get "body"
        let body ← parseSchedBodyF fuel bodyv
        some (.siter v its body)
    else none
  | some (.str "if") =>
    if keysAllowed j ["op_type", "var", "body"] then do
      let v ← (j.get "var").bind parseRefName
      let bodyv ← j.get "body"
      let body ← parseSchedBodyF fuel bodyv
      some (.scond v body)
    else none
  | _ => (parseOp j).map .op
/-- Deserialization of a schedule body: a bare array or a record carrying an
`items` field. -/
def parseSchedBodyF : Nat → Json → Option SchedOpList
| 0, _ => none
| fuel+1, .arr xs => parseSchedListF fuel xs
| fuel+1, .obj (.cons "items" (.arr xs) .nil) => parseSchedListF fuel xs
| _+1, _ => none
/-- Deserialization of a scheduled-operation wrapper: optional name and
timing fields, and the required wrapped payload under `op`. -/
def parseScheduledOperationF : Nat → Json → Option ScheduledOperation
| 0, _ => none
| fuel+1, j =>
  if keysAllowed j ["name", "rel_time", "ref_op", "ref_pt", "ref_pt_new", "op"] then do
    let name ← match j.get "name" with
      | none => some none
      | some (.str s) => some (some s)
      | some _ => none
    let rel_time ← parseOptField j "rel_time" parseTimeValue
    let ref_op ← match j.get "ref_op" with
      | none => some none
      | some (.str s) => some (some s)
      | some _ => none
    let ref_pt ← parseOptField j "ref_pt" parseRefPt
    let ref_pt_new ← parseOptField j "ref_pt_new" parseRefPt
    let opv ← j.get "op"
    let op ← parseSchedulableF fuel opv
    some (.mk name rel_time ref_op ref_pt ref_pt_new op)
  else none
/-- Deserialization of a list of scheduled operations. -/
def parseSchedListF : Nat → JsonList → Option SchedOpList
| 0, _ => none
| _+1, .nil => some .nil
| fuel+1, .cons x rest => do
    let i ← parseScheduledOperationF fuel x
    let is ← parseSchedListF fuel rest
    some (.cons i is)
end

/-- Deserialization entry point for a sequence item, with the fuel set from
the size of the input. -/
def deserializeSeqItem (j : Json) : Option SeqItem :=
  parseSeqItemF j.size j

/-- Deserialization entry point for an operation sequence. -/
def deserializeOpSequence (j : Json) : Option SeqItemList :=
  parseSeqBodyF j.size j

/-- Deserialization entry point for a schedulable payload. -/
def deserializeSchedulable (j : Json) : Option Schedulable :=
  parseSchedulableF j.size j

/-- Deserialization entry point for a scheduled operation. -/
def deserializeScheduledOperation (j : Json) : Option ScheduledOperation :=
  parseScheduledOperationF j.size j

/-- Deserialization entry point for a schedule. -/
def deserializeSchedule (j : Json) : Option SchedOpList :=
  parseSchedBodyF j.size j

/-- Deserialization entry point for a leaf operation. -/
def deserializeOp (j : Json) : Option Op :=
  parseOp j

/-- Serialization entry point for an operation sequence. -/
def serializeOpSequence (items : SeqItemList) : Json :=
  .arr items.serializeList

/-- Serialization entry point for a schedule. -/
def serializeSchedule (items : SchedOpList) : Json :=
  .arr items.serializeList

/-- Construction of a `Duration` (`Duration._validate_nonnegative_raw_value`
in `basic_types.py`): the wrapped raw value must be nonnegative. -/
def mkDuration (t : TimeValue) : Except String TimeValue :=
  if t.raw < 0 then .error "expected nonnegative duration value"
  else .ok t

/-- Construction of a `Magnitude`: the wrapped raw value must be
nonnegative. -/
def mkMagnitude (v : VoltValue) : Except String VoltValue :=
  if v.raw < 0 then .error "expected nonnegative magnitude value"
  else .ok v

/-- Construction of a channel or variable reference: the name must be a
valid identifier (`IdentifierStr`). -/
def mkRefName (s : String) : Except String String :=
  if isPyIdentifier s then .ok s
  else .error "not a valid identifier"

/-- List version of the reference-name check. -/
def mkRefNames (ss : List String) : Except String (List String) :=
  if ss.all isPyIdentifier then .ok ss
  else .error "not a valid identifier"

/-- Optional-duration helper for construction: a present duration must be
nonnegative. -/
def mkOptDuration : Option TimeValue → Except String (Option TimeValue)
| none => .ok none
| some t => (mkDuration t).map some

/-- Optional duration-or-variable helper for construction: a member of a
`Duration | VariableRef` union validates the duration side only. -/
def mkOptDurOrVar : Option (OrVar TimeValue) → Except String (Option (OrVar TimeValue))
| none => .ok none
| some (.var v) => (mkRefName v).map (fun n => some (.var n))
| some (.val t) => (mkDuration t).map (fun d => some (.val d))

/-- Construction of a `Wait` node: channel references must be identifiers
and the duration nonnegative; validation runs synchronously at
construction. -/
def mkWait (channels : List String) (duration : TimeValue) : Except String Op := do
  let chs ← mkRefNames channels
  let d ← mkDuration duration
  .ok (.wait chs d)

/-- Construction of a `Record` node: identifier and nonnegative-duration
validation at construction, including the optional time of flight. -/
def mkRecord (channel var : String) (duration : TimeValue)
    (integration : IntegrationType) (time_of_flight : Option TimeValue) :
    Except String Op := do
  let ch ← mkRefName channel
  let v ← mkRefName var
  let d ← mkDuration duration
  let tof ← mkOptDuration time_of_flight
  .ok (.record ch v d integration tof)

/-- Construction of a `Trace` node: identifier and nonnegative-duration
validation at construction. -/
def mkTrace (channel var : String) (duration : TimeValue)
    (integration : Option IntegrationType) (time_of_flight : Option TimeValue) :
    Except String Op := do
  let ch ← mkRefName channel
  let v ← mkRefName var
  let d ← mkDuration duration
  let tof ← mkOptDuration time_of_flight
  .ok (.trace ch v d integration tof)

/-- Construction of a `CompensateDC` node: the nullable duration and the
optional ramp durations must be nonnegative when given as durations, and
the optional amplitude bound is a nonnegative `Magnitude`. -/
def mkCompensateDC (channel : String) (duration : Option (OrVar TimeValue))
    (max_amp : Option VoltValue) (rise_time fall_time : Option (OrVar TimeValue)) :
    Except String Op := do
  let ch ← mkRefName channel
  let d ← mkOptDurOrVar duration
  let ma ← match max_amp with
    | none => .ok none
    | some v => (mkMagnitude v).map some
  let rt ← mkOptDurOrVar rise_time
  let ft ← mkOptDurOrVar fall_time
  .ok (.dc_comp ch d ma rt ft)

/-- Construction of a sequence-flavored `Repetition`
(`RepetitionBase.count` carries `Field(ge=0)`): a negative count is
rejected at construction. -/
def mkRepetition (count : Int) (body : SeqItemList) : Except String SeqItem :=
  if count < 0 then .error "count must be greater than or equal to 0"
  else .ok (.repetition count body)

/-- Construction of a schedule-flavored `SchedRepetition` with the same
nonnegative-count constraint. -/
def mkSchedRepetition (count : Int) (body : SchedOpList) : Except String Schedulable :=
  if count < 0 then .error "count must be greater than or equal to 0"
  else .ok (.srep count body)

/-- Loop-variable field validation: every referenced name must be an
identifier. -/
def mkIterVars : IterVars → Except String IterVars
| .single v => (mkRefName v).map .single
| .list vs => (mkRefNames vs).map .list

/-- Construction of a sequence-flavored `Iteration`: field validation of the
loop variables followed by the arity validator
(`IterationBase._validate_vars_vs_items`). -/
def mkIteration (var : IterVars) (items : IterItems) (body : SeqItemList) :
    Except String SeqItem := do
  let v ← mkIterVars var
  match iterationValidate v items with
  | .error e => .error e
  | .ok _ => .ok (.iteration v items body)

/-- Construction of a schedule-flavored `SchedIteration` with the same
validation. -/
def mkSchedIteration (var : IterVars) (items : IterItems) (body : SchedOpList) :
    Except String Schedulable := do
  let v ← mkIterVars var
  match iterationValidate v items with
  | .error e => .error e
  | .ok _ => .ok (.siter v items body)

/-- Construction of a `VariableDecl` node: the declared name must be an
identifier. -/
def mkVariableDecl (name : String) (dtype : VarDType) (shape : Option (List Int))
    (unit : Option String) : Except String Op := do
  let n ← mkRefName name
  .ok (.var_decl n dtype shape unit)

/-- Open scopes of the builder context stack (`_context_stack` in
`builder/core.py` holds `OpSequence | Schedule | Repetition | Iteration |
Conditional | SchedRepetition | SchedIteration | SchedConditional`
objects).  Each frame carries a fresh identity `fid` standing for the Python
object id, and the current contents of its (or its body) item list. -/
inductive Frame where
| opSequence (fid : Nat) (items : List SeqItem)
| schedule (fid : Nat) (items : List ScheduledOperation)
| repetition (fid : Nat) (count : Int) (body : List SeqItem)
| iteration (fid : Nat) (var : IterVars) (iterItems : IterItems) (body : List SeqItem)
| conditional (fid : Nat) (v : String) (body : List SeqItem)
| schedRepetition (fid : Nat) (count : Int) (body : List ScheduledOperation)
| schedIteration (fid : Nat) (var : IterVars) (iterItems : IterItems)
    (body : List ScheduledOperation)
| schedConditional (fid : Nat) (v : String) (body : List ScheduledOperation)

/-- Python class name of a frame, as interpolated into error messages. -/
def Frame.pyName : Frame → String
| .opSequence .. => "OpSequence"
| .schedule .. => "Schedule"
| .repetition .. => "Repetition"
| .iteration .. => "Iteration"
| .conditional .. => "Conditional"
| .schedRepetition .. => "SchedRepetition"
| .schedIteration .. => "SchedIteration"
| .schedConditional .. => "SchedConditional"

/-- Identity of a frame (the Python object id used as the key of the
unconsumed-block registry). -/
def Frame.fid : Frame → Nat
| .opSequence fid _ => fid
| .schedule fid _ => fid
| .repetition fid _ _ => fid
| .iteration fid _ _ _ => fid
| .conditional fid _ _ => fid
| .schedRepetition fid _ _ => fid
| .schedIteration fid _ _ _ => fid
| .schedConditional fid _ _ => fid

/-- Python `isinstance(context, Schedule)`: true exactly for a plain
schedule frame (the schedule-flavored control-flow bodies are not
`Schedule` subclasses). -/
def Frame.isSchedule : Frame → Bool
| .schedule .. => true
| _ => false

/-- Python `isinstance(context, Schedule | SchedRepetition | SchedIteration
| SchedConditional)`. -/
def Frame.isScheduleLike : Frame → Bool
| .schedule .. => true
| .schedRepetition .. => true
| .schedIteration .. => true
| .schedConditional .. => true
| _ => false

/-- Python `isinstance(context, OpSequence | Repetition | Iteration |
Conditional)`. -/
def Frame.isSequenceLike : Frame → Bool
| .opSequence .. => true
| .repetition .. => true
| .iteration .. => true
| .conditional .. => true
| _ => false

/-- Length of the sequence-flavored item list a frame appends to (the
`items` list of a sequence, the `body.items` list of a control-flow
node). -/
def Frame.seqLen : Frame → Nat
| .opSequence _ items => items.length
| .repetition _ _ body => body.length
| .iteration _ _ _ body => body.length
| .conditional _ _ body => body.length
| _ => 0

/-- Length of the schedule-flavored item list a frame appends to. -/
def Frame.schedLen : Frame → Nat
| .schedule _ items => items.length
| .schedRepetition _ _ body => body.length
| .schedIteration _ _ _ body => body.length
| .schedConditional _ _ body => body.length
| _ => 0

/-- In-place update of one entry of the sequence-flavored item list of a
frame, modelling the mutation of an attached container that is still
aliased by an open scope. -/
def Frame.setSeqItemAt (f : Frame) (idx : Nat) (item : SeqItem) : Frame :=
  match f with
  | .opSequence fid items => .opSequence fid (items.set idx item)
  | .repetition fid c body => .repetition fid c (body.set idx item)
  | .iteration fid v it body => .iteration fid v it (body.set idx item)
  | .conditional fid v body => .conditional fid v (body.set idx item)
  | other => other

/-- In-place update of one entry of the schedule-flavored item list of a
frame. -/
def Frame.setSchedItemAt (f : Frame) (idx : Nat) (item : ScheduledOperation) : Frame :=
  match f with
  | .schedule fid items => .schedule fid (items.set idx item)
  | .schedRepetition fid c body => .schedRepetition fid c (body.set idx item)
  | .schedIteration fid v it body => .schedIteration fid v it (body.set idx item)
  | .schedConditional fid v body => .schedConditional fid v (body.set idx item)
  | other => other

/-- Pending schedule block (`ScheduleBlock`): the captured call-site
diagnostics and the captured function body, modelled as the list of
schedulable payloads the body emits when executed.  The `blockId` stands
for the Python object identity used by the removal logic. -/
structure ScheduleBlock where
  blockId : Nat
  creationInfo : String
  body : List Schedulable

/-- Module-level builder state: the scope stack (head is the top of the
stack, the last element of the Python list), the monotone name counter
`_op_counter`, the per-context unconsumed-block registry
`_unconsumed_blocks` (keyed by frame identity, in insertion order), and an
allocator for fresh object identities. -/
structure BuilderState where
  stack : List Frame
  opCounter : Nat
  unconsumed : List (Nat × List ScheduleBlock)
  nextId : Nat

/-- Initial builder state: empty stack, counter zero, no registered
blocks. -/
def BuilderState.initial : BuilderState :=
  { stack := [], opCounter := 0, unconsumed := [], nextId := 0 }

/-- Errors raised by the builder (Python `RuntimeError` / `ValueError` /
pydantic `ValidationError`), carrying the data interpolated into the
corresponding message. -/
inductive BuilderErr where
| noActiveContext
| cannotAddSequenceOp (ctx : String)
| cannotAddScheduledOp (ctx : String)
| multiChannelWaitInSchedule (n : Nat)
| barrierInSchedule
| subSequenceOutsideContext
| subSequenceInSchedule
| subScheduleOutsideSchedule
| addBlockOutsideSchedule
| unconsumedScheduleBlocks (scope : String) (count : Nat) (creationInfos : List String)
| validationError (msg : String)

/-- Result of a builder call: the state as left by the call (mutations made
before a raise persist, as the Python state is module-level), together with
the returned value or the raised error. -/
abbrev BResult (α : Type) := BuilderState × Except BuilderErr α

/-- Name generation (`_generate_op_name`): increments the module counter
and returns `op_<counter>`. -/
def generate_op_name (s : BuilderState) : BuilderState × String :=
  let c := s.opCounter + 1
  ({ s with opCounter := c }, "op_" ++ toString c)

/-- Lookup in the unconsumed-block registry; a missing key reads as the
empty list (`defaultdict(list)`). -/
def lookupBlocks : List (Nat × List ScheduleBlock) → Nat → List ScheduleBlock
| [], _ => []
| (k, bs) :: rest, key => if k = key then bs else lookupBlocks rest key

/-- Append a block to the registry entry of a context, creating the entry
at the end when missing (`defaultdict` insertion order). -/
def appendBlock : List (Nat × List ScheduleBlock) → Nat → ScheduleBlock →
    List (Nat × List ScheduleBlock)
| [], key, b => [(key, [b])]
| (k, bs) :: rest, key, b =>
  if k = key then (k, bs ++ [b]) :: rest
  else (k, bs) :: appendBlock rest key b

/-- Delete the registry entry of a context (`del _unconsumed_blocks[k]`);
missing keys are left untouched. -/
def removeBlocksKey : List (Nat × List ScheduleBlock) → Nat →
    List (Nat × List ScheduleBlock)
| [], _ => []
| (k, bs) :: rest, key =>
  if k = key then rest
  else (k, bs) :: removeBlocksKey rest key

/-- Remove the first block with the given identity from a block list
(Python `list.remove`). -/
def removeFirstById : List ScheduleBlock → Nat → List ScheduleBlock
| [], _ => []
| b :: bs, bid => if b.blockId = bid then bs else b :: removeFirstById bs bid

/-- Remove a block by identity from the first registry entry that contains
it (`ScheduleBlock._execute` walks the registry values in insertion order
and removes the first occurrence from the first list containing the
block). -/
def removeBlockById : List (Nat × List ScheduleBlock) → Nat →
    List (Nat × List ScheduleBlock)
| [], _ => []
| (k, bs) :: rest, bid =>
  if bs.any (fun b => b.blockId = bid) then
    (k, removeFirstById bs bid) :: rest
  else (k, bs) :: removeBlockById rest bid

/-- Forward-reference token (`OperationToken` in `builder/utils.py`). -/
structure OperationToken where
  name : String
  operation : ScheduledOperation

/-- Reference argument accepted by `ref_op`: a name string or a forward
token (`str | OperationToken`). -/
inductive RefOpParam where
| opName (s : String)
| token (t : OperationToken)

/-- Relative-time argument accepted by `rel_time`: the literal zero, an
already-built `RelTime` quantity, or a unit-keyed mapping (which does not
compare equal to the integer zero even when its value is zero). -/
inductive RelTimeParam where
| zero
| time (t : TimeValue)
| timeDict (t : TimeValue)

/-- Timing parameters of the schedule-side builder calls (`ScheduleParams`
in `builder/utils.py`); an absent key is modelled by `none`. -/
structure ScheduleParams where
  name : Option String
  rel_time : Option RelTimeParam
  ref_op : Option RefOpParam
  ref_pt : Option RefPt
  ref_pt_new : Option RefPt

/-- Empty parameter record: no timing parameter given. -/
def ScheduleParams.empty : ScheduleParams :=
  ⟨none, none, none, none, none⟩

/-- Resolved timing parameters after `resolve_schedule_params`: tokens are
replaced by their name, and a `rel_time` that compares equal to the integer
zero (the literal zero, or a quantity with raw value zero) is deleted. -/
structure ResolvedParams where
  name : Option String
  rel_time : Option TimeValue
  ref_op : Option String
  ref_pt : Option RefPt
  ref_pt_new : Option RefPt

/-- Translation of `resolve_schedule_params` in `builder/utils.py`. -/
def resolve_schedule_params (p : ScheduleParams) : ResolvedParams :=
  { name := p.name
    rel_time := match p.rel_time with
      | none => none
      | some .zero => none
      | some (.time t) => if t.raw = 0 then none else some t
      | some (.timeDict t) => some t
    ref_op := p.ref_op.map (fun r => match r with
      | .opName s => s
      | .token t => t.name)
    ref_pt := p.ref_pt
    ref_pt_new := p.ref_pt_new }

/-- Translation of `_add_to_sequence`: append to the item list of a plain
sequence top, to the body of a sequence-flavored control-flow top, and
raise otherwise. -/
def add_to_sequence (item : SeqItem) (s : BuilderState) : BResult Unit :=
  match s.stack with
  | [] => (s, .error .noActiveContext)
  | top :: rest =>
    match top with
    | .repetition fid c body =>
        ({ s with stack := .repetition fid c (body ++ [item]) :: rest }, .ok ())
    | .iteration fid v it body =>
        ({ s with stack := .iteration fid v it (body ++ [item]) :: rest }, .ok ())
    | .conditional fid v body =>
        ({ s with stack := .conditional fid v (body ++ [item]) :: rest }, .ok ())
    | .opSequence fid items =>
        ({ s with stack := .opSequence fid (items ++ [item]) :: rest }, .ok ())
    | other => (s, .error (.cannotAddSequenceOp other.pyName))

/-- Translation of `_add_to_schedule`: resolve the timing parameters,
generate a name when none was given (this increments the counter before
the context kind is inspected, as in the source), wrap the payload as a
`ScheduledOperation`, append it to the schedule-flavored top, and return a
token; a non-schedule top raises after the name generation. -/
def add_to_schedule (op : Schedulable) (p : ScheduleParams) (s : BuilderState) :
    BResult OperationToken :=
  match s.stack with
  | [] => (s, .error .noActiveContext)
  | top :: rest =>
    let r := resolve_schedule_params p
    let (s1, nm) := match r.name with
      | some n => (s, n)
      | none => generate_op_name s
    let sched_op : ScheduledOperation :=
      .mk (some nm) r.rel_time r.ref_op r.ref_pt r.ref_pt_new op
    match top with
    | .schedRepetition fid c body =>
        ({ s1 with stack := .schedRepetition fid c (body ++ [sched_op]) :: rest },
          .ok ⟨nm, sched_op⟩)
    | .schedIteration fid v it body =>
        ({ s1 with stack := .schedIteration fid v it (body ++ [sched_op]) :: rest },
          .ok ⟨nm, sched_op⟩)
    | .schedConditional fid v body =>
        ({ s1 with stack := .schedConditional fid v (body ++ [sched_op]) :: rest },
          .ok ⟨nm, sched_op⟩)
    | .schedule fid items =>
        ({ s1 with stack := .schedule fid (items ++ [sched_op]) :: rest },
          .ok ⟨nm, sched_op⟩)
    | other => (s1, .error (.cannotAddScheduledOp other.pyName))

/-- Variable-side validation of a quantity-or-variable field: the reference
name must be an identifier, the quantity side is reused as given. -/
def mkOrVar (q : OrVar Q) : Except String (OrVar Q) :=
  match q with
  | .var v => (mkRefName v).map .var
  | .val x => .ok (.val x)

/-- Construction of a `Play` node: the channel, an optional condition
variable and a pulse-name reference are validated as identifiers. -/
def mkPlay (channel : String) (pulse : PulseOrRef) (scale_amp : Option ScaleAmp)
    (cond : Option String) : Except String Op := do
  let ch ← mkRefName channel
  let pl ← match pulse with
    | .ref n => (mkRefName n).map PulseOrRef.ref
    | .pulse pp => .ok (.pulse pp)
  let cnd ← match cond with
    | none => .ok none
    | some c => (mkRefName c).map some
  .ok (.play ch pl scale_amp cnd)

/-- Construction of a `Barrier` node. -/
def mkBarrier (channels : List String) : Except String Op :=
  (mkRefNames channels).map .barrier

/-- Construction of a `SetFrequency` node. -/
def mkSetFrequency (channel : String) (frequency : OrVar FreqValue) :
    Except String Op := do
  let ch ← mkRefName channel
  let f ← mkOrVar frequency
  .ok (.set_frequency ch f)

/-- Construction of a `ShiftFrequency` node. -/
def mkShiftFrequency (channel : String) (frequency : OrVar FreqValue) :
    Except String Op := do
  let ch ← mkRefName channel
  let f ← mkOrVar frequency
  .ok (.shift_frequency ch f)

/-- Construction of a `SetPhase` node. -/
def mkSetPhase (channel : String) (phase : OrVar AngleValue) : Except String Op := do
  let ch ← mkRefName channel
  let ph ← mkOrVar phase
  .ok (.set_phase ch ph)

/-- Construction of a `ShiftPhase` node. -/
def mkShiftPhase (channel : String) (phase : OrVar AngleValue) : Except String Op := do
  let ch ← mkRefName channel
  let ph ← mkOrVar phase
  .ok (.shift_phase ch ph)

/-- Construction of a `Discriminate` node. -/
def mkDiscriminate (target source : String) (threshold : VoltValue)
    (rotation : AngleValue) (compare : ComparisonMode) (project : ProjectionMode) :
    Except String Op := do
  let tgt ← mkRefName target
  let src ← mkRefName source
  .ok (.discriminate tgt src threshold rotation compare project)

/-- Construction of a `Store` node. -/
def mkStore (key : String) (source : String) (mode : StoreMode) : Except String Op := do
  let src ← mkRefName source
  .ok (.store key src mode)

/-- Emission helper shared by the leaf builder functions that dispatch on
the full schedule-like set: under a schedule-like top the operation is
wrapped and appended by `add_to_schedule` and the token returned, otherwise
it is appended by `add_to_sequence` and nothing is returned. -/
def emitScheduleLike (op : Op) (p : ScheduleParams) (s : BuilderState) :
    BResult (Option OperationToken) :=
  match s.stack with
  | [] => (s, .error .noActiveContext)
  | top :: _ =>
    if top.isScheduleLike then
      let (s1, r) := add_to_schedule (.op op) p s
      (s1, r.map some)
    else
      let (s1, r) := add_to_sequence (.op op) s
      (s1, r.map (fun _ => none))

/-- Emission helper shared by the leaf builder functions whose dispatch
checks `isinstance(context, Schedule)` only: a plain schedule top takes the
schedule path, every other top (including the schedule-flavored
control-flow bodies) takes the sequence path. -/
def emitScheduleOnly (op : Op) (p : ScheduleParams) (s : BuilderState) :
    BResult (Option OperationToken) :=
  match s.stack with
  | [] => (s, .error .noActiveContext)
  | top :: _ =>
    if top.isSchedule then
      let (s1, r) := add_to_schedule (.op op) p s
      (s1, r.map some)
    else
      let (s1, r) := add_to_sequence (.op op) s
      (s1, r.map (fun _ => none))

/-- Translation of the builder function `play`: builds the operation, then
dispatches on `Schedule | SchedRepetition | SchedIteration |
SchedConditional`. -/
def play (channel : String) (pulse : PulseOrRef) (scale_amp : Option ScaleAmp)
    (cond : Option String) (p : ScheduleParams) (s : BuilderState) :
    BResult (Option OperationToken) :=
  match mkPlay channel pulse scale_amp cond with
  | .error e => (s, .error (.validationError e))
  | .ok op => emitScheduleLike op p s

/-- Translation of the builder function `wait`: reads the context, rejects
a multi-channel wait under a schedule-like top, then builds the operation
(validating the channels and the nonnegative duration) and dispatches on
the full schedule-like set. -/
def wait (channels : List String) (duration : TimeValue) (p : ScheduleParams)
    (s : BuilderState) : BResult (Option OperationToken) :=
  match s.stack with
  | [] => (s, .error .noActiveContext)
  | top :: _ =>
    if top.isScheduleLike ∧ channels.length > 1 then
      (s, .error (.multiChannelWaitInSchedule channels.length))
    else
      match mkWait channels duration with
      | .error e => (s, .error (.validationError e))
      | .ok op => emitScheduleLike op p s

/-- Translation of the builder function `barrier`: builds the operation,
raises under a plain schedule top, and otherwise routes through the
sequence path. -/
def barrier (channels : List String) (s : BuilderState) : BResult Unit :=
  match mkBarrier channels with
  | .error e => (s, .error (.validationError e))
  | .ok op =>
    match s.stack with
    | [] => (s, .error .noActiveContext)
    | top :: _ =>
      if top.isSchedule then (s, .error .barrierInSchedule)
      else add_to_sequence (.op op) s

/-- Translation of the builder function `set_frequency`: builds the
operation, then dispatches on `isinstance(context, Schedule)` only. -/
def set_frequency (channel : String) (frequency : OrVar FreqValue)
    (p : ScheduleParams) (s : BuilderState) : BResult (Option OperationToken) :=
  match mkSetFrequency channel frequency with
  | .error e => (s, .error (.validationError e))
  | .ok op => emitScheduleOnly op p s

/-- Translation of the builder function `shift_frequency` (dispatch on
`Schedule` only). -/
def shift_frequency (channel : String) (frequency : OrVar FreqValue)
    (p : ScheduleParams) (s : BuilderState) : BResult (Option OperationToken) :=
  match mkShiftFrequency channel frequency with
  | .error e => (s, .error (.validationError e))
  | .ok op => emitScheduleOnly op p s

/-- Translation of the builder function `set_phase` (dispatch on `Schedule`
only). -/
def set_phase (channel : String) (phase : OrVar AngleValue) (p : ScheduleParams)
    (s : BuilderState) : BResult (Option OperationToken) :=
  match mkSetPhase channel phase with
  | .error e => (s, .error (.validationError e))
  | .ok op => emitScheduleOnly op p s

/-- Translation of the builder function `shift_phase` (dispatch on
`Schedule` only). -/
def shift_phase (channel : String) (phase : OrVar AngleValue) (p : ScheduleParams)
    (s : BuilderState) : BResult (Option OperationToken) :=
  match mkShiftPhase channel phase with
  | .error e => (s, .error (.validationError e))
  | .ok op => emitScheduleOnly op p s

/-- Translation of the builder function `record` (dispatch on `Schedule`
only). -/
def record (channel : String) (var : String) (duration : TimeValue)
    (integration : IntegrationType) (p : ScheduleParams) (s : BuilderState) :
    BResult (Option OperationToken) :=
  match mkRecord channel var duration integration none with
  | .error e => (s, .error (.validationError e))
  | .ok op => emitScheduleOnly op p s

/-- Translation of the builder function `discriminate` (dispatch on
`Schedule` only). -/
def discriminate (target source : String) (threshold : VoltValue)
    (rotation : AngleValue) (compare : ComparisonMode) (project : ProjectionMode)
    (p : ScheduleParams) (s : BuilderState) : BResult (Option OperationToken) :=
  match mkDiscriminate target source threshold rotation compare project with
  | .error e => (s, .error (.validationError e))
  | .ok op => emitScheduleOnly op p s

/-- Translation of the builder function `store` (dispatch on `Schedule`
only). -/
def store (key : String) (source : String) (mode : StoreMode) (p : ScheduleParams)
    (s : BuilderState) : BResult (Option OperationToken) :=
  match mkStore key source mode with
  | .error e => (s, .error (.validationError e))
  | .ok op => emitScheduleOnly op p s

/-- Translation of the builder function `var_decl`: builds the declaration
and always routes it through `_add_to_sequence`; there is no schedule path
and no token is ever returned. -/
def var_decl (name : String) (dtype : VarDType) (shape : Option (List Int))
    (unit : Option String) (s : BuilderState) : BResult Unit :=
  match mkVariableDecl name dtype shape unit with
  | .error e => (s, .error (.validationError e))
  | .ok op => add_to_sequence (.op op) s

/-- Replace the wrapped payload of a scheduled operation, keeping its name
and timing fields. -/
def ScheduledOperation.withOp : ScheduledOperation → Schedulable → ScheduledOperation
| .mk n rt ro rp rpn _, op => .mk n rt ro rp rpn op

/-- Point update of a list entry. -/
def listModify : List α → Nat → (α → α) → List α
| [], _, _ => []
| x :: xs, 0, f => f x :: xs
| x :: xs, n+1, f => x :: listModify xs n f

/-- Point update of one wrapper of the schedule-flavored item list of a
frame, keeping the wrapper fields. -/
def Frame.modifySchedOpAt (f : Frame) (idx : Nat) (newOp : Schedulable) : Frame :=
  match f with
  | .schedule fid items => .schedule fid (listModify items idx (·.withOp newOp))
  | .schedRepetition fid c body =>
      .schedRepetition fid c (listModify body idx (·.withOp newOp))
  | .schedIteration fid v it body =>
      .schedIteration fid v it (listModify body idx (·.withOp newOp))
  | .schedConditional fid v body =>
      .schedConditional fid v (listModify body idx (·.withOp newOp))
  | other => other

/-- Sequence-flavored contents of a frame. -/
def Frame.seqContents : Frame → Option (List SeqItem)
| .opSequence _ items => some items
| .repetition _ _ body => some body
| .iteration _ _ _ body => some body
| .conditional _ _ body => some body
| _ => none

/-- Schedule-flavored contents of a frame. -/
def Frame.schedContents : Frame → Option (List ScheduledOperation)
| .schedule _ items => some items
| .schedRepetition _ _ body => some body
| .schedIteration _ _ _ body => some body
| .schedConditional _ _ body => some body
| _ => none

/-- Scope close of a nested sequence-flavored scope: pop the top frame and,
since the attached container object was mutated in place while it was
open, update the parent entry where it was attached with the closed
contents. -/
def closeSeqScope (fid idx : Nat) (rebuild : List SeqItem → SeqItem)
    (s : BuilderState) : BuilderState :=
  match s.stack with
  | top :: parent :: rest =>
    if top.fid = fid then
      match top.seqContents with
      | some items => { s with stack := parent.setSeqItemAt idx (rebuild items) :: rest }
      | none => { s with stack := parent :: rest }
    else { s with stack := parent :: rest }
  | _ => { s with stack := s.stack.tail }

/-- Scope close of a nested schedule-flavored scope: pop the top frame and
update the wrapped payload of the parent wrapper where it was attached. -/
def closeSchedScope (fid idx : Nat) (rebuild : List ScheduledOperation → Schedulable)
    (s : BuilderState) : BuilderState :=
  match s.stack with
  | top :: parent :: rest =>
    if top.fid = fid then
      match top.schedContents with
      | some items =>
          { s with stack := parent.modifySchedOpAt idx (rebuild items) :: rest }
      | none => { s with stack := parent :: rest }
    else { s with stack := parent :: rest }
  | _ => { s with stack := s.stack.tail }

/-- Translation of the `build_sequence` context manager: push a fresh empty
sequence, run the body, and pop on every exit path (`finally`). -/
def build_sequence_run (body : BuilderState → BResult Unit) (s0 : BuilderState) :
    BResult Unit :=
  let fid := s0.nextId
  let s1 := { s0 with stack := .opSequence fid [] :: s0.stack, nextId := s0.nextId + 1 }
  let (s2, r) := body s1
  ({ s2 with stack := s2.stack.tail }, r)

/-- Translation of the `sub_sequence` context manager: valid only under a
sequence-like top; the nested sequence is attached to the parent before the
body runs, and the scope is popped on every exit path. -/
def sub_sequence_run (body : BuilderState → BResult Unit) (s0 : BuilderState) :
    BResult Unit :=
  match s0.stack with
  | [] => (s0, .error .subSequenceOutsideContext)
  | top :: _ =>
    if top.isSequenceLike then
      let fid := s0.nextId
      let idx := top.seqLen
      let (s1, r1) := add_to_sequence (.subSeq (.ofList []))
        { s0 with nextId := s0.nextId + 1 }
      match r1 with
      | .error e => (s1, .error e)
      | .ok _ =>
        let s2 := { s1 with stack := .opSequence fid [] :: s1.stack }
        let (s3, r) := body s2
        (closeSeqScope fid idx (fun items => .subSeq (.ofList items)) s3, r)
    else (s0, .error .subSequenceInSchedule)

/-- Translation of the `build_schedule` context manager: push a fresh empty
schedule, run the body, and in the `finally` block check the
unconsumed-block registry of this schedule before popping; a nonempty
pending set pops the scope, clears the registry entry and raises an error
reporting every unconsumed block with its creation call-site (superseding
any body error, as a raise in `finally` does). -/
def build_schedule_run (body : BuilderState → BResult Unit) (s0 : BuilderState) :
    BResult Unit :=
  let fid := s0.nextId
  let s1 := { s0 with stack := .schedule fid [] :: s0.stack, nextId := s0.nextId + 1 }
  let (s2, r) := body s1
  let pending := lookupBlocks s2.unconsumed fid
  let s3 := { s2 with unconsumed := removeBlocksKey s2.unconsumed fid,
                      stack := s2.stack.tail }
  if pending.isEmpty then (s3, r)
  else
    (s3, .error (.unconsumedScheduleBlocks "Schedule" pending.length
      (pending.map ScheduleBlock.creationInfo)))

/-- Translation of the `sub_schedule` context manager: valid only under a
plain schedule top; the nested schedule is wrapped with the given timing
parameters and attached before the body runs, and the close performs the
same unconsumed-block check as `build_schedule`, popping on every exit
path. -/
def sub_schedule_run (p : ScheduleParams) (body : BuilderState → BResult Unit)
    (s0 : BuilderState) : BResult Unit :=
  match s0.stack with
  | [] => (s0, .error .subScheduleOutsideSchedule)
  | top :: _ =>
    if top.isSchedule then
      let fid := s0.nextId
      let idx := top.schedLen
      let (s1, r1) := add_to_schedule (.sched .nil) p { s0 with nextId := s0.nextId + 1 }
      match r1 with
      | .error e => (s1, .error e)
      | .ok _ =>
        let s2 := { s1 with stack := .schedule fid [] :: s1.stack }
        let (s3, r) := body s2
        let pending := lookupBlocks s3.unconsumed fid
        let s4 := closeSchedScope fid idx (fun items => .sched (.ofList items)) s3
        let s5 := { s4 with unconsumed := removeBlocksKey s4.unconsumed fid }
        if pending.isEmpty then (s5, r)
        else
          (s5, .error (.unconsumedScheduleBlocks "sub_schedule" pending.length
            (pending.map ScheduleBlock.creationInfo)))
    else (s0, .error .subScheduleOutsideSchedule)

/-- Translation of the `repeat` context manager: under a schedule-like
parent a `SchedRepetition` is built (validating the count), attached with
the timing parameters and pushed; under a sequence-like parent a
`Repetition` is built, appended and pushed; with no parent a `Repetition`
is pushed without attachment.  The scope is popped on every exit path. -/
def repeat_run (count : Int) (p : ScheduleParams)
    (body : BuilderState → BResult Unit) (s0 : BuilderState) : BResult Unit :=
  match s0.stack with
  | parent :: _ =>
    if parent.isScheduleLike then
      if count < 0 then
        (s0, .error (.validationError "count must be greater than or equal to 0"))
      else
        let fid := s0.nextId
        let idx := parent.schedLen
        let (s1, r1) := add_to_schedule (.srep count .nil) p
          { s0 with nextId := s0.nextId + 1 }
        match r1 with
        | .error e => (s1, .error e)
        | .ok _ =>
          let s2 := { s1 with stack := .schedRepetition fid count [] :: s1.stack }
          let (s3, r) := body s2
          (closeSchedScope fid idx (fun items => .srep count (.ofList items)) s3, r)
    else if parent.isSequenceLike then
      if count < 0 then
        (s0, .error (.validationError "count must be greater than or equal to 0"))
      else
        let fid := s0.nextId
        let idx := parent.seqLen
        let (s1, r1) := add_to_sequence (.repetition count .nil)
          { s0 with nextId := s0.nextId + 1 }
        match r1 with
        | .error e => (s1, .error e)
        | .ok _ =>
          let s2 := { s1 with stack := .repetition fid count [] :: s1.stack }
          let (s3, r) := body s2
          (closeSeqScope fid idx (fun items => .repetition count (.ofList items)) s3, r)
    else (s0, .ok ())
  | [] =>
    if count < 0 then
      (s0, .error (.validationError "count must be greater than or equal to 0"))
    else
      let fid := s0.nextId
      let s1 := { s0 with stack := .repetition fid count [] :: s0.stack,
                          nextId := s0.nextId + 1 }
      let (s2, r) := body s1
      ({ s2 with stack := s2.stack.tail }, r)

/-- Translation of the `for_` context manager: the sequence-flavored
`Iteration` is constructed (and validated) first regardless of the parent
kind; a sequence-like parent receives it and the scope is pushed; a
schedule-like parent instead receives a freshly validated `SchedIteration`
attached with the timing parameters; with no parent the iteration is
pushed without attachment. -/
def for_run (var : IterVars) (items : IterItems) (p : ScheduleParams)
    (body : BuilderState → BResult Unit) (s0 : BuilderState) : BResult Unit :=
  match mkIteration var items (.ofList []) with
  | .error e => (s0, .error (.validationError e))
  | .ok _ =>
    match s0.stack with
    | parent :: _ =>
      if parent.isSequenceLike then
        let fid := s0.nextId
        let idx := parent.seqLen
        let (s1, r1) := add_to_sequence (.iteration var items .nil)
          { s0 with nextId := s0.nextId + 1 }
        match r1 with
        | .error e => (s1, .error e)
        | .ok _ =>
          let s2 := { s1 with stack := .iteration fid var items [] :: s1.stack }
          let (s3, r) := body s2
          (closeSeqScope fid idx (fun xs => .iteration var items (.ofList xs)) s3, r)
      else if parent.isScheduleLike then
        match mkSchedIteration var items .nil with
        | .error e => (s0, .error (.validationError e))
        | .ok _ =>
          let fid := s0.nextId
          let idx := parent.schedLen
          let (s1, r1) := add_to_schedule (.siter var items .nil) p
            { s0 with nextId := s0.nextId + 1 }
          match r1 with
          | .error e => (s1, .error e)
          | .ok _ =>
            let s2 := { s1 with stack := .schedIteration fid var items [] :: s1.stack }
            let (s3, r) := body s2
            (closeSchedScope fid idx (fun xs => .siter var items (.ofList xs)) s3, r)
      else (s0, .ok ())
    | [] =>
      let fid := s0.nextId
      let s1 := { s0 with stack := .iteration fid var items [] :: s0.stack,
                          nextId := s0.nextId + 1 }
      let (s2, r) := body s1
      ({ s2 with stack := s2.stack.tail }, r)

/-- Translation of the `if_` context manager, following the same pattern as
`for_` with `Conditional` / `SchedConditional` scopes. -/
def if_run (var : String) (p : ScheduleParams) (body : BuilderState → BResult Unit)
    (s0 : BuilderState) : BResult Unit :=
  match mkRefName var with
  | .error e => (s0, .error (.validationError e))
  | .ok v =>
    match s0.stack with
    | parent :: _ =>
      if parent.isSequenceLike then
        let fid := s0.nextId
        let idx := parent.seqLen
        let (s1, r1) := add_to_sequence (.conditional v .nil)
          { s0 with nextId := s0.nextId + 1 }
        match r1 with
        | .error e => (s1, .error e)
        | .ok _ =>
          let s2 := { s1 with stack := .conditional fid v [] :: s1.stack }
          let (s3, r) := body s2
          (closeSeqScope fid idx (fun xs => .conditional v (.ofList xs)) s3, r)
      else if parent.isScheduleLike then
        let fid := s0.nextId
        let idx := parent.schedLen
        let (s1, r1) := add_to_schedule (.scond v .nil) p
          { s0 with nextId := s0.nextId + 1 }
        match r1 with
        | .error e => (s1, .error e)
        | .ok _ =>
          let s2 := { s1 with stack := .schedConditional fid v [] :: s1.stack }
          let (s3, r) := body s2
          (closeSchedScope fid idx (fun xs => .scond v (.ofList xs)) s3, r)
      else (s0, .ok ())
    | [] =>
      let fid := s0.nextId
      let s1 := { s0 with stack := .conditional fid v [] :: s0.stack,
                          nextId := s0.nextId + 1 }
      let (s2, r) := body s1
      ({ s2 with stack := s2.stack.tail }, r)

/-- Translation of `ScheduleBlock.__init__` as triggered by calling a
function decorated with `nested_schedule`: capture the call-site and the
body, and register the new block against the current context; with no open
context the current-context access raises. -/
def create_schedule_block (creationInfo : String) (bodyOps : List Schedulable)
    (s0 : BuilderState) : BResult ScheduleBlock :=
  match s0.stack with
  | [] => (s0, .error .noActiveContext)
  | top :: _ =>
    let b : ScheduleBlock := ⟨s0.nextId, creationInfo, bodyOps⟩
    ({ s0 with nextId := s0.nextId + 1,
               unconsumed := appendBlock s0.unconsumed top.fid b }, .ok b)

/-- Execution of a captured block body, modelled as emitting each captured
schedulable into the current (schedule) context. -/
def executeBlockBody : List Schedulable → BuilderState → BResult Unit
| [], s => (s, .ok ())
| op :: rest, s =>
  let (s1, r) := add_to_schedule op .empty s
  match r with
  | .error e => (s1, .error e)
  | .ok _ => executeBlockBody rest s1

/-- Translation of `ScheduleBlock._execute`: remove the block from the
first registry entry containing it, then run the captured function. -/
def block_execute (b : ScheduleBlock) (s : BuilderState) : BResult Unit :=
  executeBlockBody b.body
    { s with unconsumed := removeBlockById s.unconsumed b.blockId }

/-- Translation of `add_block`: requires a plain schedule top, executes the
block inside a `sub_schedule` scope with the given timing parameters, and
returns a token for the newly attached wrapper when one was appended and
its name is truthy. -/
def add_block (b : ScheduleBlock) (p : ScheduleParams) (s0 : BuilderState) :
    BResult (Option OperationToken) :=
  match s0.stack with
  | [] => (s0, .error .noActiveContext)
  | top :: _ =>
    if top.isSchedule then
      let items_before := top.schedLen
      let (s1, r) := sub_schedule_run p (block_execute b) s0
      match r with
      | .error e => (s1, .error e)
      | .ok _ =>
        match s1.stack with
        | .schedule _ items :: _ =>
          if items_before < items.length then
            match items.getLast? with
            | some so =>
              match so.name with
              | some n => if n = "" then (s1, .ok none) else (s1, .ok (some ⟨n, so⟩))
              | none => (s1, .ok none)
            | none => (s1, .ok none)
          else (s1, .ok none)
        | _ => (s1, .ok none)
    else (s0, .error .addBlockOutsideSchedule)

/-- C8: node constructors validate their own constraints synchronously at
construction and never defer them.  Constructing a Wait, Record, Trace or
CompensateDC with a negative duration fails at construction with the
nonnegative-duration error, and constructing a Repetition or
SchedRepetition with a negative count fails at construction; nonnegative
values succeed.  (Reference names are assumed valid identifiers so that
only the duration or count constraint is at stake.) -/
theorem C8_construction_validation :
    (∀ t : TimeValue, t.raw < 0 →
      mkDuration t = .error "expected nonnegative duration value") ∧
    (∀ t : TimeValue, 0 ≤ t.raw → mkDuration t = .ok t) ∧
    (∀ (chs : List String) (t : TimeValue), chs.all isPyIdentifier = true →
      t.raw < 0 → mkWait chs t = .error "expected nonnegative duration value") ∧
    (∀ (chs : List String) (t : TimeValue), chs.all isPyIdentifier = true →
      0 ≤ t.raw → mkWait chs t = .ok (.wait chs t)) ∧
    (∀ (ch v : String) (t : TimeValue) (intg : IntegrationType),
      isPyIdentifier ch = true → isPyIdentifier v = true → t.raw < 0 →
      mkRecord ch v t intg none = .error "expected nonnegative duration value") ∧
    (∀ (ch v : String) (t : TimeValue) (intg : IntegrationType),
      isPyIdentifier ch = true → isPyIdentifier v = true → 0 ≤ t.raw →
      mkRecord ch v t intg none = .ok (.record ch v t intg none)) ∧
    (∀ (ch v : String) (t : TimeValue) (intg : Option IntegrationType),
      isPyIdentifier ch = true → isPyIdentifier v = true → t.raw < 0 →
      mkTrace ch v t intg none = .error "expected nonnegative duration value") ∧
    (∀ (ch v : String) (t : TimeValue) (intg : Option IntegrationType),
      isPyIdentifier ch = true → isPyIdentifier v = true → 0 ≤ t.raw →
      mkTrace ch v t intg none = .ok (.trace ch v t intg none)) ∧
    (∀ (ch : String) (t : TimeValue), isPyIdentifier ch = true → t.raw < 0 →
      mkCompensateDC ch (some (.val t)) none none none =
        .error "expected nonnegative duration value") ∧
    (∀ (ch : String) (t : TimeValue), isPyIdentifier ch = true → 0 ≤ t.raw →
      mkCompensateDC ch (some (.val t)) none none none =
        .ok (.dc_comp ch (some (.val t)) none none none)) ∧
    (∀ (c : Int) (body : SeqItemList), c < 0 →
      mkRepetition c body = .error "count must be greater than or equal to 0") ∧
    (∀ (c : Int) (body : SeqItemList), 0 ≤ c →
      mkRepetition c body = .ok (.repetition c body)) ∧
    (∀ (c : Int) (body : SchedOpList), c < 0 →
      mkSchedRepetition c body = .error "count must be greater than or equal to 0") ∧
    (∀ (c : Int) (body : SchedOpList), 0 ≤ c →
      mkSchedRepetition c body = .ok (.srep c body)) := by
  refine ⟨?_, ?_, ?_, ?_, ?_, ?_, ?_, ?_, ?_, ?_, ?_, ?_, ?_, ?_⟩
  · intro t h
    simp [mkDuration, h]
  · intro t h
    simp [mkDuration, not_lt.mpr h]
  · intro chs t hc h
    simp [mkWait, mkRefNames, hc, mkDuration, h, Except.map, Bind.bind, Except.bind]
  · intro chs t hc h
    simp [mkWait, mkRefNames, hc, mkDuration, not_lt.mpr h, Except.map, Bind.bind, Except.bind]
  · intro ch v t intg hch hv h
    simp [mkRecord, mkRefName, hch, hv, mkDuration, h, mkOptDuration, Except.map, Bind.bind, Except.bind]
  · intro ch v t intg hch hv h
    simp [mkRecord, mkRefName, hch, hv, mkDuration, not_lt.mpr h, mkOptDuration,
      Except.map, Bind.bind, Except.bind]
  · intro ch v t intg hch hv h
    simp [mkTrace, mkRefName, hch, hv, mkDuration, h, mkOptDuration, Except.map, Bind.bind, Except.bind]
  · intro ch v t intg hch hv h
    simp [mkTrace, mkRefName, hch, hv, mkDuration, not_lt.mpr h, mkOptDuration,
      Except.map, Bind.bind, Except.bind]
  · intro ch t hch h
    simp [mkCompensateDC, mkRefName, hch, mkOptDurOrVar, mkDuration, h, Except.map, Bind.bind, Except.bind]
  · intro ch t hch h
    simp [mkCompensateDC, mkRefName, hch, mkOptDurOrVar, mkDuration, not_lt.mpr h,
      Except.map, Bind.bind, Except.bind]
  · intro c body h
    simp [mkRepetition, h]
  · intro c body h
    simp [mkRepetition, not_lt.mpr h]
  · intro c body h
    simp [mkSchedRepetition, h]
  · intro c body h
    simp [mkSchedRepetition, not_lt.mpr h]

/-- Witness for C8 at concrete inputs: a wait of minus five nanoseconds and
a repetition of count minus one are rejected, their nonnegative
counterparts accepted. -/
theorem C8_construction_validation_witness :
    mkWait ["q"] (.ns (-5)) = .error "expected nonnegative duration value" ∧
    mkWait ["q"] (.ns 5) = .ok (.wait ["q"] (.ns 5)) ∧
    mkRepetition (-1) .nil = .error "count must be greater than or equal to 0" ∧
    mkRepetition 3 .nil = .ok (.repetition 3 .nil) := by
  refine ⟨?_, ?_, ?_, ?_⟩
  · exact C8_construction_validation.2.2.1 ["q"] (.ns (-5)) (by decide) (by decide)
  · exact C8_construction_validation.2.2.2.1 ["q"] (.ns 5) (by decide) (by decide)
  · exact C8_construction_validation.2.2.2.2.2.2.2.2.2.2.1 (-1) .nil (by decide)
  · exact C8_construction_validation.2.2.2.2.2.2.2.2.2.2.2.1 3 .nil (by decide)

/-- Helper: sharing one common length is equivalent to every tail element
matching the head length (the shape of the check in the validator). -/
theorem pairwiseLen_iff_allHead (e : IterElem) (rest : List IterElem) :
    (∀ e1 ∈ e :: rest, ∀ e2 ∈ e :: rest, e1.len = e2.len) ↔
      rest.all (fun x => x.len = e.len) = true := by
  rw [List.all_eq_true]
  simp only [decide_eq_true_eq]
  constructor
  · intro h x hx
    exact h x (List.mem_cons_of_mem e hx) e (List.mem_cons_self e rest)
  · intro h e1 h1 e2 h2
    have key : ∀ y : IterElem, y ∈ e :: rest → y.len = e.len := by
      intro y hy
      rcases List.mem_cons.mp hy with hy | hy
      · rw [hy]
      · exact h y hy
    rw [key e1 h1, key e2 h2]

/-- Statement of claim C6 as written: constructing an Iteration with a list
of loop variables (all valid identifiers) succeeds exactly when the
iterables are given as a list of the same length whose members all share
one common length. -/
def iterationListArityClaim : Prop :=
  ∀ (vs : List String) (items : IterItems) (body : SeqItemList),
    vs.all isPyIdentifier = true →
    ((mkIteration (.list vs) items body).isOk = true ↔
      ∃ es, items = .listOf es ∧ es.length = vs.length ∧
        ∀ e1 ∈ es, ∀ e2 ∈ es, e1.len = e2.len)

/-- C6 counterexample: with the empty list of loop variables and the empty
list of iterables the claim requires success (lengths agree at zero and
the common-length condition is vacuous), but the validator raises, because
the Python `all(isinstance(item, str) ...)` over an empty list is true and
the pair is treated as not being two lists. -/
theorem C6_counterexample : ¬ iterationListArityClaim := by
  intro h
  have h2 := (h [] (.listOf []) .nil rfl).mpr ⟨[], rfl, rfl, by simp⟩
  exact absurd h2 (by decide)

/-- C6 (amended): for a NONEMPTY list of loop variables (all valid
identifiers), constructing an Iteration succeeds exactly when the
iterables are given as a list of iterables of the same length whose
members all share one common length. -/
theorem C6_iteration_arity (vs : List String) (items : IterItems)
    (body : SeqItemList) (hne : vs ≠ []) (hids : vs.all isPyIdentifier = true) :
    (mkIteration (.list vs) items body).isOk = true ↔
      ∃ es, items = .listOf es ∧ es.length = vs.length ∧
        ∀ e1 ∈ es, ∀ e2 ∈ es, e1.len = e2.len := by
  have hvars : mkIterVars (.list vs) = .ok (.list vs) := by
    simp [mkIterVars, mkRefNames, hids, Except.map]
  constructor
  · intro hok
    cases items with
    | scalar q =>
      simp [mkIteration, hvars, iterationValidate, Bind.bind, Except.bind,
        Except.isOk, Except.toBool] at hok
    | strList ss =>
      simp [mkIteration, hvars, iterationValidate, Bind.bind, Except.bind,
        Except.isOk, Except.toBool] at hok
    | listOf es =>
      cases es with
      | nil =>
        simp [mkIteration, hvars, iterationValidate, Bind.bind, Except.bind,
          Except.isOk, Except.toBool] at hok
      | cons e rest =>
        by_cases hlen : vs.length = rest.length + 1
        · by_cases hall : rest.all (fun x => x.len = e.len) = true
          · exact ⟨e :: rest, rfl, by simpa using hlen.symm,
              (pairwiseLen_iff_allHead e rest).mpr hall⟩
          · simp [mkIteration, hvars, iterationValidate, hlen, hall, Bind.bind,
              Except.bind, Except.isOk, Except.toBool] at hok
        · simp [mkIteration, hvars, iterationValidate, hlen, Bind.bind,
            Except.bind, Except.isOk, Except.toBool] at hok
  · rintro ⟨es, rfl, hlen, hcommon⟩
    cases es with
    | nil => exact absurd (by simpa using hlen.symm) hne
    | cons e rest =>
      have hall := (pairwiseLen_iff_allHead e rest).mp hcommon
      simp [mkIteration, hvars, iterationValidate, Bind.bind, Except.bind,
        Except.isOk, Except.toBool, ← hlen, hall]

/-- Witness for C6 at the lengths of the claim: two loop variables with two
iterables of length five construct successfully. -/
theorem C6_iteration_arity_witness :
    (mkIteration (.list ["i", "j"])
      (.listOf [.strs ["a", "b", "c", "d", "e"], .seq (.array [1, 2, 3, 4, 5])])
      .nil).isOk = true := by
  refine (C6_iteration_arity ["i", "j"]
    (.listOf [.strs ["a", "b", "c", "d", "e"], .seq (.array [1, 2, 3, 4, 5])])
    .nil (by decide) (by decide)).mpr
    ⟨[.strs ["a", "b", "c", "d", "e"], .seq (.array [1, 2, 3, 4, 5])], rfl,
      rfl, by decide⟩

/-- C5: a wait call with several channels while the top-of-stack scope is a
plain sequence succeeds and records all the given channels in one Wait
operation appended to the sequence, while the identical call under any
schedule-flavored top raises the multi-channel error.  (Channel names are
assumed valid identifiers and the duration nonnegative, so that only the
dispatch is at stake; the first part holds for any number of channels,
including more than one.) -/
theorem C5_multichannel_wait (chs : List String) (t : TimeValue)
    (p : ScheduleParams) (s : BuilderState)
    (hids : chs.all isPyIdentifier = true) (hd : 0 ≤ t.raw) :
    (∀ fid items rest, s.stack = .opSequence fid items :: rest →
      wait chs t p s =
        ({ s with stack := .opSequence fid (items ++ [.op (.wait chs t)]) :: rest },
          .ok none)) ∧
    (∀ top rest, s.stack = top :: rest → top.isScheduleLike = true →
      1 < chs.length →
      wait chs t p s = (s, .error (.multiChannelWaitInSchedule chs.length))) := by
  have hmk : mkWait chs t = .ok (.wait chs t) := by
    simp [mkWait, mkRefNames, hids, mkDuration, not_lt.mpr hd, Bind.bind, Except.bind]
  constructor
  · intro fid items rest hstack
    simp [wait, hstack, Frame.isScheduleLike, hmk, emitScheduleLike,
      add_to_sequence, Except.map]
  · intro top rest hstack hsched hlen
    simp [wait, hstack, hsched, hlen]

/-- Witness for C5: waiting on three channels succeeds under a sequence top
and raises under a schedule top. -/
theorem C5_multichannel_wait_witness :
    (wait ["a", "b", "c"] (.us 10) ScheduleParams.empty
      { stack := [.opSequence 0 []], opCounter := 0, unconsumed := [], nextId := 1 } =
      ({ stack := [.opSequence 0 [.op (.wait ["a", "b", "c"] (.us 10))]],
         opCounter := 0, unconsumed := [], nextId := 1 }, .ok none)) ∧
    (wait ["a", "b", "c"] (.us 10) ScheduleParams.empty
      { stack := [.schedule 0 []], opCounter := 0, unconsumed := [], nextId := 1 } =
      ({ stack := [.schedule 0 []], opCounter := 0, unconsumed := [], nextId := 1 },
        .error (.multiChannelWaitInSchedule 3))) := by
  constructor
  · exact (C5_multichannel_wait ["a", "b", "c"] (.us 10) ScheduleParams.empty
      { stack := [.opSequence 0 []], opCounter := 0, unconsumed := [], nextId := 1 }
      (by decide) (by decide)).1 0 [] [] rfl
  · exact (C5_multichannel_wait ["a", "b", "c"] (.us 10) ScheduleParams.empty
      { stack := [.schedule 0 []], opCounter := 0, unconsumed := [], nextId := 1 }
      (by decide) (by decide)).2 (.schedule 0 []) [] rfl (by decide) (by decide)

/-- C10: `var_decl` always routes through the sequence path.  For every
builder state whose top-of-stack scope is a schedule or a schedule-flavored
control-flow body, calling `var_decl` (with a valid identifier) raises the
cannot-add-sequence-operation RuntimeError and returns the state unchanged,
so the item list of that scope is untouched; the function has no token
return path at all. -/
theorem C10_var_decl_sequence_only (name : String) (dtype : VarDType)
    (shape : Option (List Int)) (unit : Option String) (s : BuilderState)
    (top : Frame) (rest : List Frame) (hstack : s.stack = top :: rest)
    (hsched : top.isScheduleLike = true) (hid : isPyIdentifier name = true) :
    var_decl name dtype shape unit s =
      (s, .error (.cannotAddSequenceOp top.pyName)) := by
  have hmk : mkVariableDecl name dtype shape unit =
      .ok (.var_decl name dtype shape unit) := by
    simp [mkVariableDecl, mkRefName, hid, Bind.bind, Except.bind]
  cases top <;> simp_all [var_decl, add_to_sequence, Frame.isScheduleLike,
    Frame.pyName]

/-- Witness for C10: declaring a variable under a schedule top raises and
leaves the state unchanged. -/
theorem C10_var_decl_sequence_only_witness :
    var_decl "x" .int none none
      { stack := [.schedule 0 []], opCounter := 0, unconsumed := [], nextId := 1 } =
      ({ stack := [.schedule 0 []], opCounter := 0, unconsumed := [], nextId := 1 },
        .error (.cannotAddSequenceOp "Schedule")) :=
  C10_var_decl_sequence_only "x" .int none none
    { stack := [.schedule 0 []], opCounter := 0, unconsumed := [], nextId := 1 }
    (.schedule 0 []) [] rfl (by decide) (by decide)

/-- Append one item to the sequence-flavored list a frame owns: a plain
sequence appends to its item list, a control-flow body to its body list;
schedule-flavored frames are returned unchanged. -/
def Frame.withSeqAppended (f : Frame) (item : SeqItem) : Frame :=
  match f with
  | .opSequence fid items => .opSequence fid (items ++ [item])
  | .repetition fid c body => .repetition fid c (body ++ [item])
  | .iteration fid v it body => .iteration fid v it (body ++ [item])
  | .conditional fid v body => .conditional fid v (body ++ [item])
  | other => other

/-- Append one wrapper to the schedule-flavored list a frame owns. -/
def Frame.withSchedAppended (f : Frame) (so : ScheduledOperation) : Frame :=
  match f with
  | .schedule fid items => .schedule fid (items ++ [so])
  | .schedRepetition fid c body => .schedRepetition fid c (body ++ [so])
  | .schedIteration fid v it body => .schedIteration fid v it (body ++ [so])
  | .schedConditional fid v body => .schedConditional fid v (body ++ [so])
  | other => other

/-- Dispatch rule of claim C1, for one leaf-emitting call producing the
operation `op`: a sequence-like top receives a direct append (to its item
list or its body list) and the call returns nothing; any schedule-like top
(a plain schedule or a schedule-flavored control-flow body) receives the
operation wrapped as a `ScheduledOperation` by `add_to_schedule`, which
consumes the timing parameters, and the call returns the token. -/
def DispatchRuleSpec
    (emit : ScheduleParams → BuilderState → BResult (Option OperationToken))
    (op : Op) : Prop :=
  ∀ (p : ScheduleParams) (s : BuilderState) (top : Frame) (rest : List Frame),
    s.stack = top :: rest →
    (top.isSequenceLike = true →
      emit p s = ({ s with stack := top.withSeqAppended (.op op) :: rest }, .ok none)) ∧
    (top.isScheduleLike = true →
      emit p s =
        (let res := add_to_schedule (.op op) p s
         (res.1, res.2.map some)))

/-- Dispatch actually implemented by the seven emitters that test
`isinstance(context, Schedule)` only: a sequence-like top receives a direct
append, a plain schedule top the wrapped append, and a schedule-flavored
control-flow body top a RuntimeError with the state unchanged. -/
def ScheduleOnlyDispatchSpec
    (emit : ScheduleParams → BuilderState → BResult (Option OperationToken))
    (op : Op) : Prop :=
  ∀ (p : ScheduleParams) (s : BuilderState) (top : Frame) (rest : List Frame),
    s.stack = top :: rest →
    (top.isSequenceLike = true →
      emit p s = ({ s with stack := top.withSeqAppended (.op op) :: rest }, .ok none)) ∧
    (top.isSchedule = true →
      emit p s =
        (let res := add_to_schedule (.op op) p s
         (res.1, res.2.map some))) ∧
    (top.isScheduleLike = true → top.isSchedule = false →
      emit p s = (s, .error (.cannotAddSequenceOp top.pyName)))

/-- Helper: the shared emission path of `play` and `wait` satisfies the
dispatch rule of claim C1. -/
theorem emitScheduleLike_spec (op : Op) :
    DispatchRuleSpec (fun p s => emitScheduleLike op p s) op := by
  intro p s top rest h
  constructor
  · intro hseq
    cases top <;> simp_all [emitScheduleLike, Frame.isScheduleLike,
      Frame.isSequenceLike, add_to_sequence, Frame.withSeqAppended, Except.map]
  · intro hsched
    cases top <;> simp_all [emitScheduleLike, Frame.isScheduleLike,
      Frame.isSequenceLike]

/-- Helper: the shared emission path of the schedule-only emitters
satisfies the schedule-only dispatch. -/
theorem emitScheduleOnly_spec (op : Op) :
    ScheduleOnlyDispatchSpec (fun p s => emitScheduleOnly op p s) op := by
  intro p s top rest h
  refine ⟨?_, ?_, ?_⟩
  · intro hseq
    cases top <;> simp_all [emitScheduleOnly, Frame.isSchedule,
      Frame.isSequenceLike, add_to_sequence, Frame.withSeqAppended, Except.map]
  · intro hsched
    cases top <;> simp_all [emitScheduleOnly, Frame.isSchedule]
  · intro hsl hns
    cases top <;> simp_all [emitScheduleOnly, Frame.isSchedule,
      Frame.isScheduleLike, add_to_sequence, Frame.pyName, Except.map]

/-- Statement of claim C1 as written: every leaf-emitting builder call
(play, wait with at most one channel so that the multi-channel guard of C5
is not in play, set_frequency, shift_frequency, set_phase, shift_phase,
record, discriminate, store), once its operation constructs successfully,
follows the dispatch rule keyed on the exact kind of the top-of-stack
scope. -/
def C1DispatchClaim : Prop :=
  (∀ ch pulse sa cond op, mkPlay ch pulse sa cond = .ok op →
    DispatchRuleSpec (play ch pulse sa cond) op) ∧
  (∀ chs d op, mkWait chs d = .ok op → chs.length ≤ 1 →
    DispatchRuleSpec (wait chs d) op) ∧
  (∀ ch f op, mkSetFrequency ch f = .ok op →
    DispatchRuleSpec (set_frequency ch f) op) ∧
  (∀ ch f op, mkShiftFrequency ch f = .ok op →
    DispatchRuleSpec (shift_frequency ch f) op) ∧
  (∀ ch ph op, mkSetPhase ch ph = .ok op →
    DispatchRuleSpec (set_phase ch ph) op) ∧
  (∀ ch ph op, mkShiftPhase ch ph = .ok op →
    DispatchRuleSpec (shift_phase ch ph) op) ∧
  (∀ ch v d intg op, mkRecord ch v d intg none = .ok op →
    DispatchRuleSpec (record ch v d intg) op) ∧
  (∀ tgt src thr rot cmp prj op, mkDiscriminate tgt src thr rot cmp prj = .ok op →
    DispatchRuleSpec (discriminate tgt src thr rot cmp prj) op) ∧
  (∀ k src m op, mkStore k src m = .ok op →
    DispatchRuleSpec (store k src m) op)

/-- C1 counterexample: `set_frequency` does not follow the claimed dispatch
rule.  With the top of the stack a `SchedRepetition` body, the claim
requires the operation to be wrapped and appended, but the call tests
`isinstance(context, Schedule)` only, falls into `_add_to_sequence`, and
raises `RuntimeError`. -/
theorem C1_counterexample : ¬ C1DispatchClaim := by
  intro h
  have hspec := h.2.2.1 "q" (.val (.Hz 100)) (.set_frequency "q" (.val (.Hz 100)))
    rfl
  have h2 := (hspec ScheduleParams.empty
    { stack := [.schedRepetition 0 2 []], opCounter := 0, unconsumed := [],
      nextId := 1 }
    (.schedRepetition 0 2 []) [] rfl).2 (by decide)
  have h3 := congrArg (fun x => x.2.isOk) h2
  exact absurd h3 (by decide)

/-- C1 (amended): `play` and `wait` (single channel) follow the full
dispatch rule keyed on the exact top-of-stack kind, wrapping under every
schedule-like top; the seven other leaf emitters (set_frequency,
shift_frequency, set_phase, shift_phase, record, discriminate, store) wrap
only when the top is a plain Schedule, and raise a RuntimeError, leaving
the state unchanged, when the top is a Sched-flavored control-flow body;
under sequence-like tops all nine append directly. -/
theorem C1_dispatch_amended :
    (∀ ch pulse sa cond op, mkPlay ch pulse sa cond = .ok op →
      DispatchRuleSpec (play ch pulse sa cond) op) ∧
    (∀ chs d op, mkWait chs d = .ok op → chs.length ≤ 1 →
      DispatchRuleSpec (wait chs d) op) ∧
    (∀ ch f op, mkSetFrequency ch f = .ok op →
      ScheduleOnlyDispatchSpec (set_frequency ch f) op) ∧
    (∀ ch f op, mkShiftFrequency ch f = .ok op →
      ScheduleOnlyDispatchSpec (shift_frequency ch f) op) ∧
    (∀ ch ph op, mkSetPhase ch ph = .ok op →
      ScheduleOnlyDispatchSpec (set_phase ch ph) op) ∧
    (∀ ch ph op, mkShiftPhase ch ph = .ok op →
      ScheduleOnlyDispatchSpec (shift_phase ch ph) op) ∧
    (∀ ch v d intg op, mkRecord ch v d intg none = .ok op →
      ScheduleOnlyDispatchSpec (record ch v d intg) op) ∧
    (∀ tgt src thr rot cmp prj op, mkDiscriminate tgt src thr rot cmp prj = .ok op →
      ScheduleOnlyDispatchSpec (discriminate tgt src thr rot cmp prj) op) ∧
    (∀ k src m op, mkStore k src m = .ok op →
      ScheduleOnlyDispatchSpec (store k src m) op) := by
  refine ⟨?_, ?_, ?_, ?_, ?_, ?_, ?_, ?_, ?_⟩
  · intro ch pulse sa cond op hmk
    intro p s top rest h
    have := emitScheduleLike_spec op p s top rest h
    simpa [play, hmk] using this
  · intro chs d op hmk hlen
    intro p s top rest h
    have hs := emitScheduleLike_spec op p s top rest h
    have hguard : ¬ (top.isScheduleLike = true ∧ chs.length > 1) := by
      rintro ⟨-, hgt⟩
      omega
    constructor
    · intro hseq
      have := hs.1 hseq
      simp only [wait, h, hguard, if_neg hguard, hmk] at *
      simpa [wait, h, hguard, hmk] using this
    · intro hsched
      have := hs.2 hsched
      simpa [wait, h, hguard, hmk] using this
  · intro ch f op hmk
    intro p s top rest h
    have := emitScheduleOnly_spec op p s top rest h
    simpa [set_frequency, hmk] using this
  · intro ch f op hmk
    intro p s top rest h
    have := emitScheduleOnly_spec op p s top rest h
    simpa [shift_frequency, hmk] using this
  · intro ch ph op hmk
    intro p s top rest h
    have := emitScheduleOnly_spec op p s top rest h
    simpa [set_phase, hmk] using this
  · intro ch ph op hmk
    intro p s top rest h
    have := emitScheduleOnly_spec op p s top rest h
    simpa [shift_phase, hmk] using this
  · intro ch v d intg op hmk
    intro p s top rest h
    have := emitScheduleOnly_spec op p s top rest h
    simpa [record, hmk] using this
  · intro tgt src thr rot cmp prj op hmk
    intro p s top rest h
    have := emitScheduleOnly_spec op p s top rest h
    simpa [discriminate, hmk] using this
  · intro k src m op hmk
    intro p s top rest h
    have := emitScheduleOnly_spec op p s top rest h
    simpa [store, hmk] using this

/-- Witness for the amended C1: a concrete `play` under a schedule-flavored
repetition body wraps and appends, while a concrete `set_frequency` in the
same state raises. -/
theorem C1_dispatch_amended_witness :
    (play "q" (.ref "p1") none none ScheduleParams.empty
      { stack := [.schedRepetition 0 2 []], opCounter := 0, unconsumed := [],
        nextId := 1 } =
      (let res := add_to_schedule (.op (.play "q" (.ref "p1") none none))
        ScheduleParams.empty
        { stack := [.schedRepetition 0 2 []], opCounter := 0, unconsumed := [],
          nextId := 1 }
       (res.1, res.2.map some))) ∧
    (set_frequency "q" (.val (.Hz 100)) ScheduleParams.empty
      { stack := [.schedRepetition 0 2 []], opCounter := 0, unconsumed := [],
        nextId := 1 } =
      ({ stack := [.schedRepetition 0 2 []], opCounter := 0, unconsumed := [],
         nextId := 1 }, .error (.cannotAddSequenceOp "SchedRepetition"))) := by
  constructor
  · exact (C1_dispatch_amended.1 "q" (.ref "p1") none none
      (.play "q" (.ref "p1") none none) rfl ScheduleParams.empty
      { stack := [.schedRepetition 0 2 []], opCounter := 0, unconsumed := [],
        nextId := 1 } (.schedRepetition 0 2 []) [] rfl).2 (by decide)
  · exact (C1_dispatch_amended.2.2.1 "q" (.val (.Hz 100))
      (.set_frequency "q" (.val (.Hz 100))) rfl ScheduleParams.empty
      { stack := [.schedRepetition 0 2 []], opCounter := 0, unconsumed := [],
        nextId := 1 } (.schedRepetition 0 2 []) [] rfl).2.2 (by decide) (by decide)

/-- Helper: appending to the current sequence scope never touches the name
counter. -/
theorem opCounter_add_to_sequence (i : SeqItem) (s : BuilderState) :
    (add_to_sequence i s).1.opCounter = s.opCounter := by
  rcases h : s.stack with _ | ⟨top, rest⟩
  · simp [add_to_sequence, h]
  · cases top <;> simp [add_to_sequence, h]

/-- Helper: appending to the current schedule scope never decreases the
name counter. -/
theorem opCounter_add_to_schedule (op : Schedulable) (p : ScheduleParams)
    (s : BuilderState) : s.opCounter ≤ (add_to_schedule op p s).1.opCounter := by
  rcases h : s.stack with _ | ⟨top, rest⟩
  · simp [add_to_schedule, h]
  · cases top <;> rcases hn : (resolve_schedule_params p).name with _ | n <;>
      simp [add_to_schedule, h, hn, generate_op_name]

/-- Helper: the full-dispatch emission path never decreases the name
counter. -/
theorem opCounter_emitScheduleLike (op : Op) (p : ScheduleParams)
    (s : BuilderState) : s.opCounter ≤ (emitScheduleLike op p s).1.opCounter := by
  rcases h : s.stack with _ | ⟨top, rest⟩
  · simp [emitScheduleLike, h]
  · by_cases hsl : top.isScheduleLike = true
    · simpa [emitScheduleLike, h, hsl] using opCounter_add_to_schedule (.op op) p s
    · simp only [emitScheduleLike, h, hsl]
      simp [opCounter_add_to_sequence (.op op) s]

/-- Helper: the schedule-only emission path never decreases the name
counter. -/
theorem opCounter_emitScheduleOnly (op : Op) (p : ScheduleParams)
    (s : BuilderState) : s.opCounter ≤ (emitScheduleOnly op p s).1.opCounter := by
  rcases h : s.stack with _ | ⟨top, rest⟩
  · simp [emitScheduleOnly, h]
  · by_cases hsl : top.isSchedule = true
    · simpa [emitScheduleOnly, h, hsl] using opCounter_add_to_schedule (.op op) p s
    · simp only [emitScheduleOnly, h, hsl]
      simp [opCounter_add_to_sequence (.op op) s]

/-- Helper: closing a nested sequence scope never touches the name
counter. -/
theorem opCounter_closeSeqScope (fid idx : Nat) (rebuild : List SeqItem → SeqItem)
    (s : BuilderState) : (closeSeqScope fid idx rebuild s).opCounter = s.opCounter := by
  unfold closeSeqScope
  split <;> (try split) <;> (try split) <;> rfl

/-- Helper: closing a nested schedule scope never touches the name
counter. -/
theorem opCounter_closeSchedScope (fid idx : Nat)
    (rebuild : List ScheduledOperation → Schedulable) (s : BuilderState) :
    (closeSchedScope fid idx rebuild s).opCounter = s.opCounter := by
  unfold closeSchedScope
  split <;> (try split) <;> (try split) <;> rfl

/-- Helper: executing a captured block body never decreases the name
counter. -/
theorem opCounter_executeBlockBody (ops : List Schedulable) (s : BuilderState) :
    s.opCounter ≤ (executeBlockBody ops s).1.opCounter := by
  induction ops generalizing s with
  | nil => simp [executeBlockBody]
  | cons op rest ih =>
    simp only [executeBlockBody]
    rcases hr : (add_to_schedule op .empty s).2 with e | v
    · simpa [hr] using opCounter_add_to_schedule op .empty s
    · simp only [hr]
      exact le_trans (opCounter_add_to_schedule op .empty s)
        (ih (add_to_schedule op .empty s).1)

/-- Helper: block execution never decreases the name counter. -/
theorem opCounter_block_execute (b : ScheduleBlock) (s : BuilderState) :
    s.opCounter ≤ (block_execute b s).1.opCounter := by
  simpa [block_execute] using opCounter_executeBlockBody b.body
    { s with unconsumed := removeBlockById s.unconsumed b.blockId }

/-- Helper: a `sub_schedule` scope run never decreases the name counter,
provided its body never does. -/
theorem opCounter_sub_schedule_run (p : ScheduleParams)
    (body : BuilderState → BResult Unit)
    (hb : ∀ t, t.opCounter ≤ (body t).1.opCounter) (s : BuilderState) :
    s.opCounter ≤ (sub_schedule_run p body s).1.opCounter := by
  obtain ⟨stk, oc, unc, nid⟩ := s
  rcases stk with _ | ⟨top, rest⟩
  · simp [sub_schedule_run]
  · by_cases hsl : top.isSchedule = true
    · simp only [sub_schedule_run, hsl, if_pos]
      have h1 := opCounter_add_to_schedule (.sched .nil) p
        { stack := top :: rest, opCounter := oc, unconsumed := unc, nextId := nid + 1 }
      rcases hr : (add_to_schedule (.sched .nil) p
          { stack := top :: rest, opCounter := oc, unconsumed := unc,
            nextId := nid + 1 }).2 with e | v
      · simpa [hr] using h1
      · simp only [hr]
        set s1 := (add_to_schedule (.sched .nil) p
          { stack := top :: rest, opCounter := oc, unconsumed := unc,
            nextId := nid + 1 }).1 with hs1
        have h2 := hb { s1 with stack := .schedule nid [] :: s1.stack }
        set s3 := (body { s1 with stack := .schedule nid [] :: s1.stack }).1 with hs3
        have h4 := opCounter_closeSchedScope nid top.schedLen
          (fun items => .sched (.ofList items)) s3
        simp only [BuilderState.mk.injEq] at *
        split <;> simp_all <;> omega
    · simp [sub_schedule_run, hsl]

/-- Helper: `add_block` never decreases the name counter. -/
theorem opCounter_add_block (b : ScheduleBlock) (p : ScheduleParams)
    (s : BuilderState) : s.opCounter ≤ (add_block b p s).1.opCounter := by
  rcases h : s.stack with _ | ⟨top, rest⟩
  · simp [add_block, h]
  · by_cases hsl : top.isSchedule = true
    · have hsub := opCounter_sub_schedule_run p (block_execute b)
        (fun t => opCounter_block_execute b t) s
      simp only [add_block, h, hsl, if_pos]
      rcases hr : (sub_schedule_run p (block_execute b) s).2 with e | v
      · simpa [hr] using hsub
      · simp only [hr]
        split <;> (try split) <;> (try split) <;> (try split) <;> (try split) <;>
          simpa using hsub
    · simp [add_block, h, hsl]

/-- Helper: `play` never decreases the name counter. -/
theorem opCounter_play (ch : String) (pulse : PulseOrRef) (sa : Option ScaleAmp)
    (cond : Option String) (p : ScheduleParams) (s : BuilderState) :
    s.opCounter ≤ (play ch pulse sa cond p s).1.opCounter := by
  cases hmk : mkPlay ch pulse sa cond with
  | error e => simp [play, hmk]
  | ok op => simpa [play, hmk] using opCounter_emitScheduleLike op p s

/-- Helper: `wait` never decreases the name counter. -/
theorem opCounter_wait (chs : List String) (d : TimeValue) (p : ScheduleParams)
    (s : BuilderState) : s.opCounter ≤ (wait chs d p s).1.opCounter := by
  obtain ⟨stk, oc, unc, nid⟩ := s
  rcases stk with _ | ⟨top, rest⟩
  · simp [wait]
  · simp only [wait]
    split
    · simp
    · cases hmk : mkWait chs d with
      | error e => simp [hmk]
      | ok op =>
        simpa [hmk] using opCounter_emitScheduleLike op p
          { stack := top :: rest, opCounter := oc, unconsumed := unc, nextId := nid }

/-- Helper: `barrier` never decreases the name counter. -/
theorem opCounter_barrier (chs : List String) (s : BuilderState) :
    s.opCounter ≤ (barrier chs s).1.opCounter := by
  cases hmk : mkBarrier chs with
  | error e => simp [barrier, hmk]
  | ok op =>
    obtain ⟨stk, oc, unc, nid⟩ := s
    rcases stk with _ | ⟨top, rest⟩
    · simp [barrier, hmk]
    · simp only [barrier, hmk]
      split
      · simp
      · simpa using le_of_eq (opCounter_add_to_sequence (.op op)
          { stack := top :: rest, opCounter := oc, unconsumed := unc,
            nextId := nid }).symm

/-- Helper: the schedule-only emitters never decrease the name counter. -/
theorem opCounter_emitter_scheduleOnly (mk : Except String Op) (p : ScheduleParams)
    (s : BuilderState) :
    s.opCounter ≤ ((match mk with
      | .error e => (s, .error (.validationError e))
      | .ok op => emitScheduleOnly op p s) : BResult (Option OperationToken)).1.opCounter := by
  cases mk with
  | error e => simp
  | ok op => simpa using opCounter_emitScheduleOnly op p s

/-- Helper: `var_decl` never decreases the name counter. -/
theorem opCounter_var_decl (n : String) (dt : VarDType) (shp : Option (List Int))
    (u : Option String) (s : BuilderState) :
    s.opCounter ≤ (var_decl n dt shp u s).1.opCounter := by
  cases hmk : mkVariableDecl n dt shp u with
  | error e => simp [var_decl, hmk]
  | ok op =>
    simpa [var_decl, hmk] using le_of_eq (opCounter_add_to_sequence (.op op) s).symm

/-- Helper: registering a pending block never touches the name counter. -/
theorem opCounter_create_schedule_block (info : String) (ops : List Schedulable)
    (s : BuilderState) :
    s.opCounter ≤ (create_schedule_block info ops s).1.opCounter := by
  obtain ⟨stk, oc, unc, nid⟩ := s
  rcases stk with _ | ⟨top, rest⟩ <;> simp [create_schedule_block]

/-- Helper: a `build_sequence` scope run never decreases the name counter,
provided its body never does. -/
theorem opCounter_build_sequence_run (body : BuilderState → BResult Unit)
    (hb : ∀ t, t.opCounter ≤ (body t).1.opCounter) (s : BuilderState) :
    s.opCounter ≤ (build_sequence_run body s).1.opCounter := by
  have h := hb ({ s with
                  stack := .opSequence s.nextId [] :: s.stack,
                  nextId := s.nextId + 1 })
  simp only [build_sequence_run]
  simpa using h

/-- Helper: a `build_schedule` scope run never decreases the name counter,
provided its body never does. -/
theorem opCounter_build_schedule_run (body : BuilderState → BResult Unit)
    (hb : ∀ t, t.opCounter ≤ (body t).1.opCounter) (s : BuilderState) :
    s.opCounter ≤ (build_schedule_run body s).1.opCounter := by
  have h := hb ({ s with
                  stack := .schedule s.nextId [] :: s.stack,
                  nextId := s.nextId + 1 })
  simp only [build_schedule_run]
  split <;> simpa using h

/-- Helper: a `sub_sequence` scope run never decreases the name counter,
provided its body never does. -/
theorem opCounter_sub_sequence_run (body : BuilderState → BResult Unit)
    (hb : ∀ t, t.opCounter ≤ (body t).1.opCounter) (s : BuilderState) :
    s.opCounter ≤ (sub_sequence_run body s).1.opCounter := by
  obtain ⟨stk, oc, unc, nid⟩ := s
  rcases stk with _ | ⟨top, rest⟩
  · simp [sub_sequence_run]
  · by_cases hsl : top.isSequenceLike = true
    · simp only [sub_sequence_run, hsl, if_pos]
      have h0 : ((add_to_sequence (.subSeq (.ofList []))
          ({ stack := top :: rest, opCounter := oc, unconsumed := unc,
             nextId := nid + 1 } : BuilderState)).1).opCounter = oc := by
        simpa using opCounter_add_to_sequence (.subSeq (.ofList []))
          ({ stack := top :: rest, opCounter := oc, unconsumed := unc,
             nextId := nid + 1 })
      rcases hr : (add_to_sequence (.subSeq (.ofList []))
          ({ stack := top :: rest, opCounter := oc, unconsumed := unc,
             nextId := nid + 1 } : BuilderState)).2 with e | v
      · simp only [hr]
        simpa using le_of_eq h0.symm
      · simp only [hr]
        set s1 := (add_to_sequence (.subSeq (.ofList []))
          ({ stack := top :: rest, opCounter := oc, unconsumed := unc,
             nextId := nid + 1 } : BuilderState)).1 with hs1
        have h2 : s1.opCounter ≤
            ((body ({ s1 with stack := .opSequence nid [] :: s1.stack } :
              BuilderState)).1).opCounter := by
          simpa using hb ({ s1 with stack := .opSequence nid [] :: s1.stack })
        rcases hbody : body ({ s1 with stack := .opSequence nid [] :: s1.stack } :
            BuilderState) with ⟨s3, r⟩
        rw [hbody] at h2
        dsimp only at h2
        have h4 := opCounter_closeSeqScope nid top.seqLen
          (fun items => .subSeq (.ofList items)) s3
        simp only [hbody]
        omega
    · simp [sub_sequence_run, hsl]

/-- Helper: a `repeat` scope run never decreases the name counter, provided
its body never does. -/
theorem opCounter_repeat_run (count : Int) (p : ScheduleParams)
    (body : BuilderState → BResult Unit)
    (hb : ∀ t, t.opCounter ≤ (body t).1.opCounter) (s : BuilderState) :
    s.opCounter ≤ (repeat_run count p body s).1.opCounter := by
  obtain ⟨stk, oc, unc, nid⟩ := s
  rcases stk with _ | ⟨top, rest⟩
  · simp only [repeat_run]
    split
    · simp
    · have h := hb ({ stack := [.repetition nid count []], opCounter := oc,
                      unconsumed := unc, nextId := nid + 1 })
      rcases hbody : body ({ stack := [.repetition nid count []], opCounter := oc,
                             unconsumed := unc, nextId := nid + 1 } : BuilderState)
        with ⟨s2, r⟩
      rw [hbody] at h
      dsimp only at h
      simp only [hbody]
      simpa using h
  · by_cases hsl : top.isScheduleLike = true
    · simp only [repeat_run, hsl, if_pos]
      split
      · simp
      · have h1 := opCounter_add_to_schedule (.srep count .nil) p
          ({ stack := top :: rest, opCounter := oc, unconsumed := unc,
             nextId := nid + 1 })
        rcases hr : (add_to_schedule (.srep count .nil) p
            ({ stack := top :: rest, opCounter := oc, unconsumed := unc,
               nextId := nid + 1 } : BuilderState)).2 with e | v
        · simp only [hr]
          simpa using h1
        · simp only [hr]
          set s1 := (add_to_schedule (.srep count .nil) p
            ({ stack := top :: rest, opCounter := oc, unconsumed := unc,
               nextId := nid + 1 } : BuilderState)).1 with hs1
          have h2 : s1.opCounter ≤
              ((body ({ s1 with stack := .schedRepetition nid count [] :: s1.stack } :
                BuilderState)).1).opCounter := by
            simpa using hb ({ s1 with stack := .schedRepetition nid count [] :: s1.stack })
          rcases hbody : body ({ s1 with stack := .schedRepetition nid count [] ::
              s1.stack } : BuilderState) with ⟨s3, r⟩
          rw [hbody] at h2
          dsimp only at h2
          have h4 := opCounter_closeSchedScope nid top.schedLen
            (fun items => .srep count (.ofList items)) s3
          simp only [hbody]
          simp at h1 ⊢
          omega
    · by_cases hsq : top.isSequenceLike = true
      · simp only [repeat_run, hsl, hsq, if_pos, Bool.false_eq_true, if_false]
        split
        · simp
        · have h1 : ((add_to_sequence (.repetition count .nil)
              ({ stack := top :: rest, opCounter := oc, unconsumed := unc,
                 nextId := nid + 1 } : BuilderState)).1).opCounter = oc := by
            simpa using opCounter_add_to_sequence (.repetition count .nil)
              ({ stack := top :: rest, opCounter := oc, unconsumed := unc,
                 nextId := nid + 1 })
          rcases hr : (add_to_sequence (.repetition count .nil)
              ({ stack := top :: rest, opCounter := oc, unconsumed := unc,
                 nextId := nid + 1 } : BuilderState)).2 with e | v
          · simp only [hr]
            simpa using le_of_eq h1.symm
          · simp only [hr]
            set s1 := (add_to_sequence (.repetition count .nil)
              ({ stack := top :: rest, opCounter := oc, unconsumed := unc,
                 nextId := nid + 1 } : BuilderState)).1 with hs1
            have h2 : s1.opCounter ≤
                ((body ({ s1 with stack := .repetition nid count [] :: s1.stack } :
                  BuilderState)).1).opCounter := by
              simpa using hb ({ s1 with stack := .repetition nid count [] :: s1.stack })
            rcases hbody : body ({ s1 with stack := .repetition nid count [] ::
                s1.stack } : BuilderState) with ⟨s3, r⟩
            rw [hbody] at h2
            dsimp only at h2
            have h4 := opCounter_closeSeqScope nid top.seqLen
              (fun items => .repetition count (.ofList items)) s3
            simp only [hbody]
            omega
      · simp [repeat_run, hsl, hsq]

/-- Helper: a `for_` scope run never decreases the name counter, provided
its body never does. -/
theorem opCounter_for_run (var : IterVars) (items : IterItems) (p : ScheduleParams)
    (body : BuilderState → BResult Unit)
    (hb : ∀ t, t.opCounter ≤ (body t).1.opCounter) (s : BuilderState) :
    s.opCounter ≤ (for_run var items p body s).1.opCounter := by
  cases hmk : mkIteration var items (.ofList []) with
  | error e => simp [for_run, hmk]
  | ok it =>
    obtain ⟨stk, oc, unc, nid⟩ := s
    rcases stk with _ | ⟨top, rest⟩
    · have h := hb ({ stack := [.iteration nid var items []], opCounter := oc,
                      unconsumed := unc, nextId := nid + 1 })
      rcases hbody : body ({ stack := [.iteration nid var items []], opCounter := oc,
                             unconsumed := unc, nextId := nid + 1 } : BuilderState)
        with ⟨s2, r⟩
      rw [hbody] at h
      dsimp only at h
      simp only [for_run, hmk, hbody]
      simpa using h
    · by_cases hsq : top.isSequenceLike = true
      · simp only [for_run, hmk, hsq, if_pos]
        have h1 : ((add_to_sequence (.iteration var items .nil)
            ({ stack := top :: rest, opCounter := oc, unconsumed := unc,
               nextId := nid + 1 } : BuilderState)).1).opCounter = oc := by
          simpa using opCounter_add_to_sequence (.iteration var items .nil)
            ({ stack := top :: rest, opCounter := oc, unconsumed := unc,
               nextId := nid + 1 })
        rcases hr : (add_to_sequence (.iteration var items .nil)
            ({ stack := top :: rest, opCounter := oc, unconsumed := unc,
               nextId := nid + 1 } : BuilderState)).2 with e | v
        · simp only [hr]
          simpa using le_of_eq h1.symm
        · simp only [hr]
          set s1 := (add_to_sequence (.iteration var items .nil)
            ({ stack := top :: rest, opCounter := oc, unconsumed := unc,
               nextId := nid + 1 } : BuilderState)).1 with hs1
          have h2 : s1.opCounter ≤
              ((body ({ s1 with stack := .iteration nid var items [] :: s1.stack } :
                BuilderState)).1).opCounter := by
            simpa using hb ({ s1 with stack := .iteration nid var items [] :: s1.stack })
          rcases hbody : body ({ s1 with stack := .iteration nid var items [] ::
              s1.stack } : BuilderState) with ⟨s3, r⟩
          rw [hbody] at h2
          dsimp only at h2
          have h4 := opCounter_closeSeqScope nid top.seqLen
            (fun xs => .iteration var items (.ofList xs)) s3
          simp only [hbody]
          omega
      · by_cases hsl : top.isScheduleLike = true
        · simp only [for_run, hmk, hsq, hsl, Bool.false_eq_true, if_false, if_pos]
          cases hmk2 : mkSchedIteration var items .nil with
          | error e => simp
          | ok it2 =>
            have h1 := opCounter_add_to_schedule (.siter var items .nil) p
              ({ stack := top :: rest, opCounter := oc, unconsumed := unc,
                 nextId := nid + 1 })
            rcases hr : (add_to_schedule (.siter var items .nil) p
                ({ stack := top :: rest, opCounter := oc, unconsumed := unc,
                   nextId := nid + 1 } : BuilderState)).2 with e | v
            · simp only [hr]
              simpa using h1
            · simp only [hr]
              set s1 := (add_to_schedule (.siter var items .nil) p
                ({ stack := top :: rest, opCounter := oc, unconsumed := unc,
                   nextId := nid + 1 } : BuilderState)).1 with hs1
              have h2 : s1.opCounter ≤
                  ((body ({ s1 with stack := .schedIteration nid var items [] ::
                    s1.stack } : BuilderState)).1).opCounter := by
                simpa using hb ({ s1 with stack := .schedIteration nid var items [] ::
                  s1.stack })
              rcases hbody : body ({ s1 with stack := .schedIteration nid var items []
                  :: s1.stack } : BuilderState) with ⟨s3, r⟩
              rw [hbody] at h2
              dsimp only at h2
              have h4 := opCounter_closeSchedScope nid top.schedLen
                (fun xs => .siter var items (.ofList xs)) s3
              simp only [hbody]
              simp at h1 ⊢
              omega
        · simp [for_run, hmk, hsq, hsl]

/-- Helper: an `if_` scope run never decreases the name counter, provided
its body never does. -/
theorem opCounter_if_run (var : String) (p : ScheduleParams)
    (body : BuilderState → BResult Unit)
    (hb : ∀ t, t.opCounter ≤ (body t).1.opCounter) (s : BuilderState) :
    s.opCounter ≤ (if_run var p body s).1.opCounter := by
  cases hmk : mkRefName var with
  | error e => simp [if_run, hmk]
  | ok v =>
    obtain ⟨stk, oc, unc, nid⟩ := s
    rcases stk with _ | ⟨top, rest⟩
    · have h := hb ({ stack := [.conditional nid v []], opCounter := oc,
                      unconsumed := unc, nextId := nid + 1 })
      rcases hbody : body ({ stack := [.conditional nid v []], opCounter := oc,
                             unconsumed := unc, nextId := nid + 1 } : BuilderState)
        with ⟨s2, r⟩
      rw [hbody] at h
      dsimp only at h
      simp only [if_run, hmk, hbody]
      simpa using h
    · by_cases hsq : top.isSequenceLike = true
      · simp only [if_run, hmk, hsq, if_pos]
        have h1 : ((add_to_sequence (.conditional v .nil)
            ({ stack := top :: rest, opCounter := oc, unconsumed := unc,
               nextId := nid + 1 } : BuilderState)).1).opCounter = oc := by
          simpa using opCounter_add_to_sequence (.conditional v .nil)
            ({ stack := top :: rest, opCounter := oc, unconsumed := unc,
               nextId := nid + 1 })
        rcases hr : (add_to_sequence (.conditional v .nil)
            ({ stack := top :: rest, opCounter := oc, unconsumed := unc,
               nextId := nid + 1 } : BuilderState)).2 with e | w
        · simp only [hr]
          simpa using le_of_eq h1.symm
        · simp only [hr]
          set s1 := (add_to_sequence (.conditional v .nil)
            ({ stack := top :: rest, opCounter := oc, unconsumed := unc,
               nextId := nid + 1 } : BuilderState)).1 with hs1
          have h2 : s1.opCounter ≤
              ((body ({ s1 with stack := .conditional nid v [] :: s1.stack } :
                BuilderState)).1).opCounter := by
            simpa using hb ({ s1 with stack := .conditional nid v [] :: s1.stack })
          rcases hbody : body ({ s1 with stack := .conditional nid v [] ::
              s1.stack } : BuilderState) with ⟨s3, r⟩
          rw [hbody] at h2
          dsimp only at h2
          have h4 := opCounter_closeSeqScope nid top.seqLen
            (fun xs => .conditional v (.ofList xs)) s3
          simp only [hbody]
          omega
      · by_cases hsl : top.isScheduleLike = true
        · simp only [if_run, hmk, hsq, hsl, Bool.false_eq_true, if_false, if_pos]
          have h1 := opCounter_add_to_schedule (.scond v .nil) p
            ({ stack := top :: rest, opCounter := oc, unconsumed := unc,
               nextId := nid + 1 })
          rcases hr : (add_to_schedule (.scond v .nil) p
              ({ stack := top :: rest, opCounter := oc, unconsumed := unc,
                 nextId := nid + 1 } : BuilderState)).2 with e | w
          · simp only [hr]
            simpa using h1
          · simp only [hr]
            set s1 := (add_to_schedule (.scond v .nil) p
              ({ stack := top :: rest, opCounter := oc, unconsumed := unc,
                 nextId := nid + 1 } : BuilderState)).1 with hs1
            have h2 : s1.opCounter ≤
                ((body ({ s1 with stack := .schedConditional nid v [] :: s1.stack } :
                  BuilderState)).1).opCounter := by
              simpa using hb ({ s1 with stack := .schedConditional nid v [] :: s1.stack })
            rcases hbody : body ({ s1 with stack := .schedConditional nid v [] ::
                s1.stack } : BuilderState) with ⟨s3, r⟩
            rw [hbody] at h2
            dsimp only at h2
            have h4 := opCounter_closeSchedScope nid top.schedLen
              (fun xs => .scond v (.ofList xs)) s3
            simp only [hbody]
            simp at h1 ⊢
            omega
        · simp [if_run, hmk, hsq, hsl]

/-- One builder-session step: the state transition of any single translated
builder call.  The scope constructs carry the requirement that their body
itself never decreases the name counter (true of every body composed of
builder calls, by this very relation). -/
inductive BuilderStep : BuilderState → BuilderState → Prop where
| play (ch : String) (pulse : PulseOrRef) (sa : Option ScaleAmp)
    (cond : Option String) (p : ScheduleParams) (s : BuilderState) :
    BuilderStep s (play ch pulse sa cond p s).1
| wait (chs : List String) (d : TimeValue) (p : ScheduleParams) (s : BuilderState) :
    BuilderStep s (wait chs d p s).1
| barrier (chs : List String) (s : BuilderState) : BuilderStep s (barrier chs s).1
| set_frequency (ch : String) (f : OrVar FreqValue) (p : ScheduleParams)
    (s : BuilderState) : BuilderStep s (set_frequency ch f p s).1
| shift_frequency (ch : String) (f : OrVar FreqValue) (p : ScheduleParams)
    (s : BuilderState) : BuilderStep s (shift_frequency ch f p s).1
| set_phase (ch : String) (ph : OrVar AngleValue) (p : ScheduleParams)
    (s : BuilderState) : BuilderStep s (set_phase ch ph p s).1
| shift_phase (ch : String) (ph : OrVar AngleValue) (p : ScheduleParams)
    (s : BuilderState) : BuilderStep s (shift_phase ch ph p s).1
| record (ch v : String) (d : TimeValue) (intg : IntegrationType)
    (p : ScheduleParams) (s : BuilderState) : BuilderStep s (record ch v d intg p s).1
| discriminate (tgt src : String) (thr : VoltValue) (rot : AngleValue)
    (cmp : ComparisonMode) (prj : ProjectionMode) (p : ScheduleParams)
    (s : BuilderState) : BuilderStep s (discriminate tgt src thr rot cmp prj p s).1
| store (k src : String) (m : StoreMode) (p : ScheduleParams) (s : BuilderState) :
    BuilderStep s (store k src m p s).1
| var_decl (n : String) (dt : VarDType) (shp : Option (List Int))
    (u : Option String) (s : BuilderState) : BuilderStep s (var_decl n dt shp u s).1
| create_block (info : String) (ops : List Schedulable) (s : BuilderState) :
    BuilderStep s (create_schedule_block info ops s).1
| add_block (b : ScheduleBlock) (p : ScheduleParams) (s : BuilderState) :
    BuilderStep s (add_block b p s).1
| build_sequence_scope (body : BuilderState → BResult Unit)
    (hb : ∀ t, t.opCounter ≤ (body t).1.opCounter) (s : BuilderState) :
    BuilderStep s (build_sequence_run body s).1
| sub_sequence_scope (body : BuilderState → BResult Unit)
    (hb : ∀ t, t.opCounter ≤ (body t).1.opCounter) (s : BuilderState) :
    BuilderStep s (sub_sequence_run body s).1
| build_schedule_scope (body : BuilderState → BResult Unit)
    (hb : ∀ t, t.opCounter ≤ (body t).1.opCounter) (s : BuilderState) :
    BuilderStep s (build_schedule_run body s).1
| sub_schedule_scope (p : ScheduleParams) (body : BuilderState → BResult Unit)
    (hb : ∀ t, t.opCounter ≤ (body t).1.opCounter) (s : BuilderState) :
    BuilderStep s (sub_schedule_run p body s).1
| repeat_scope (count : Int) (p : ScheduleParams) (body : BuilderState → BResult Unit)
    (hb : ∀ t, t.opCounter ≤ (body t).1.opCounter) (s : BuilderState) :
    BuilderStep s (repeat_run count p body s).1
| for_scope (var : IterVars) (items : IterItems) (p : ScheduleParams)
    (body : BuilderState → BResult Unit)
    (hb : ∀ t, t.opCounter ≤ (body t).1.opCounter) (s : BuilderState) :
    BuilderStep s (for_run var items p body s).1
| if_scope (var : String) (p : ScheduleParams) (body : BuilderState → BResult Unit)
    (hb : ∀ t, t.opCounter ≤ (body t).1.opCounter) (s : BuilderState) :
    BuilderStep s (if_run var p body s).1

/-- Reachability of one builder state from another through any number of
builder calls. -/
def BuilderReach : BuilderState → BuilderState → Prop :=
  Relation.ReflTransGen BuilderStep

/-- Helper: no single builder call ever decreases the name counter. -/
theorem opCounter_mono_step {s s2 : BuilderState} (h : BuilderStep s s2) :
    s.opCounter ≤ s2.opCounter := by
  cases h with
  | play ch pulse sa cond p s => exact opCounter_play ch pulse sa cond p s
  | wait chs d p s => exact opCounter_wait chs d p s
  | barrier chs s => exact opCounter_barrier chs s
  | set_frequency ch f p s =>
    simpa [set_frequency] using opCounter_emitter_scheduleOnly (mkSetFrequency ch f) p s
  | shift_frequency ch f p s =>
    simpa [shift_frequency] using
      opCounter_emitter_scheduleOnly (mkShiftFrequency ch f) p s
  | set_phase ch ph p s =>
    simpa [set_phase] using opCounter_emitter_scheduleOnly (mkSetPhase ch ph) p s
  | shift_phase ch ph p s =>
    simpa [shift_phase] using opCounter_emitter_scheduleOnly (mkShiftPhase ch ph) p s
  | record ch v d intg p s =>
    simpa [record] using
      opCounter_emitter_scheduleOnly (mkRecord ch v d intg none) p s
  | discriminate tgt src thr rot cmp prj p s =>
    simpa [discriminate] using
      opCounter_emitter_scheduleOnly (mkDiscriminate tgt src thr rot cmp prj) p s
  | store k src m p s =>
    simpa [store] using opCounter_emitter_scheduleOnly (mkStore k src m) p s
  | var_decl n dt shp u s => exact opCounter_var_decl n dt shp u s
  | create_block info ops s => exact opCounter_create_schedule_block info ops s
  | add_block b p s => exact opCounter_add_block b p s
  | build_sequence_scope body hb s => exact opCounter_build_sequence_run body hb s
  | sub_sequence_scope body hb s => exact opCounter_sub_sequence_run body hb s
  | build_schedule_scope body hb s => exact opCounter_build_schedule_run body hb s
  | sub_schedule_scope p body hb s => exact opCounter_sub_schedule_run p body hb s
  | repeat_scope count p body hb s => exact opCounter_repeat_run count p body hb s
  | for_scope var items p body hb s => exact opCounter_for_run var items p body hb s
  | if_scope var p body hb s => exact opCounter_if_run var p body hb s

/-- Helper: the name counter is monotone along any builder session. -/
theorem opCounter_mono_reach {s s2 : BuilderState} (h : BuilderReach s s2) :
    s.opCounter ≤ s2.opCounter := by
  induction h with
  | refl => exact le_refl _
  | tail _ hstep ih => exact le_trans ih (opCounter_mono_step hstep)

/-- Helper: with no name given, `_add_to_schedule` on a plain schedule top
appends a wrapper auto-named `op_<counter + 1>` and increments the
counter. -/
theorem add_to_schedule_autoname (op : Schedulable) (p : ScheduleParams)
    (s : BuilderState) (fid : Nat) (items : List ScheduledOperation)
    (rest : List Frame) (hstack : s.stack = .schedule fid items :: rest)
    (hname : p.name = none) :
    add_to_schedule op p s =
      ({ s with
          stack := .schedule fid (items ++
            [ScheduledOperation.mk (some ("op_" ++ toString (s.opCounter + 1)))
              (resolve_schedule_params p).rel_time (resolve_schedule_params p).ref_op
              (resolve_schedule_params p).ref_pt
              (resolve_schedule_params p).ref_pt_new op]) :: rest,
          opCounter := s.opCounter + 1 },
        .ok ⟨"op_" ++ toString (s.opCounter + 1),
          ScheduledOperation.mk (some ("op_" ++ toString (s.opCounter + 1)))
            (resolve_schedule_params p).rel_time (resolve_schedule_params p).ref_op
            (resolve_schedule_params p).ref_pt
            (resolve_schedule_params p).ref_pt_new op⟩) := by
  have hrname : (resolve_schedule_params p).name = none := by
    simp [resolve_schedule_params, hname]
  simp [add_to_schedule, hstack, hrname, generate_op_name]

/-- C9: emitting a leaf while the top of the stack is a plain sequence
appends exactly one element, the bare operation with no wrapper, to its
item list (both emission paths); the same call under a plain schedule with
no name given appends a `ScheduledOperation` auto-named `op_<n>` with
`n = opCounter + 1` while incrementing the counter; and the counter is
monotone along every builder session, so across a session the auto-assigned
`n` is strictly increasing: a second auto-named emission reached from the
first always receives a strictly larger `n`. -/
theorem C9_seq_append_and_autoname :
    (∀ (op : Op) (p : ScheduleParams) (s : BuilderState) (fid : Nat)
      (items : List SeqItem) (rest : List Frame),
      s.stack = .opSequence fid items :: rest →
      emitScheduleLike op p s =
        ({ s with stack := .opSequence fid (items ++ [.op op]) :: rest }, .ok none) ∧
      emitScheduleOnly op p s =
        ({ s with stack := .opSequence fid (items ++ [.op op]) :: rest }, .ok none)) ∧
    (∀ (op : Op) (p : ScheduleParams) (s : BuilderState) (fid : Nat)
      (items : List ScheduledOperation) (rest : List Frame),
      s.stack = .schedule fid items :: rest → p.name = none →
      ∃ so : ScheduledOperation,
        so.name = some ("op_" ++ toString (s.opCounter + 1)) ∧
        emitScheduleLike op p s =
          ({ s with stack := .schedule fid (items ++ [so]) :: rest,
                    opCounter := s.opCounter + 1 },
            .ok (some ⟨"op_" ++ toString (s.opCounter + 1), so⟩))) ∧
    (∀ s s2 : BuilderState, BuilderReach s s2 → s.opCounter ≤ s2.opCounter) ∧
    (∀ (op : Op) (p : ScheduleParams) (s s2 : BuilderState) (fid : Nat)
      (items : List ScheduledOperation) (rest : List Frame),
      s.stack = .schedule fid items :: rest → p.name = none →
      BuilderReach (emitScheduleLike op p s).1 s2 →
      s.opCounter + 1 < s2.opCounter + 1) := by
  refine ⟨?_, ?_, ?_, ?_⟩
  · intro op p s fid items rest hstack
    constructor
    · simpa [Frame.withSeqAppended] using
        (emitScheduleLike_spec op p s (.opSequence fid items) rest hstack).1 rfl
    · simpa [Frame.withSeqAppended] using
        (emitScheduleOnly_spec op p s (.opSequence fid items) rest hstack).1 rfl
  · intro op p s fid items rest hstack hname
    refine ⟨ScheduledOperation.mk (some ("op_" ++ toString (s.opCounter + 1)))
      (resolve_schedule_params p).rel_time (resolve_schedule_params p).ref_op
      (resolve_schedule_params p).ref_pt (resolve_schedule_params p).ref_pt_new
      (.op op), rfl, ?_⟩
    have hemit := (emitScheduleLike_spec op p s (.schedule fid items) rest hstack).2 rfl
    simp only at hemit
    rw [hemit, add_to_schedule_autoname (.op op) p s fid items rest hstack hname]
    simp [Except.map]
  · intro s s2 h
    exact opCounter_mono_reach h
  · intro op p s s2 fid items rest hstack hname hreach
    have h1 : (emitScheduleLike op p s).1.opCounter = s.opCounter + 1 := by
      have hemit := (emitScheduleLike_spec op p s (.schedule fid items) rest hstack).2 rfl
      simp only at hemit
      rw [hemit, add_to_schedule_autoname (.op op) p s fid items rest hstack hname]
    have h2 := opCounter_mono_reach hreach
    omega

/-- Witness for C9: a concrete emission into a sequence appends one bare
element; a concrete unnamed emission into a schedule produces the auto
name `op_1`; and after that emission any later auto name is strictly
larger, exercised with the empty session continuation. -/
theorem C9_seq_append_and_autoname_witness :
    (emitScheduleLike (.barrier ["a"]) ScheduleParams.empty
      { stack := [.opSequence 0 []], opCounter := 0, unconsumed := [], nextId := 1 } =
      ({ stack := [.opSequence 0 [.op (.barrier ["a"])]], opCounter := 0,
         unconsumed := [], nextId := 1 }, .ok none)) ∧
    (∃ so : ScheduledOperation, so.name = some "op_1" ∧
      emitScheduleLike (.barrier ["a"]) ScheduleParams.empty
        { stack := [.schedule 0 []], opCounter := 0, unconsumed := [], nextId := 1 } =
        ({ stack := [.schedule 0 [so]], opCounter := 1, unconsumed := [],
           nextId := 1 }, .ok (some ⟨"op_1", so⟩))) := by
  constructor
  · exact (C9_seq_append_and_autoname.1 (.barrier ["a"]) ScheduleParams.empty
      { stack := [.opSequence 0 []], opCounter := 0, unconsumed := [], nextId := 1 }
      0 [] [] rfl).1
  · exact C9_seq_append_and_autoname.2.1 (.barrier ["a"]) ScheduleParams.empty
      { stack := [.schedule 0 []], opCounter := 0, unconsumed := [], nextId := 1 }
      0 [] [] rfl rfl

/-- Helper: appending an item to a frame preserves its identity. -/
theorem fid_withSeqAppended (f : Frame) (i : SeqItem) :
    (f.withSeqAppended i).fid = f.fid := by
  cases f <;> rfl

/-- Helper: appending a wrapper to a frame preserves its identity. -/
theorem fid_withSchedAppended (f : Frame) (so : ScheduledOperation) :
    (f.withSchedAppended so).fid = f.fid := by
  cases f <;> rfl

/-- Helper: point updates of a frame preserve its identity. -/
theorem fid_setSeqItemAt (f : Frame) (idx : Nat) (i : SeqItem) :
    (f.setSeqItemAt idx i).fid = f.fid := by
  cases f <;> rfl

/-- Helper: wrapper updates of a frame preserve its identity. -/
theorem fid_modifySchedOpAt (f : Frame) (idx : Nat) (op : Schedulable) :
    (f.modifySchedOpAt idx op).fid = f.fid := by
  cases f <;> rfl

/-- Helper: appending to a sequence-like top succeeds and appends to that
frame, leaving the rest of the stack untouched. -/
theorem add_to_sequence_stack (i : SeqItem) (s : BuilderState) (top : Frame)
    (rest : List Frame) (h : s.stack = top :: rest)
    (hseq : top.isSequenceLike = true) :
    add_to_sequence i s =
      ({ s with stack := top.withSeqAppended i :: rest }, .ok ()) := by
  cases top <;> simp_all [add_to_sequence, Frame.isSequenceLike,
    Frame.withSeqAppended]

/-- Helper: wrapping and appending to a schedule-like top succeeds and
appends one wrapper to that frame, leaving the rest of the stack
untouched. -/
theorem add_to_schedule_stack (op : Schedulable) (p : ScheduleParams)
    (s : BuilderState) (top : Frame) (rest : List Frame)
    (h : s.stack = top :: rest) (hsl : top.isScheduleLike = true) :
    ∃ so tok, add_to_schedule op p s =
      ({ s with stack := top.withSchedAppended so :: rest,
                opCounter := (add_to_schedule op p s).1.opCounter }, .ok tok) := by
  rcases hn : (resolve_schedule_params p).name with _ | n <;>
    cases top <;>
    simp_all [add_to_schedule, Frame.isScheduleLike, Frame.withSchedAppended,
      generate_op_name]

/-- Helper: closing a nested sequence-flavored scope over a stack with at
least two frames pops exactly the top frame and keeps the identity of the
frame below it. -/
theorem closeSeqScope_stack (fid idx : Nat) (f : List SeqItem → SeqItem)
    (s : BuilderState) (x parent : Frame) (rest : List Frame)
    (h : s.stack = x :: parent :: rest) :
    ∃ parent2, (closeSeqScope fid idx f s).stack = parent2 :: rest ∧
      parent2.fid = parent.fid := by
  unfold closeSeqScope
  rw [h]
  by_cases hfid : x.fid = fid
  · simp only [hfid, if_pos rfl]
    cases hc : x.seqContents with
    | none => exact ⟨parent, rfl, rfl⟩
    | some items => exact ⟨parent.setSeqItemAt idx (f items), rfl,
        fid_setSeqItemAt parent idx (f items)⟩
  · simp only [if_neg hfid]
    exact ⟨parent, rfl, rfl⟩

/-- Helper: closing a nested schedule-flavored scope over a stack with at
least two frames pops exactly the top frame and keeps the identity of the
frame below it. -/
theorem closeSchedScope_stack (fid idx : Nat)
    (f : List ScheduledOperation → Schedulable) (s : BuilderState)
    (x parent : Frame) (rest : List Frame) (h : s.stack = x :: parent :: rest) :
    ∃ parent2, (closeSchedScope fid idx f s).stack = parent2 :: rest ∧
      parent2.fid = parent.fid := by
  unfold closeSchedScope
  rw [h]
  by_cases hfid : x.fid = fid
  · simp only [hfid, if_pos rfl]
    cases hc : x.schedContents with
    | none => exact ⟨parent, rfl, rfl⟩
    | some items => exact ⟨parent.modifySchedOpAt idx (f items), rfl,
        fid_modifySchedOpAt parent idx (f items)⟩
  · simp only [if_neg hfid]
    exact ⟨parent, rfl, rfl⟩

/-- Helper: a tail-preserving body applied to a stack whose tail is
nonempty leaves a stack of the same shape with the same tail. -/
theorem body_stack_shape (body : BuilderState → BResult Unit)
    (hb : ∀ t, ((body t).1).stack.tail = t.stack.tail) (t : BuilderState)
    (fr o : Frame) (os : List Frame) (h : t.stack = fr :: o :: os) :
    ∃ fr2, ((body t).1).stack = fr2 :: o :: os := by
  have ht := hb t
  rw [h] at ht
  cases hbs : ((body t).1).stack with
  | nil =>
    rw [hbs] at ht
    simp at ht
  | cons fr2 rest2 =>
    rw [hbs] at ht
    simp only [List.tail_cons] at ht
    subst ht
    exact ⟨fr2, rfl⟩

/-- Helper: running a tail-preserving body and then closing a nested
sequence-flavored scope leaves the outer stack intact up to the identity
of the parent frame. -/
theorem closeSeq_after_body (body : BuilderState → BResult Unit)
    (hb : ∀ t, ((body t).1).stack.tail = t.stack.tail) (s2 : BuilderState)
    (newfr parent : Frame) (rest : List Frame)
    (h : s2.stack = newfr :: parent :: rest) (fid idx : Nat)
    (reb : List SeqItem → SeqItem) :
    ∃ fr2, (closeSeqScope fid idx reb ((body s2).1)).stack = fr2 :: rest ∧
      fr2.fid = parent.fid := by
  obtain ⟨fr3, hs3⟩ := body_stack_shape body hb s2 newfr parent rest h
  exact closeSeqScope_stack fid idx reb ((body s2).1) fr3 parent rest hs3

/-- Helper: the schedule-flavored analogue of the previous lemma. -/
theorem closeSched_after_body (body : BuilderState → BResult Unit)
    (hb : ∀ t, ((body t).1).stack.tail = t.stack.tail) (s2 : BuilderState)
    (newfr parent : Frame) (rest : List Frame)
    (h : s2.stack = newfr :: parent :: rest) (fid idx : Nat)
    (reb : List ScheduledOperation → Schedulable) :
    ∃ fr2, (closeSchedScope fid idx reb ((body s2).1)).stack = fr2 :: rest ∧
      fr2.fid = parent.fid := by
  obtain ⟨fr3, hs3⟩ := body_stack_shape body hb s2 newfr parent rest h
  exact closeSchedScope_stack fid idx reb ((body s2).1) fr3 parent rest hs3

/-- Stack discipline of a scope construct run as a whole (open, body,
close): from an empty stack it returns an empty stack, and from any
nonempty stack it returns a stack with the same tail whose top frame
keeps the identity of the original top frame — no leaked or lost entry on
any exit path. -/
def popsExactlyOne (f : BuilderState → BResult Unit) : Prop :=
  ∀ s : BuilderState,
    (s.stack = [] → ((f s).1).stack = []) ∧
    (∀ fr rest, s.stack = fr :: rest →
      ∃ fr2, ((f s).1).stack = fr2 :: rest ∧ fr2.fid = fr.fid)

/-- Helper: `build_sequence` restores the stack shape on every exit
path. -/
theorem pops_build_sequence_run (body : BuilderState → BResult Unit)
    (hb : ∀ t, ((body t).1).stack.tail = t.stack.tail) :
    popsExactlyOne (build_sequence_run body) := by
  intro s
  obtain ⟨stk, oc, unc, nid⟩ := s
  have h := hb ({ stack := .opSequence nid [] :: stk, opCounter := oc,
                  unconsumed := unc, nextId := nid + 1 })
  rcases hbody : body ({ stack := .opSequence nid [] :: stk, opCounter := oc,
                         unconsumed := unc, nextId := nid + 1 } : BuilderState)
    with ⟨s2, r⟩
  rw [hbody] at h
  simp only [List.tail_cons] at h
  constructor
  · intro h0
    have h1 : stk = [] := h0
    subst h1
    simp only [build_sequence_run, hbody]
    exact h
  · intro fr rest h0
    have h1 : stk = fr :: rest := h0
    subst h1
    simp only [build_sequence_run, hbody]
    exact ⟨fr, h, rfl⟩

/-- Helper: `build_schedule` restores the stack shape on every exit path,
also when the close itself raises on unconsumed pending blocks. -/
theorem pops_build_schedule_run (body : BuilderState → BResult Unit)
    (hb : ∀ t, ((body t).1).stack.tail = t.stack.tail) :
    popsExactlyOne (build_schedule_run body) := by
  intro s
  obtain ⟨stk, oc, unc, nid⟩ := s
  have h := hb ({ stack := .schedule nid [] :: stk, opCounter := oc,
                  unconsumed := unc, nextId := nid + 1 })
  rcases hbody : body ({ stack := .schedule nid [] :: stk, opCounter := oc,
                         unconsumed := unc, nextId := nid + 1 } : BuilderState)
    with ⟨s2, r⟩
  rw [hbody] at h
  simp only [List.tail_cons] at h
  constructor
  · intro h0
    have h1 : stk = [] := h0
    subst h1
    simp only [build_schedule_run, hbody]
    split <;> exact h
  · intro fr rest h0
    have h1 : stk = fr :: rest := h0
    subst h1
    simp only [build_schedule_run, hbody]
    refine ⟨fr, ?_, rfl⟩
    split <;> exact h

/-- Helper: `sub_sequence` pops exactly its own frame on every exit path,
including the error exits where no frame was ever pushed. -/
theorem pops_sub_sequence_run (body : BuilderState → BResult Unit)
    (hb : ∀ t, ((body t).1).stack.tail = t.stack.tail) :
    popsExactlyOne (sub_sequence_run body) := by
  intro s
  obtain ⟨stk, oc, unc, nid⟩ := s
  rcases stk with _ | ⟨top, rest⟩
  · refine ⟨fun _ => ?_, fun fr rest h0 => ?_⟩
    · simp [sub_sequence_run]
    · simp at h0
  · refine ⟨fun h0 => by simp at h0, fun fr rest2 h0 => ?_⟩
    have h2 : top :: rest = fr :: rest2 := h0
    injection h2 with ha hb2
    subst ha
    subst hb2
    by_cases hsl : top.isSequenceLike = true
    · have hadd := add_to_sequence_stack (.subSeq (.ofList []))
        ({ stack := top :: rest, opCounter := oc, unconsumed := unc,
           nextId := nid + 1 }) top rest rfl hsl
      rcases hbody : body ({ stack := .opSequence nid [] :: top.withSeqAppended (.subSeq (.ofList [])) :: rest, opCounter := oc, unconsumed := unc, nextId := nid + 1 } : BuilderState) with ⟨s3, r⟩
      obtain ⟨fr2, hcl, hfid⟩ := closeSeq_after_body body hb ({ stack := .opSequence nid [] :: top.withSeqAppended (.subSeq (.ofList [])) :: rest, opCounter := oc, unconsumed := unc, nextId := nid + 1 }) (.opSequence nid []) (top.withSeqAppended (.subSeq (.ofList []))) rest rfl nid top.seqLen (fun items => .subSeq (.ofList items))
      rw [hbody] at hcl
      simp only [sub_sequence_run, hsl, if_pos, hadd, hbody]
      exact ⟨fr2, hcl,
        hfid.trans (fid_withSeqAppended top (.subSeq (.ofList [])))⟩
    · exact ⟨top, by simp [sub_sequence_run, hsl], rfl⟩

/-- Helper: `sub_schedule` pops exactly its own frame on every exit path,
also when the close raises on unconsumed pending blocks. -/
theorem pops_sub_schedule_run (p : ScheduleParams)
    (body : BuilderState → BResult Unit)
    (hb : ∀ t, ((body t).1).stack.tail = t.stack.tail) :
    popsExactlyOne (sub_schedule_run p body) := by
  intro s
  obtain ⟨stk, oc, unc, nid⟩ := s
  rcases stk with _ | ⟨top, rest⟩
  · refine ⟨fun _ => ?_, fun fr rest h0 => ?_⟩
    · simp [sub_schedule_run]
    · simp at h0
  · refine ⟨fun h0 => by simp at h0, fun fr rest2 h0 => ?_⟩
    have h2 : top :: rest = fr :: rest2 := h0
    injection h2 with ha hb2
    subst ha
    subst hb2
    by_cases hsd : top.isSchedule = true
    · have hsl : top.isScheduleLike = true := by
        cases top <;> simp_all [Frame.isSchedule, Frame.isScheduleLike]
      obtain ⟨so, tok, hadd⟩ := add_to_schedule_stack (.sched .nil) p ({ stack := top :: rest, opCounter := oc, unconsumed := unc, nextId := nid + 1 }) top rest rfl hsl
      generalize hoc : (add_to_schedule (.sched .nil) p ({ stack := top :: rest, opCounter := oc, unconsumed := unc, nextId := nid + 1 } : BuilderState)).1.opCounter = oc2 at hadd
      rcases hbody : body ({ stack := .schedule nid [] :: top.withSchedAppended so :: rest, opCounter := oc2, unconsumed := unc, nextId := nid + 1 } : BuilderState) with ⟨s3, r⟩
      obtain ⟨fr2, hcl, hfid⟩ := closeSched_after_body body hb ({ stack := .schedule nid [] :: top.withSchedAppended so :: rest, opCounter := oc2, unconsumed := unc, nextId := nid + 1 }) (.schedule nid []) (top.withSchedAppended so) rest rfl nid top.schedLen (fun items => .sched (.ofList items))
      rw [hbody] at hcl
      simp only [sub_schedule_run, hsd, if_pos, hadd, hbody]
      refine ⟨fr2, ?_, hfid.trans (fid_withSchedAppended top so)⟩
      split <;> exact hcl
    · exact ⟨top, by simp [sub_schedule_run, hsd], rfl⟩

/-- Helper: a `repeat` scope run pops exactly its own frame on every exit
path, in all three parent configurations. -/
theorem pops_repeat_run (count : Int) (p : ScheduleParams)
    (body : BuilderState → BResult Unit)
    (hb : ∀ t, ((body t).1).stack.tail = t.stack.tail) :
    popsExactlyOne (repeat_run count p body) := by
  intro s
  obtain ⟨stk, oc, unc, nid⟩ := s
  rcases stk with _ | ⟨top, rest⟩
  · refine ⟨fun _ => ?_, fun fr rest h0 => by simp at h0⟩
    have h := hb ({ stack := [.repetition nid count []], opCounter := oc, unconsumed := unc, nextId := nid + 1 })
    rcases hbody : body ({ stack := [.repetition nid count []], opCounter := oc, unconsumed := unc, nextId := nid + 1 } : BuilderState) with ⟨s2, r⟩
    rw [hbody] at h
    simp only [List.tail_cons] at h
    simp only [repeat_run]
    split
    · rfl
    · simp only [hbody]
      exact h
  · refine ⟨fun h0 => by simp at h0, fun fr rest2 h0 => ?_⟩
    have h2 : top :: rest = fr :: rest2 := h0
    injection h2 with ha hb2
    subst ha
    subst hb2
    by_cases hsl : top.isScheduleLike = true
    · obtain ⟨so, tok, hadd⟩ := add_to_schedule_stack (.srep count .nil) p ({ stack := top :: rest, opCounter := oc, unconsumed := unc, nextId := nid + 1 }) top rest rfl hsl
      generalize hoc : (add_to_schedule (.srep count .nil) p ({ stack := top :: rest, opCounter := oc, unconsumed := unc, nextId := nid + 1 } : BuilderState)).1.opCounter = oc2 at hadd
      rcases hbody : body ({ stack := .schedRepetition nid count [] :: top.withSchedAppended so :: rest, opCounter := oc2, unconsumed := unc, nextId := nid + 1 } : BuilderState) with ⟨s3, r⟩
      obtain ⟨fr2, hcl, hfid⟩ := closeSched_after_body body hb ({ stack := .schedRepetition nid count [] :: top.withSchedAppended so :: rest, opCounter := oc2, unconsumed := unc, nextId := nid + 1 }) (.schedRepetition nid count []) (top.withSchedAppended so) rest rfl nid top.schedLen (fun items => .srep count (.ofList items))
      rw [hbody] at hcl
      simp only [repeat_run, hsl, if_pos]
      split
      · exact ⟨top, rfl, rfl⟩
      · simp only [hadd, hbody]
        exact ⟨fr2, hcl, hfid.trans (fid_withSchedAppended top so)⟩
    · by_cases hsq : top.isSequenceLike = true
      · have hadd := add_to_sequence_stack (.repetition count .nil) ({ stack := top :: rest, opCounter := oc, unconsumed := unc, nextId := nid + 1 }) top rest rfl hsq
        rcases hbody : body ({ stack := .repetition nid count [] :: top.withSeqAppended (.repetition count .nil) :: rest, opCounter := oc, unconsumed := unc, nextId := nid + 1 } : BuilderState) with ⟨s3, r⟩
        obtain ⟨fr2, hcl, hfid⟩ := closeSeq_after_body body hb ({ stack := .repetition nid count [] :: top.withSeqAppended (.repetition count .nil) :: rest, opCounter := oc, unconsumed := unc, nextId := nid + 1 }) (.repetition nid count []) (top.withSeqAppended (.repetition count .nil)) rest rfl nid top.seqLen (fun items => .repetition count (.ofList items))
        rw [hbody] at hcl
        simp only [repeat_run, hsl, hsq, if_pos, Bool.false_eq_true, if_false]
        split
        · exact ⟨top, rfl, rfl⟩
        · simp only [hadd, hbody]
          exact ⟨fr2, hcl, hfid.trans (fid_withSeqAppended top (.repetition count .nil))⟩
      · exact ⟨top, by simp [repeat_run, hsl, hsq], rfl⟩

/-- Helper: a `for_` scope run pops exactly its own frame on every exit
path, including the validation-error exits where no frame is pushed. -/
theorem pops_for_run (var : IterVars) (items : IterItems) (p : ScheduleParams)
    (body : BuilderState → BResult Unit)
    (hb : ∀ t, ((body t).1).stack.tail = t.stack.tail) :
    popsExactlyOne (for_run var items p body) := by
  intro s
  cases hmk : mkIteration var items (.ofList []) with
  | error e =>
    obtain ⟨stk, oc, unc, nid⟩ := s
    rcases stk with _ | ⟨top, rest⟩
    · exact ⟨fun _ => by simp [for_run, hmk], fun fr rest h0 => by simp at h0⟩
    · refine ⟨fun h0 => by simp at h0, fun fr rest2 h0 => ?_⟩
      have h2 : top :: rest = fr :: rest2 := h0
      injection h2 with ha hb2
      subst ha
      subst hb2
      exact ⟨top, by simp [for_run, hmk], rfl⟩
  | ok it =>
    obtain ⟨stk, oc, unc, nid⟩ := s
    rcases stk with _ | ⟨top, rest⟩
    · refine ⟨fun _ => ?_, fun fr rest h0 => by simp at h0⟩
      have h := hb ({ stack := [.iteration nid var items []], opCounter := oc, unconsumed := unc, nextId := nid + 1 })
      rcases hbody : body ({ stack := [.iteration nid var items []], opCounter := oc, unconsumed := unc, nextId := nid + 1 } : BuilderState) with ⟨s2, r⟩
      rw [hbody] at h
      simp only [List.tail_cons] at h
      simp only [for_run, hmk, hbody]
      exact h
    · refine ⟨fun h0 => by simp at h0, fun fr rest2 h0 => ?_⟩
      have h2 : top :: rest = fr :: rest2 := h0
      injection h2 with ha hb2
      subst ha
      subst hb2
      by_cases hsq : top.isSequenceLike = true
      · have hadd := add_to_sequence_stack (.iteration var items .nil) ({ stack := top :: rest, opCounter := oc, unconsumed := unc, nextId := nid + 1 }) top rest rfl hsq
        rcases hbody : body ({ stack := .iteration nid var items [] :: top.withSeqAppended (.iteration var items .nil) :: rest, opCounter := oc, unconsumed := unc, nextId := nid + 1 } : BuilderState) with ⟨s3, r⟩
        obtain ⟨fr2, hcl, hfid⟩ := closeSeq_after_body body hb ({ stack := .iteration nid var items [] :: top.withSeqAppended (.iteration var items .nil) :: rest, opCounter := oc, unconsumed := unc, nextId := nid + 1 }) (.iteration nid var items []) (top.withSeqAppended (.iteration var items .nil)) rest rfl nid top.seqLen (fun xs => .iteration var items (.ofList xs))
        rw [hbody] at hcl
        simp only [for_run, hmk, hsq, if_pos, hadd, hbody]
        exact ⟨fr2, hcl, hfid.trans (fid_withSeqAppended top (.iteration var items .nil))⟩
      · by_cases hsl : top.isScheduleLike = true
        · cases hmk2 : mkSchedIteration var items .nil with
          | error e2 =>
            exact ⟨top, by simp [for_run, hmk, hsq, hsl, hmk2], rfl⟩
          | ok it2 =>
            obtain ⟨so, tok, hadd⟩ := add_to_schedule_stack (.siter var items .nil) p ({ stack := top :: rest, opCounter := oc, unconsumed := unc, nextId := nid + 1 }) top rest rfl hsl
            generalize hoc : (add_to_schedule (.siter var items .nil) p ({ stack := top :: rest, opCounter := oc, unconsumed := unc, nextId := nid + 1 } : BuilderState)).1.opCounter = oc2 at hadd
            rcases hbody : body ({ stack := .schedIteration nid var items [] :: top.withSchedAppended so :: rest, opCounter := oc2, unconsumed := unc, nextId := nid + 1 } : BuilderState) with ⟨s3, r⟩
            obtain ⟨fr2, hcl, hfid⟩ := closeSched_after_body body hb ({ stack := .schedIteration nid var items [] :: top.withSchedAppended so :: rest, opCounter := oc2, unconsumed := unc, nextId := nid + 1 }) (.schedIteration nid var items []) (top.withSchedAppended so) rest rfl nid top.schedLen (fun xs => .siter var items (.ofList xs))
            rw [hbody] at hcl
            simp only [for_run, hmk, hsq, Bool.false_eq_true, if_false, hsl, if_pos,
              hmk2, hadd, hbody]
            exact ⟨fr2, hcl, hfid.trans (fid_withSchedAppended top so)⟩
        · exact ⟨top, by simp [for_run, hmk, hsq, hsl], rfl⟩

/-- Helper: an `if_` scope run pops exactly its own frame on every exit
path, including the validation-error exits where no frame is pushed. -/
theorem pops_if_run (var : String) (p : ScheduleParams)
    (body : BuilderState → BResult Unit)
    (hb : ∀ t, ((body t).1).stack.tail = t.stack.tail) :
    popsExactlyOne (if_run var p body) := by
  intro s
  cases hmk : mkRefName var with
  | error e =>
    obtain ⟨stk, oc, unc, nid⟩ := s
    rcases stk with _ | ⟨top, rest⟩
    · exact ⟨fun _ => by simp [if_run, hmk], fun fr rest h0 => by simp at h0⟩
    · refine ⟨fun h0 => by simp at h0, fun fr rest2 h0 => ?_⟩
      have h2 : top :: rest = fr :: rest2 := h0
      injection h2 with ha hb2
      subst ha
      subst hb2
      exact ⟨top, by simp [if_run, hmk], rfl⟩
  | ok v =>
    obtain ⟨stk, oc, unc, nid⟩ := s
    rcases stk with _ | ⟨top, rest⟩
    · refine ⟨fun _ => ?_, fun fr rest h0 => by simp at h0⟩
      have h := hb ({ stack := [.conditional nid v []], opCounter := oc, unconsumed := unc, nextId := nid + 1 })
      rcases hbody : body ({ stack := [.conditional nid v []], opCounter := oc, unconsumed := unc, nextId := nid + 1 } : BuilderState) with ⟨s2, r⟩
      rw [hbody] at h
      simp only [List.tail_cons] at h
      simp only [if_run, hmk, hbody]
      exact h
    · refine ⟨fun h0 => by simp at h0, fun fr rest2 h0 => ?_⟩
      have h2 : top :: rest = fr :: rest2 := h0
      injection h2 with ha hb2
      subst ha
      subst hb2
      by_cases hsq : top.isSequenceLike = true
      · have hadd := add_to_sequence_stack (.conditional v .nil) ({ stack := top :: rest, opCounter := oc, unconsumed := unc, nextId := nid + 1 }) top rest rfl hsq
        rcases hbody : body ({ stack := .conditional nid v [] :: top.withSeqAppended (.conditional v .nil) :: rest, opCounter := oc, unconsumed := unc, nextId := nid + 1 } : BuilderState) with ⟨s3, r⟩
        obtain ⟨fr2, hcl, hfid⟩ := closeSeq_after_body body hb ({ stack := .conditional nid v [] :: top.withSeqAppended (.conditional v .nil) :: rest, opCounter := oc, unconsumed := unc, nextId := nid + 1 }) (.conditional nid v []) (top.withSeqAppended (.conditional v .nil)) rest rfl nid top.seqLen (fun xs => .conditional v (.ofList xs))
        rw [hbody] at hcl
        simp only [if_run, hmk, hsq, if_pos, hadd, hbody]
        exact ⟨fr2, hcl, hfid.trans (fid_withSeqAppended top (.conditional v .nil))⟩
      · by_cases hsl : top.isScheduleLike = true
        · obtain ⟨so, tok, hadd⟩ := add_to_schedule_stack (.scond v .nil) p ({ stack := top :: rest, opCounter := oc, unconsumed := unc, nextId := nid + 1 }) top rest rfl hsl
          generalize hoc : (add_to_schedule (.scond v .nil) p ({ stack := top :: rest, opCounter := oc, unconsumed := unc, nextId := nid + 1 } : BuilderState)).1.opCounter = oc2 at hadd
          rcases hbody : body ({ stack := .schedConditional nid v [] :: top.withSchedAppended so :: rest, opCounter := oc2, unconsumed := unc, nextId := nid + 1 } : BuilderState) with ⟨s3, r⟩
          obtain ⟨fr2, hcl, hfid⟩ := closeSched_after_body body hb ({ stack := .schedConditional nid v [] :: top.withSchedAppended so :: rest, opCounter := oc2, unconsumed := unc, nextId := nid + 1 }) (.schedConditional nid v []) (top.withSchedAppended so) rest rfl nid top.schedLen (fun xs => .scond v (.ofList xs))
          rw [hbody] at hcl
          simp only [if_run, hmk, hsq, Bool.false_eq_true, if_false, hsl, if_pos,
            hadd, hbody]
          exact ⟨fr2, hcl, hfid.trans (fid_withSchedAppended top so)⟩
        · exact ⟨top, by simp [if_run, hmk, hsq, hsl], rfl⟩

/-- A body that registers a pending schedule block against the enclosing
scope and then raises, used to exercise the scope-close discipline on an
erroring exit path. -/
def raisingBlockBody : BuilderState → BResult Unit :=
  fun s => ((create_schedule_block "block_fn at program.py:12" [] s).1,
    .error (.validationError "body raised"))

/-- The exercise body leaves the tail of the scope stack untouched. -/
theorem raisingBlockBody_tail (t : BuilderState) :
    ((raisingBlockBody t).1).stack.tail = t.stack.tail := by
  obtain ⟨stk, oc, unc, nid⟩ := t
  cases stk <;> rfl

/-- C7: for every scope-opening builder construct (`build_sequence`,
`build_schedule`, `sub_sequence`, `sub_schedule`, `repeat`, `for_`,
`if_`), one whole run of the construct — open, body, close in a `finally`
block — pops exactly the entry it pushed, on every exit path.  Whenever
the body preserves the tail of the stack it is given (it only adds and
then closes its own nested frames), the run returns a stack of exactly
the original shape: empty for empty, and otherwise the same tail with a
top frame of unchanged identity.  This holds when the body returns, when
the body raises, and when the close itself raises on unconsumed pending
blocks, so no leaked entry for the scope ever remains. -/
theorem C7_scope_close_pops (body : BuilderState → BResult Unit)
    (hb : ∀ t, ((body t).1).stack.tail = t.stack.tail) :
    popsExactlyOne (build_sequence_run body) ∧
    popsExactlyOne (build_schedule_run body) ∧
    popsExactlyOne (sub_sequence_run body) ∧
    (∀ p, popsExactlyOne (sub_schedule_run p body)) ∧
    (∀ count p, popsExactlyOne (repeat_run count p body)) ∧
    (∀ var items p, popsExactlyOne (for_run var items p body)) ∧
    (∀ var p, popsExactlyOne (if_run var p body)) :=
  ⟨pops_build_sequence_run body hb, pops_build_schedule_run body hb,
   pops_sub_sequence_run body hb, fun p => pops_sub_schedule_run p body hb,
   fun count p => pops_repeat_run count p body hb,
   fun var items p => pops_for_run var items p body hb,
   fun var p => pops_if_run var p body hb⟩

/-- Witness for C7: with a body that registers a pending block and then
raises, a `build_schedule` run from the empty stack still ends with the
empty stack while its close raises the unconsumed-blocks error naming the
block; a `sub_sequence` run and a `sub_schedule` run under concrete
one-frame stacks end with exactly one frame of the original identity even
though their bodies raised. -/
theorem C7_scope_close_pops_witness :
    (((build_schedule_run raisingBlockBody
        { stack := [], opCounter := 0, unconsumed := [], nextId := 0 }).1).stack
      = []) ∧
    ((build_schedule_run raisingBlockBody
        { stack := [], opCounter := 0, unconsumed := [], nextId := 0 }).2 =
      .error (.unconsumedScheduleBlocks "Schedule" 1
        ["block_fn at program.py:12"])) ∧
    (∃ fr2, ((sub_sequence_run raisingBlockBody
        { stack := [.opSequence 5 []], opCounter := 0, unconsumed := [],
          nextId := 7 }).1).stack = [fr2] ∧ fr2.fid = 5) ∧
    (∃ fr2, ((sub_schedule_run ScheduleParams.empty raisingBlockBody
        { stack := [.schedule 3 []], opCounter := 0, unconsumed := [],
          nextId := 4 }).1).stack = [fr2] ∧ fr2.fid = 3) := by
  have h := C7_scope_close_pops raisingBlockBody
    (fun t => raisingBlockBody_tail t)
  refine ⟨(h.2.1 _).1 rfl, rfl, ?_, ?_⟩
  · exact (h.2.2.1 _).2 (.opSequence 5 []) [] rfl
  · exact ((h.2.2.2.1 ScheduleParams.empty) _).2 (.schedule 3 []) [] rfl

/-- Client program fragment: call a `nested_schedule`-decorated function
once per spec (creation call-site paired with the captured body), keeping
none of the returned pending blocks. -/
def createBlocks : List (String × List Schedulable) → BuilderState → BResult Unit
| [], s => (s, .ok ())
| (info, ops) :: rest, s =>
  let (s1, r) := create_schedule_block info ops s
  match r with
  | .error e => (s1, .error e)
  | .ok _ => createBlocks rest s1

/-- Client program fragment: call a `nested_schedule`-decorated function
once per spec and immediately pass each returned block to `add_block`. -/
def createAndAddAll : List (String × List Schedulable) → BuilderState → BResult Unit
| [], s => (s, .ok ())
| (info, ops) :: rest, s =>
  let (s1, r) := create_schedule_block info ops s
  match r with
  | .error e => (s1, .error e)
  | .ok b =>
    let (s2, r2) := add_block b .empty s1
    match r2 with
    | .error e => (s2, .error e)
    | .ok _ => createAndAddAll rest s2

/-- The blocks `createBlocks` registers, with their consecutive
identities. -/
def mkBlocks : List (String × List Schedulable) → Nat → List ScheduleBlock
| [], _ => []
| (info, ops) :: rest, n => ⟨n, info, ops⟩ :: mkBlocks rest (n + 1)

/-- Fold of `appendBlock` over a list of blocks. -/
def appendBlocks (u : List (Nat × List ScheduleBlock)) (key : Nat) :
    List ScheduleBlock → List (Nat × List ScheduleBlock)
| [] => u
| b :: bs => appendBlocks (appendBlock u key b) key bs

/-- As many blocks are made as specs were given. -/
theorem mkBlocks_length (specs : List (String × List Schedulable)) :
    ∀ n, (mkBlocks specs n).length = specs.length := by
  induction specs with
  | nil => intro n; rfl
  | cons x rest ih =>
    intro n
    obtain ⟨info, ops⟩ := x
    simp [mkBlocks, ih]

/-- The creation call-sites of the made blocks are the given ones, in
order. -/
theorem mkBlocks_infos (specs : List (String × List Schedulable)) :
    ∀ n, (mkBlocks specs n).map ScheduleBlock.creationInfo = specs.map Prod.fst := by
  induction specs with
  | nil => intro n; rfl
  | cons x rest ih =>
    intro n
    obtain ⟨info, ops⟩ := x
    simp [mkBlocks, ih]

/-- Folding appends into a single-entry registry keeps one entry whose
list accumulates every block. -/
theorem appendBlocks_single (key : Nat) (bs : List ScheduleBlock) :
    ∀ acc, appendBlocks [(key, acc)] key bs = [(key, acc ++ bs)] := by
  induction bs with
  | nil => intro acc; simp [appendBlocks]
  | cons b rest ih =>
    intro acc
    simp [appendBlocks, appendBlock, ih]

/-- Characterization of `createBlocks` under an open schedule top: every
call succeeds, the blocks are registered against the top frame with
consecutive fresh identities, and nothing else changes. -/
theorem createBlocks_spec (specs : List (String × List Schedulable)) :
    ∀ (s : BuilderState) (f : Nat) (items : List ScheduledOperation)
      (rest : List Frame), s.stack = .schedule f items :: rest →
    createBlocks specs s =
      ({ s with unconsumed := appendBlocks s.unconsumed f (mkBlocks specs s.nextId),
                nextId := s.nextId + specs.length }, .ok ()) := by
  induction specs with
  | nil =>
    intro s f items rest h
    obtain ⟨stk, oc, unc, nid⟩ := s
    simp [createBlocks, mkBlocks, appendBlocks]
  | cons x tail ih =>
    intro s f items rest h
    obtain ⟨info, ops⟩ := x
    obtain ⟨stk, oc, unc, nid⟩ := s
    have h2 : stk = .schedule f items :: rest := h
    subst h2
    have hstep := ih ({ stack := .schedule f items :: rest, opCounter := oc,
                        unconsumed := appendBlock unc f ⟨nid, info, ops⟩,
                        nextId := nid + 1 }) f items rest rfl
    simp only [createBlocks, create_schedule_block, Frame.fid, hstep]
    have hnat : nid + 1 + tail.length = nid + (tail.length + 1) := by omega
    simp [mkBlocks, appendBlocks, List.length_cons, hnat]

/-- Executing a captured block body under a plain-schedule top always
succeeds, appends only to that top frame, and never touches the pending
registry or the identity counter. -/
theorem executeBlockBody_schedule (ops : List Schedulable) :
    ∀ (s : BuilderState) (f : Nat) (items : List ScheduledOperation)
      (rest : List Frame), s.stack = .schedule f items :: rest →
    (executeBlockBody ops s).2 = .ok () ∧
    (∃ items2, ((executeBlockBody ops s).1).stack = .schedule f items2 :: rest) ∧
    ((executeBlockBody ops s).1).unconsumed = s.unconsumed ∧
    ((executeBlockBody ops s).1).nextId = s.nextId := by
  induction ops with
  | nil =>
    intro s f items rest h
    exact ⟨rfl, ⟨items, h⟩, rfl, rfl⟩
  | cons op tail ih =>
    intro s f items rest h
    obtain ⟨so, tok, hadd⟩ := add_to_schedule_stack op .empty s
      (.schedule f items) rest h rfl
    generalize hoc : (add_to_schedule op .empty s).1.opCounter = oc2 at hadd
    simp only [Frame.withSchedAppended] at hadd
    have hrec := ih ({ s with stack := .schedule f (items ++ [so]) :: rest, opCounter := oc2 }) f (items ++ [so]) rest rfl
    simp only [executeBlockBody, hadd]
    exact hrec

/-- Closing a schedule-flavored scope over a plain-schedule parent keeps
the parent a plain schedule with the same identity and leaves the
registry and the identity counter untouched. -/
theorem closeSchedScope_schedule (fid idx : Nat)
    (reb : List ScheduledOperation → Schedulable) (s : BuilderState)
    (x : Frame) (f2 : Nat) (items4 : List ScheduledOperation)
    (rest : List Frame) (hx : s.stack = x :: .schedule f2 items4 :: rest) :
    (∃ items5, (closeSchedScope fid idx reb s).stack =
      .schedule f2 items5 :: rest) ∧
    (closeSchedScope fid idx reb s).unconsumed = s.unconsumed ∧
    (closeSchedScope fid idx reb s).nextId = s.nextId := by
  unfold closeSchedScope
  rw [hx]
  by_cases hfid : x.fid = fid
  · simp only [hfid, if_pos rfl]
    cases hc : x.schedContents with
    | none => exact ⟨⟨items4, rfl⟩, rfl, rfl⟩
    | some items2 =>
      exact ⟨⟨listModify items4 idx (fun so2 => so2.withOp (reb items2)), rfl⟩,
        rfl, rfl⟩
  · exact ⟨⟨items4, by simp only [if_neg hfid]⟩, by simp only [if_neg hfid],
      by simp only [if_neg hfid]⟩

/-- A `sub_schedule` run of a captured block under a plain-schedule top
(the inner step of `add_block`): it succeeds, keeps the top a plain
schedule over the same tail, removes the executed block from the pending
registry, deletes the fresh nested key, and consumes one identity. -/
theorem sub_schedule_block_spec (b : ScheduleBlock) (s : BuilderState)
    (f : Nat) (items : List ScheduledOperation) (rest : List Frame)
    (h : s.stack = .schedule f items :: rest)
    (hpend : lookupBlocks (removeBlockById s.unconsumed b.blockId) s.nextId = []) :
    (sub_schedule_run ScheduleParams.empty (block_execute b) s).2 = .ok () ∧
    (∃ items3, ((sub_schedule_run ScheduleParams.empty (block_execute b) s).1).stack =
      .schedule f items3 :: rest) ∧
    ((sub_schedule_run ScheduleParams.empty (block_execute b) s).1).unconsumed =
      removeBlocksKey (removeBlockById s.unconsumed b.blockId) s.nextId ∧
    ((sub_schedule_run ScheduleParams.empty (block_execute b) s).1).nextId =
      s.nextId + 1 := by
  obtain ⟨stk, oc, unc, nid⟩ := s
  have h2 : stk = .schedule f items :: rest := h
  subst h2
  have hpend2 : lookupBlocks (removeBlockById unc b.blockId) nid = [] := hpend
  obtain ⟨so0, tok0, hadd⟩ := add_to_schedule_stack (.sched .nil) ScheduleParams.empty ({ stack := .schedule f items :: rest, opCounter := oc, unconsumed := unc, nextId := nid + 1 }) (.schedule f items) rest rfl rfl
  generalize hoc : (add_to_schedule (.sched .nil) ScheduleParams.empty ({ stack := .schedule f items :: rest, opCounter := oc, unconsumed := unc, nextId := nid + 1 } : BuilderState)).1.opCounter = oc2 at hadd
  simp only [Frame.withSchedAppended] at hadd
  rcases hex : executeBlockBody b.body ({ stack := .schedule nid [] :: .schedule f (items ++ [so0]) :: rest, opCounter := oc2, unconsumed := removeBlockById unc b.blockId, nextId := nid + 1 } : BuilderState) with ⟨s3, r3⟩
  have hspec := executeBlockBody_schedule b.body ({ stack := .schedule nid [] :: .schedule f (items ++ [so0]) :: rest, opCounter := oc2, unconsumed := removeBlockById unc b.blockId, nextId := nid + 1 }) nid [] (.schedule f (items ++ [so0]) :: rest) rfl
  rw [hex] at hspec
  obtain ⟨hr3, ⟨items2, hstk3⟩, hunc3, hnid3⟩ := hspec
  have hr3e : r3 = .ok () := hr3
  subst hr3e
  have hstk3e : s3.stack = .schedule nid items2 :: .schedule f (items ++ [so0]) :: rest := hstk3
  have hunc3e : s3.unconsumed = removeBlockById unc b.blockId := hunc3
  have hnid3e : s3.nextId = nid + 1 := hnid3
  obtain ⟨⟨items5, hc1⟩, hc2, hc3⟩ := closeSchedScope_schedule nid ((Frame.schedule f items).schedLen) (fun items => .sched (.ofList items)) s3 (.schedule nid items2) f (items ++ [so0]) rest hstk3e
  refine ⟨?_, ⟨items5, ?_⟩, ?_, ?_⟩ <;>
    simp only [sub_schedule_run, Frame.isSchedule, if_pos, hadd, block_execute,
      hex, hunc3e, hpend2, List.isEmpty_nil]
  · exact hc1
  · rw [hc2, hunc3e]
  · rw [hc3, hnid3e]

/-- `add_block` of a captured block under a plain-schedule top: it
returns successfully, keeps the top a plain schedule over the same tail,
removes the block from the pending registry, and consumes one
identity. -/
theorem add_block_schedule_spec (b : ScheduleBlock) (s : BuilderState)
    (f : Nat) (items : List ScheduledOperation) (rest : List Frame)
    (h : s.stack = .schedule f items :: rest)
    (hpend : lookupBlocks (removeBlockById s.unconsumed b.blockId) s.nextId = []) :
    (∃ res, (add_block b ScheduleParams.empty s).2 = .ok res) ∧
    (∃ items3, ((add_block b ScheduleParams.empty s).1).stack =
      .schedule f items3 :: rest) ∧
    ((add_block b ScheduleParams.empty s).1).unconsumed =
      removeBlocksKey (removeBlockById s.unconsumed b.blockId) s.nextId ∧
    ((add_block b ScheduleParams.empty s).1).nextId = s.nextId + 1 := by
  obtain ⟨hok, ⟨items3, hstk⟩, hunc, hnid⟩ := sub_schedule_block_spec b s f items rest h hpend
  obtain ⟨stk, oc, unc, nid⟩ := s
  have h2 : stk = .schedule f items :: rest := h
  subst h2
  rcases hs : sub_schedule_run ScheduleParams.empty (block_execute b) ({ stack := .schedule f items :: rest, opCounter := oc, unconsumed := unc, nextId := nid } : BuilderState) with ⟨s1, r1⟩
  rw [hs] at hok hstk hunc hnid
  have hok2 : r1 = .ok () := hok
  subst hok2
  have hstk2 : s1.stack = .schedule f items3 :: rest := hstk
  have hred : ∃ v, add_block b ScheduleParams.empty ({ stack := .schedule f items :: rest, opCounter := oc, unconsumed := unc, nextId := nid } : BuilderState) = (s1, .ok v) := by
    simp only [add_block, Frame.isSchedule, if_pos, hs, hstk2]
    repeat' split
    all_goals exact ⟨_, rfl⟩
  obtain ⟨v, hred⟩ := hred
  rw [hred]
  exact ⟨⟨v, rfl⟩, ⟨items3, hstk⟩, hunc, hnid⟩

/-- Creating and immediately consuming every block, under a
plain-schedule top whose registry entry is empty: every call succeeds and
the registry entry for the top ends empty (or deleted). -/
theorem createAndAddAll_spec (specs : List (String × List Schedulable)) :
    ∀ (s : BuilderState) (f : Nat) (items : List ScheduledOperation)
      (rest : List Frame), s.stack = .schedule f items :: rest →
    (s.unconsumed = [] ∨ s.unconsumed = [(f, [])]) →
    (createAndAddAll specs s).2 = .ok () ∧
    (∃ items2, ((createAndAddAll specs s).1).stack = .schedule f items2 :: rest) ∧
    (((createAndAddAll specs s).1).unconsumed = [] ∨
      ((createAndAddAll specs s).1).unconsumed = [(f, [])]) := by
  induction specs with
  | nil =>
    intro s f items rest h hu
    exact ⟨rfl, ⟨items, h⟩, hu⟩
  | cons x tail ih =>
    intro s f items rest h hu
    obtain ⟨info, ops⟩ := x
    obtain ⟨stk, oc, unc, nid⟩ := s
    have h2 : stk = .schedule f items :: rest := h
    subst h2
    have hone : appendBlock unc f ⟨nid, info, ops⟩ = [(f, [⟨nid, info, ops⟩])] := by
      rcases hu with hu | hu
      · have h3 : unc = [] := hu
        subst h3
        rfl
      · have h3 : unc = [(f, [])] := hu
        subst h3
        simp [appendBlock]
    have hpend1 : lookupBlocks (removeBlockById ([(f, [(⟨nid, info, ops⟩ : ScheduleBlock)])]) ((⟨nid, info, ops⟩ : ScheduleBlock).blockId)) (nid + 1) = [] := by
      simp [removeBlockById, removeFirstById, lookupBlocks]
    obtain ⟨⟨res, hres⟩, ⟨items3, hstk3⟩, hunc3, hnid3⟩ := add_block_schedule_spec (⟨nid, info, ops⟩ : ScheduleBlock) ({ stack := .schedule f items :: rest, opCounter := oc, unconsumed := [(f, [⟨nid, info, ops⟩])], nextId := nid + 1 }) f items rest rfl hpend1
    rcases hab : add_block (⟨nid, info, ops⟩ : ScheduleBlock) ScheduleParams.empty ({ stack := .schedule f items :: rest, opCounter := oc, unconsumed := [(f, [⟨nid, info, ops⟩])], nextId := nid + 1 } : BuilderState) with ⟨s2, r2⟩
    rw [hab] at hres hstk3 hunc3 hnid3
    have hres2 : r2 = .ok res := hres
    subst hres2
    have hstk2 : s2.stack = .schedule f items3 :: rest := hstk3
    have hunc2 : s2.unconsumed = removeBlocksKey (removeBlockById [(f, [⟨nid, info, ops⟩])] ((⟨nid, info, ops⟩ : ScheduleBlock).blockId)) (nid + 1) := hunc3
    have hu2 : s2.unconsumed = [] ∨ s2.unconsumed = [(f, [])] := by
      rw [hunc2]
      by_cases hfe : f = nid + 1 <;>
        simp [removeBlockById, removeFirstById, removeBlocksKey, hfe]
    have hrec := ih s2 f items3 rest hstk2 hu2
    simp only [createAndAddAll, create_schedule_block, Frame.fid, hone, hab]
    exact hrec

/-- Pending blocks created while the plain `Schedule` of a
`build_schedule` scope is top-of-stack, starting from an empty pending
registry: if the body creates the given blocks and consumes none of
them, the close raises the unconsumed-blocks error reporting exactly how
many they are and their creation call-sites in creation order, while
still popping the scope; if the body instead passes each created block
to `add_block` before the close, the whole run returns successfully and
also restores the stack. -/
theorem build_schedule_pending_spec (specs : List (String × List Schedulable))
    (s0 : BuilderState) (h0 : s0.unconsumed = []) :
    (specs ≠ [] →
      (build_schedule_run (createBlocks specs) s0).2 =
        .error (.unconsumedScheduleBlocks "Schedule" specs.length
          (specs.map Prod.fst)) ∧
      ((build_schedule_run (createBlocks specs) s0).1).stack = s0.stack) ∧
    ((build_schedule_run (createAndAddAll specs) s0).2 = .ok () ∧
      ((build_schedule_run (createAndAddAll specs) s0).1).stack = s0.stack) := by
  obtain ⟨stk, oc, unc, nid⟩ := s0
  have h0e : unc = [] := h0
  subst h0e
  constructor
  · intro hne
    rcases specs with _ | ⟨⟨i0, o0⟩, tl⟩
    · exact absurd rfl hne
    · have hcb := createBlocks_spec ((i0, o0) :: tl) ({ stack := .schedule nid [] :: stk, opCounter := oc, unconsumed := [], nextId := nid + 1 }) nid [] stk rfl
      have hreg : appendBlocks ([] : List (Nat × List ScheduleBlock)) nid (mkBlocks ((i0, o0) :: tl) (nid + 1)) = [(nid, mkBlocks ((i0, o0) :: tl) (nid + 1))] := by
        simp [mkBlocks, appendBlocks, appendBlock, appendBlocks_single]
      have hlook : lookupBlocks [(nid, mkBlocks ((i0, o0) :: tl) (nid + 1))] nid = mkBlocks ((i0, o0) :: tl) (nid + 1) := by
        simp [lookupBlocks]
      have hne2 : (mkBlocks ((i0, o0) :: tl) (nid + 1)).isEmpty = false := by
        simp [mkBlocks]
      refine ⟨?_, ?_⟩ <;>
        simp only [build_schedule_run, hcb, hreg, hlook, hne2,
          Bool.false_eq_true, if_false, mkBlocks_length, mkBlocks_infos,
          List.tail_cons]
  · have hb := createAndAddAll_spec specs ({ stack := .schedule nid [] :: stk, opCounter := oc, unconsumed := [], nextId := nid + 1 }) nid [] stk rfl (Or.inl rfl)
    rcases hca : createAndAddAll specs ({ stack := .schedule nid [] :: stk, opCounter := oc, unconsumed := [], nextId := nid + 1 } : BuilderState) with ⟨s2, r2⟩
    rw [hca] at hb
    obtain ⟨hok, ⟨items2, hstk⟩, hu2⟩ := hb
    have hok2 : r2 = .ok () := hok
    subst hok2
    have hstk2 : s2.stack = .schedule nid items2 :: stk := hstk
    have hpe : (lookupBlocks s2.unconsumed nid).isEmpty = true := by
      rcases hu2 with hu2 | hu2
      · have h3 : s2.unconsumed = [] := hu2
        simp [h3, lookupBlocks]
      · have h3 : s2.unconsumed = [(nid, [])] := hu2
        simp [h3, lookupBlocks]
    refine ⟨?_, ?_⟩ <;>
      simp only [build_schedule_run, hca, hpe, if_pos, hstk2, List.tail_cons]

/-- The pending-block claim as frozen, at a refuting instance: a pending
block created inside an open schedule-like scope — here the body of a
`repeat` under `build_schedule`, whose top frame is the schedule-flavored
`SchedRepetition` — with the block never passed to `add_block`, makes the
close of that scope raise an error, so the whole program cannot complete
successfully. -/
def C4PendingClaim : Prop :=
  ∀ (info : String) (bodyOps : List Schedulable),
    (build_schedule_run
      (repeat_run 2 ScheduleParams.empty
        (fun s => ((create_schedule_block info bodyOps s).1, .ok ())))
      BuilderState.initial).2 ≠ .ok ()

/-- C4, counterexample to the claim as stated: a block created while a
schedule-flavored control-flow body is top-of-stack is registered under
that body's identity, the `repeat` close performs no pending check at
all, and the `build_schedule` close checks only its own schedule's
registry entry, so the program finishes with no error and the block
silently leaks. -/
theorem C4_counterexample : ¬ C4PendingClaim :=
  fun h => h "block_fn at prog.py:7" [] rfl

/-- C4, amended: a pending block is registered against the frame on top
of the stack at its creation, and only the `build_schedule` and
`sub_schedule` closes consult the registry, each for its own plain
schedule frame.  For blocks created while the plain `Schedule` of a
`build_schedule` scope is on top, the claim holds: starting from an
empty registry, consuming none of the N created blocks makes the close
raise the unconsumed-blocks error reporting exactly those N blocks and
their creation call-sites in creation order (while still popping the
scope), and passing every block to `add_block` before the close makes
the whole run succeed with the stack restored.  But a block created
while a schedule-flavored control-flow body is on top (here a `repeat`
body) is registered under that body's identity, which no close ever
checks: the program completes with no error and the block stays in the
registry forever. -/
theorem C4_pending_blocks_amended :
    (∀ (specs : List (String × List Schedulable)) (s0 : BuilderState),
      s0.unconsumed = [] →
      (specs ≠ [] →
        (build_schedule_run (createBlocks specs) s0).2 =
          .error (.unconsumedScheduleBlocks "Schedule" specs.length
            (specs.map Prod.fst)) ∧
        ((build_schedule_run (createBlocks specs) s0).1).stack = s0.stack) ∧
      ((build_schedule_run (createAndAddAll specs) s0).2 = .ok () ∧
        ((build_schedule_run (createAndAddAll specs) s0).1).stack = s0.stack)) ∧
    (∀ (info : String) (bodyOps : List Schedulable),
      (build_schedule_run
        (repeat_run 2 ScheduleParams.empty
          (fun s => ((create_schedule_block info bodyOps s).1, .ok ())))
        BuilderState.initial).2 = .ok () ∧
      ((build_schedule_run
        (repeat_run 2 ScheduleParams.empty
          (fun s => ((create_schedule_block info bodyOps s).1, .ok ())))
        BuilderState.initial).1).unconsumed = [(1, [⟨2, info, bodyOps⟩])]) :=
  ⟨fun specs s0 h0 => build_schedule_pending_spec specs s0 h0,
   fun _ _ => ⟨rfl, rfl⟩⟩

/-- Witness for C4: two concrete blocks created under the plain schedule
top of `build_schedule` and never consumed make the close raise the
unconsumed-blocks error naming both creation call-sites in order with
the stack restored; the same two blocks each passed to `add_block` let
the run succeed; and one concrete block created inside a `repeat` body
under `build_schedule` leaks, the run finishing with no error while the
block stays registered under the repetition frame's identity. -/
theorem C4_pending_blocks_amended_witness :
    ((build_schedule_run (createBlocks [("block_a at prog.py:3", []),
        ("block_b at prog.py:9", [.srep 2 .nil])])
        { stack := [], opCounter := 0, unconsumed := [], nextId := 0 }).2 =
      .error (.unconsumedScheduleBlocks "Schedule" 2
        ["block_a at prog.py:3", "block_b at prog.py:9"]) ∧
     ((build_schedule_run (createBlocks [("block_a at prog.py:3", []),
        ("block_b at prog.py:9", [.srep 2 .nil])])
        { stack := [], opCounter := 0, unconsumed := [], nextId := 0 }).1).stack
       = []) ∧
    ((build_schedule_run (createAndAddAll [("block_a at prog.py:3", []),
        ("block_b at prog.py:9", [.srep 2 .nil])])
        { stack := [], opCounter := 0, unconsumed := [], nextId := 0 }).2 =
      .ok ()) ∧
    ((build_schedule_run
        (repeat_run 2 ScheduleParams.empty
          (fun s => ((create_schedule_block "block_fn at prog.py:7" [] s).1,
            .ok ())))
        BuilderState.initial).2 = .ok () ∧
     ((build_schedule_run
        (repeat_run 2 ScheduleParams.empty
          (fun s => ((create_schedule_block "block_fn at prog.py:7" [] s).1,
            .ok ())))
        BuilderState.initial).1).unconsumed =
       [(1, [⟨2, "block_fn at prog.py:7", []⟩])]) := by
  have h := C4_pending_blocks_amended
  have ha := h.1 [("block_a at prog.py:3", []), ("block_b at prog.py:9", [.srep 2 .nil])]
    { stack := [], opCounter := 0, unconsumed := [], nextId := 0 } rfl
  exact ⟨ha.1 (by simp), ha.2.1, h.2 "block_fn at prog.py:7" []⟩

/-- Keys of an object field list built from a Lean list are the pair
heads, in order. -/
theorem keys_ofList (l : List (String × Json)) :
    (JsonFields.ofList l).keys = l.map Prod.fst := by
  induction l with
  | nil => rfl
  | cons x xs ih =>
    obtain ⟨k, v⟩ := x
    simp [JsonFields.ofList, JsonFields.keys, ih]

/-- Keys of an object built from a Lean list of fields. -/
theorem keys_objL (l : List (String × Json)) :
    (Json.objL l).keys = l.map Prod.fst := by
  simp [Json.objL, Json.keys, keys_ofList]

/-- C3: default suppression in the serialized form of every leaf
operation.  The `op_type` discriminator is always emitted; for each
variant the emitted key set is exactly the required keys followed by one
key per optional field holding a non-default value: a field equal to its
default (`None` for the optional fields, zero rotation, `>=` comparison,
real-part projection for `discriminate`) never appears, and making
exactly one field non-default emits exactly that one additional key. -/
theorem C3_default_suppression :
    (∀ o : Op, (Op.serialize o).get "op_type" = some (.str o.opType)) ∧
    (∀ ch p sa cond, ((Op.play ch p sa cond).serialize).keys =
      ["op_type", "channel", "pulse"]
        ++ (match sa with | none => [] | some _ => ["scale_amp"])
        ++ (match cond with | none => [] | some _ => ["cond"])) ∧
    (∀ ch v d intg tof, ((Op.record ch v d intg tof).serialize).keys =
      ["op_type", "channel", "var", "duration", "integration"]
        ++ (match tof with | none => [] | some _ => ["time_of_flight"])) ∧
    (∀ ch v d intg tof, ((Op.trace ch v d intg tof).serialize).keys =
      ["op_type", "channel", "var", "duration"]
        ++ (match intg with | none => [] | some _ => ["integration"])
        ++ (match tof with | none => [] | some _ => ["time_of_flight"])) ∧
    (∀ ch d ma rt ft, ((Op.dc_comp ch d ma rt ft).serialize).keys =
      ["op_type", "channel", "duration"]
        ++ (match ma with | none => [] | some _ => ["max_amp"])
        ++ (match rt with | none => [] | some _ => ["rise_time"])
        ++ (match ft with | none => [] | some _ => ["fall_time"])) ∧
    (∀ n dt shp unit, ((Op.var_decl n dt shp unit).serialize).keys =
      ["op_type", "name", "dtype"]
        ++ (match shp with | none => [] | some _ => ["shape"])
        ++ (match unit with | none => [] | some _ => ["unit"])) ∧
    (∀ tgt src thr rot cmp prj,
      ((Op.discriminate tgt src thr rot cmp prj).serialize).keys =
      ["op_type", "target", "source", "threshold"]
        ++ (if rot.raw = 0 then [] else ["rotation"])
        ++ (match cmp with | .GreaterEqual => [] | _ => ["compare"])
        ++ (match prj with | .RealPart => [] | _ => ["project"])) ∧
    (∀ chs d, ((Op.wait chs d).serialize).keys =
      ["op_type", "channels", "duration"]) ∧
    (∀ chs, ((Op.barrier chs).serialize).keys = ["op_type", "channels"]) ∧
    (∀ ch f, ((Op.set_frequency ch f).serialize).keys =
      ["op_type", "channel", "frequency"]) ∧
    (∀ ch f, ((Op.shift_frequency ch f).serialize).keys =
      ["op_type", "channel", "frequency"]) ∧
    (∀ ch ph, ((Op.set_phase ch ph).serialize).keys =
      ["op_type", "channel", "phase"]) ∧
    (∀ ch ph, ((Op.shift_phase ch ph).serialize).keys =
      ["op_type", "channel", "phase"]) ∧
    (∀ n p, ((Op.pulse_decl n p).serialize).keys =
      ["op_type", "name", "pulse"]) ∧
    (∀ k src m, ((Op.store k src m).serialize).keys =
      ["op_type", "key", "source", "mode"]) := by
  refine ⟨?_, ?_, ?_, ?_, ?_, ?_, ?_, ?_, ?_, ?_, ?_, ?_, ?_, ?_, ?_⟩
  · intro o
    cases o <;>
      simp [Op.serialize, Json.objL, Json.get, JsonFields.ofList, JsonFields.get,
        Op.opType, optField, List.cons_append]
  · intro ch p sa cond
    rcases sa with _ | sa <;> rcases cond with _ | cond <;>
      simp [Op.serialize, optField, keys_objL]
  · intro ch v d intg tof
    rcases tof with _ | tof <;> simp [Op.serialize, optField, keys_objL]
  · intro ch v d intg tof
    rcases intg with _ | intg <;> rcases tof with _ | tof <;>
      simp [Op.serialize, optField, keys_objL]
  · intro ch d ma rt ft
    rcases ma with _ | ma <;> rcases rt with _ | rt <;> rcases ft with _ | ft <;>
      simp [Op.serialize, optField, keys_objL]
  · intro n dt shp unit
    rcases shp with _ | shp <;> rcases unit with _ | unit <;>
      simp [Op.serialize, optField, keys_objL]
  · intro tgt src thr rot cmp prj
    by_cases hr : rot.raw = 0 <;> cases cmp <;> cases prj <;>
      simp [Op.serialize, optField, keys_objL, hr]
  · intro chs d
    simp [Op.serialize, keys_objL]
  · intro chs
    simp [Op.serialize, keys_objL]
  · intro ch f
    simp [Op.serialize, keys_objL]
  · intro ch f
    simp [Op.serialize, keys_objL]
  · intro ch ph
    simp [Op.serialize, keys_objL]
  · intro ch ph
    simp [Op.serialize, keys_objL]
  · intro n p
    simp [Op.serialize, keys_objL]
  · intro k src m
    simp [Op.serialize, keys_objL]

/-- Concrete square pulse with every optional field at its default. -/
def exSquareDef : PulseType := .square (.val (.us 5)) (.val (.V (.int 1))) none none

/-- Concrete square pulse with every optional field populated. -/
def exSquareFull : PulseType :=
  .square (.var "dur") (.val (.mV (.cplx 1 2))) (some (.val (.ns 3)))
    (some (.var "ftv"))

/-- Concrete sine pulse with every optional field at its default. -/
def exSineDef : PulseType :=
  .sine (.val (.us 5)) (.val (.V (.int 1))) (.val (.MHz 10)) none

/-- Concrete sine pulse with every optional field populated. -/
def exSineFull : PulseType :=
  .sine (.val (.us 5)) (.var "amp") (.var "fr") (some (.val (.GHz 1)))

/-- Concrete external pulse with every optional field at its default. -/
def exExternalDef : PulseType :=
  .external (.val (.us 5)) (.val (.V (.int 1))) "mod.fn" none

/-- Concrete external pulse with a populated parameter record covering
every parameter-value member. -/
def exExternalFull : PulseType :=
  .external (.val (.us 5)) (.val (.V (.int 1))) "mod.fn"
    (some [("a", .num 3), ("b", .varRef "x"), ("c", .duration (.ns 2)),
      ("amp", .amplitude (.V (.int 2))), ("f", .frequency (.MHz 5)),
      ("s", .text "hello world")])

/-- Concrete arbitrary pulse with every optional field at its default. -/
def exArbitraryDef : PulseType :=
  .arbitrary (.val (.us 5)) (.val (.V (.int 1))) (.real [1, 2, 3]) none none

/-- Concrete arbitrary pulse with complex samples and every optional field
populated. -/
def exArbitraryFull : PulseType :=
  .arbitrary (.val (.us 5)) (.val (.V (.int 1))) (.cplx [(1, 2), (3, 4)])
    (some "linear") (some [0, 1, 2])

/-- Concrete scheduled operation with every optional field at its
default. -/
def exSchedOpDef : ScheduledOperation := .mk none none none none none (.op (.barrier ["a"]))

/-- Concrete scheduled operation with every optional field populated. -/
def exSchedOpFull : ScheduledOperation :=
  .mk (some "op_1") (some (.ns 5)) (some "op_0") (some .Start) (some .End)
    (.op (.wait ["a", "b"] (.us 4)))

/-- C2: deserializing the serialized form is the identity, exercised on a
concrete all-default and a concrete fully-populated instance of every IR
node kind: each leaf-operation variant (with each pulse shape for pulse
declarations), each sequence-item kind including the three control-flow
nodes, bare sequences, scheduled operations, each schedulable kind and
schedules. -/
theorem C2_roundtrip :
    (deserializeOp (Op.serialize (.play "ch" (.ref "p0") none none)) =
      some (.play "ch" (.ref "p0") none none)) ∧
    (deserializeOp (Op.serialize (.play "ch" (.pulse exSquareFull) (some (.num 2)) (some "flag"))) =
      some (.play "ch" (.pulse exSquareFull) (some (.num 2)) (some "flag"))) ∧
    (deserializeOp (Op.serialize (.wait ["a", "b"] (.us 4))) =
      some (.wait ["a", "b"] (.us 4))) ∧
    (deserializeOp (Op.serialize (.barrier ["q0"])) =
      some (.barrier ["q0"])) ∧
    (deserializeOp (Op.serialize (.set_frequency "ch" (.val (.MHz 100)))) =
      some (.set_frequency "ch" (.val (.MHz 100)))) ∧
    (deserializeOp (Op.serialize (.set_frequency "ch" (.var "fv"))) =
      some (.set_frequency "ch" (.var "fv"))) ∧
    (deserializeOp (Op.serialize (.shift_frequency "ch" (.val (.kHz 7)))) =
      some (.shift_frequency "ch" (.val (.kHz 7)))) ∧
    (deserializeOp (Op.serialize (.set_phase "ch" (.val (.deg 90)))) =
      some (.set_phase "ch" (.val (.deg 90)))) ∧
    (deserializeOp (Op.serialize (.shift_phase "ch" (.var "ph"))) =
      some (.shift_phase "ch" (.var "ph"))) ∧
    (deserializeOp (Op.serialize (.record "ch" "v" (.us 1) .full none)) =
      some (.record "ch" "v" (.us 1) .full none)) ∧
    (deserializeOp (Op.serialize (.record "ch" "v" (.us 1) (.demod (some (.rad 1)) 2 3) (some (.ns 7)))) =
      some (.record "ch" "v" (.us 1) (.demod (some (.rad 1)) 2 3) (some (.ns 7)))) ∧
    (deserializeOp (Op.serialize (.trace "ch" "v" (.us 1) none none)) =
      some (.trace "ch" "v" (.us 1) none none)) ∧
    (deserializeOp (Op.serialize (.trace "ch" "v" (.us 1) (some (.demod none 1 1)) (some (.ns 2)))) =
      some (.trace "ch" "v" (.us 1) (some (.demod none 1 1)) (some (.ns 2)))) ∧
    (deserializeOp (Op.serialize (.dc_comp "ch" none none none none)) =
      some (.dc_comp "ch" none none none none)) ∧
    (deserializeOp (Op.serialize (.dc_comp "ch" (some (.val (.ms 2))) (some (.mV 5)) (some (.var "rt")) (some (.val (.ns 1))))) =
      some (.dc_comp "ch" (some (.val (.ms 2))) (some (.mV 5)) (some (.var "rt")) (some (.val (.ns 1))))) ∧
    (deserializeOp (Op.serialize (.var_decl "x" .int none none)) =
      some (.var_decl "x" .int none none)) ∧
    (deserializeOp (Op.serialize (.var_decl "x" .float (some [2, 3]) (some "V"))) =
      some (.var_decl "x" .float (some [2, 3]) (some "V"))) ∧
    (deserializeOp (Op.serialize (.pulse_decl "p1" exSquareDef)) =
      some (.pulse_decl "p1" exSquareDef)) ∧
    (deserializeOp (Op.serialize (.pulse_decl "p1" exSquareFull)) =
      some (.pulse_decl "p1" exSquareFull)) ∧
    (deserializeOp (Op.serialize (.pulse_decl "p1" exSineDef)) =
      some (.pulse_decl "p1" exSineDef)) ∧
    (deserializeOp (Op.serialize (.pulse_decl "p1" exSineFull)) =
      some (.pulse_decl "p1" exSineFull)) ∧
    (deserializeOp (Op.serialize (.pulse_decl "p1" exExternalDef)) =
      some (.pulse_decl "p1" exExternalDef)) ∧
    (deserializeOp (Op.serialize (.pulse_decl "p1" exExternalFull)) =
      some (.pulse_decl "p1" exExternalFull)) ∧
    (deserializeOp (Op.serialize (.pulse_decl "p1" exArbitraryDef)) =
      some (.pulse_decl "p1" exArbitraryDef)) ∧
    (deserializeOp (Op.serialize (.pulse_decl "p1" exArbitraryFull)) =
      some (.pulse_decl "p1" exArbitraryFull)) ∧
    (deserializeOp (Op.serialize (.discriminate "t" "s" (.mV 3) (.deg 0) .GreaterEqual .RealPart)) =
      some (.discriminate "t" "s" (.mV 3) (.deg 0) .GreaterEqual .RealPart)) ∧
    (deserializeOp (Op.serialize (.discriminate "t" "s" (.V 1) (.rad 2) .Less .Magnitude)) =
      some (.discriminate "t" "s" (.V 1) (.rad 2) .Less .Magnitude)) ∧
    (deserializeOp (Op.serialize (.store "k" "src" .Average)) =
      some (.store "k" "src" .Average)) ∧
    (deserializeSeqItem (SeqItem.serialize (.op (.barrier ["a"]))) =
      some (.op (.barrier ["a"]))) ∧
    (deserializeSeqItem (SeqItem.serialize (.subSeq .nil)) =
      some (.subSeq .nil)) ∧
    (deserializeSeqItem (SeqItem.serialize (.subSeq (.ofList [.op (.wait ["a"] (.ns 1)), .op (.barrier ["a"])]))) =
      some (.subSeq (.ofList [.op (.wait ["a"] (.ns 1)), .op (.barrier ["a"])]))) ∧
    (deserializeSeqItem (SeqItem.serialize (.repetition 0 .nil)) =
      some (.repetition 0 .nil)) ∧
    (deserializeSeqItem (SeqItem.serialize (.repetition 3 (.ofList [.op (.barrier ["a"])]))) =
      some (.repetition 3 (.ofList [.op (.barrier ["a"])]))) ∧
    (deserializeSeqItem (SeqItem.serialize (.iteration (.single "i") (.scalar (.range 0 10 2)) (.ofList [.op (.barrier ["a"])]))) =
      some (.iteration (.single "i") (.scalar (.range 0 10 2)) (.ofList [.op (.barrier ["a"])]))) ∧
    (deserializeSeqItem (SeqItem.serialize (.iteration (.list ["i", "j"]) (.listOf [.strs ["a", "b"], .seq (.array [1, 2])]) .nil)) =
      some (.iteration (.list ["i", "j"]) (.listOf [.strs ["a", "b"], .seq (.array [1, 2])]) .nil)) ∧
    (deserializeSeqItem (SeqItem.serialize (.conditional "flag" (.ofList [.op (.barrier ["a"])]))) =
      some (.conditional "flag" (.ofList [.op (.barrier ["a"])]))) ∧
    (deserializeOpSequence (serializeOpSequence .nil) = some .nil) ∧
    (deserializeOpSequence (serializeOpSequence (.ofList [.op (.barrier ["a"]), .repetition 2 (.ofList [.op (.wait ["a"] (.ns 1))]), .subSeq .nil])) = some (.ofList [.op (.barrier ["a"]), .repetition 2 (.ofList [.op (.wait ["a"] (.ns 1))]), .subSeq .nil])) ∧
    (deserializeScheduledOperation (ScheduledOperation.serialize exSchedOpDef) =
      some exSchedOpDef) ∧
    (deserializeScheduledOperation (ScheduledOperation.serialize exSchedOpFull) =
      some exSchedOpFull) ∧
    (deserializeSchedulable (Schedulable.serialize (.sched (.ofList [exSchedOpDef]))) =
      some (.sched (.ofList [exSchedOpDef]))) ∧
    (deserializeSchedulable (Schedulable.serialize (.srep 2 (.ofList [exSchedOpDef]))) =
      some (.srep 2 (.ofList [exSchedOpDef]))) ∧
    (deserializeSchedulable (Schedulable.serialize (.siter (.single "i") (.scalar (.array [1, 2])) .nil)) =
      some (.siter (.single "i") (.scalar (.array [1, 2])) .nil)) ∧
    (deserializeSchedulable (Schedulable.serialize (.scond "flag" (.ofList [exSchedOpDef]))) =
      some (.scond "flag" (.ofList [exSchedOpDef]))) ∧
    (deserializeSchedule (serializeSchedule .nil) = some .nil) ∧
    (deserializeSchedule (serializeSchedule (.ofList [exSchedOpDef, exSchedOpFull])) = some (.ofList [exSchedOpDef, exSchedOpFull])) :=
  ⟨rfl, rfl, rfl, rfl, rfl, rfl, rfl, rfl, rfl, rfl, rfl, rfl, rfl, rfl, rfl, rfl, rfl, rfl, rfl, rfl, rfl, rfl, rfl, rfl, rfl, rfl, rfl, rfl, rfl, rfl, rfl, rfl, rfl, rfl, rfl, rfl, rfl, rfl, rfl, rfl, rfl, rfl, rfl, rfl, rfl, rfl⟩

end EqPulse
